import Mathlib

/-!
# PenguPilot position/speed estimator: Kalman filter bank

Shallow embedding of `pos_speed_est_neu/service/pos.c` (the four two-state
Kalman filters behind `pos_init` / `pos_update`) in exact arithmetic, with
the properties of its predict/correct cycle.

Numbers: a C `float` is modelled by `Flt`, a rational number or `nan`.
The filter is embedded in exact arithmetic: its operations do not round, and
`nan` stands for every non-finite value; it is produced by a division by
zero, after which it propagates through `+`, `-` and `*` exactly as an IEEE
NaN does. The properties proved of the filter are properties in exact
arithmetic. Where the rounding of the C `float` (IEEE 754 binary32) decides
a property, the rounded operations of the section "Binary32 rounding" are
used and named with the suffix `_f32`.
-/

namespace PenguPilot

/-! ## Numbers -/

/-- Value of a C `float` in exact arithmetic: a rational number, or `nan`
for a value that is not a finite number. -/
inductive Flt where
  | fin (q : ℚ)
  | nan
deriving DecidableEq

namespace Flt

/-- Sum of two floats; not a number as soon as one operand is not. -/
def add : Flt → Flt → Flt
  | fin a, fin b => fin (a + b)
  | _, _ => nan

/-- Difference of two floats. -/
def sub : Flt → Flt → Flt
  | fin a, fin b => fin (a - b)
  | _, _ => nan

/-- Product of two floats (also `0 * nan = nan`, as in IEEE arithmetic). -/
def mul : Flt → Flt → Flt
  | fin a, fin b => fin (a * b)
  | _, _ => nan

/-- Negation. -/
def neg : Flt → Flt
  | fin a => fin (-a)
  | nan => nan

/-- Quotient of two floats; dividing by zero gives no finite number. -/
def div : Flt → Flt → Flt
  | fin a, fin b => if b = 0 then nan else fin (a / b)
  | _, _ => nan

instance : Add Flt := ⟨add⟩
instance : Sub Flt := ⟨sub⟩
instance : Mul Flt := ⟨mul⟩
instance : Neg Flt := ⟨neg⟩
instance : Div Flt := ⟨div⟩

/-- Value of a C boolean used as a float: `1.0f * b`. -/
def ofBool (b : Bool) : Flt := fin 1 * fin (if b then 1 else 0)

end Flt

/-! ## Vectors and matrices (`math/mat.h`) -/

/-- Storage declared by `VEC_DECL(1)`: `ve[0]`. -/
structure vec1_t where
  ve0 : Flt
deriving DecidableEq

/-- Two-component vector `vec2_t`: `ve[0]`, `ve[1]`. -/
structure vec2_t where
  ve0 : Flt
  ve1 : Flt
deriving DecidableEq

/-- Storage declared by `MAT_DECL(2, 2)`: `me[i][j]`. -/
structure mat2x2_t where
  me00 : Flt
  me01 : Flt
  me10 : Flt
  me11 : Flt
deriving DecidableEq

/-- Storage declared by `MAT_DECL(2, 1)`: `me[0][0]`, `me[1][0]`. -/
structure mat2x1_t where
  me00 : Flt
  me10 : Flt
deriving DecidableEq

/-- Modelled from the spec: `vec1_init` of `math/mat.h` (not among the
sources); a fresh vector holds zeros ("no measurement or control yet"). -/
def vec1_init : vec1_t := ⟨.fin 0⟩

/-- Modelled from the spec: `vec2_init` of `math/mat.h` (not among the
sources); the initial state is `x = [0, 0]`. -/
def vec2_init : vec2_t := ⟨.fin 0, .fin 0⟩

/-- Modelled from the spec: `mat2x2_init` of `math/mat.h` (not among the
sources); a fresh matrix holds zeros, as the comment
`H = | 1.0 0.0 | | 0.0 use_speed |` in `kalman_init` relies on. -/
def mat2x2_init : mat2x2_t := ⟨.fin 0, .fin 0, .fin 0, .fin 0⟩

/-- Modelled from the spec: `mat2x1_init` of `math/mat.h` (not among the
sources); a fresh matrix holds zeros. -/
def mat2x1_init : mat2x1_t := ⟨.fin 0, .fin 0⟩

/-- Modelled from the spec: `mat_ident` of `math/mat.h` (not among the
sources) overwrites its argument with the identity (`P = I`). -/
def mat_ident (_m : mat2x2_t) : mat2x2_t := ⟨.fin 1, .fin 0, .fin 0, .fin 1⟩

/-- Modelled from the spec: `mat_vec_mul(out, a, x)` of `math/mat.h` (not
among the sources), `out = a * x` (call-site comment `t0 = A * x`). -/
def mat_vec_mul (a : mat2x2_t) (x : vec2_t) : vec2_t :=
  ⟨a.me00 * x.ve0 + a.me01 * x.ve1, a.me10 * x.ve0 + a.me11 * x.ve1⟩

/-- Modelled from the spec: `mat_vec_mul` of `math/mat.h` at a 2×1 matrix
and a 1-vector (call-site comment `t1 = B * u`). -/
def mat2x1_vec_mul (b : mat2x1_t) (u : vec1_t) : vec2_t :=
  ⟨b.me00 * u.ve0, b.me10 * u.ve0⟩

/-- Modelled from the spec: `vec_add(out, a, b)` of `math/mat.h` (not among
the sources), `out = a + b`. -/
def vec_add (a b : vec2_t) : vec2_t := ⟨a.ve0 + b.ve0, a.ve1 + b.ve1⟩

/-- Modelled from the spec: `vec_sub(out, a, b)` of `math/mat.h` (not among
the sources), `out = a - b` (call-site comment `t1 = z - t0`). -/
def vec_sub (a b : vec2_t) : vec2_t := ⟨a.ve0 - b.ve0, a.ve1 - b.ve1⟩

/-- Modelled from the spec: `mat_mul(out, a, b)` of `math/mat.h` (not among
the sources), `out = a * b` (call-site comment `T0 = A * P`). -/
def mat_mul (a b : mat2x2_t) : mat2x2_t :=
  ⟨a.me00 * b.me00 + a.me01 * b.me10, a.me00 * b.me01 + a.me01 * b.me11,
   a.me10 * b.me00 + a.me11 * b.me10, a.me10 * b.me01 + a.me11 * b.me11⟩

/-- Modelled from the spec: `mmtr_mul(out, a, b)` of `math/mat.h` (not among
the sources), `out = a * bᵀ` (call-site comment `T1 = T0 * AT`). -/
def mmtr_mul (a b : mat2x2_t) : mat2x2_t :=
  ⟨a.me00 * b.me00 + a.me01 * b.me01, a.me00 * b.me10 + a.me01 * b.me11,
   a.me10 * b.me00 + a.me11 * b.me01, a.me10 * b.me10 + a.me11 * b.me11⟩

/-- Modelled from the spec: `mat_add(out, a, b)` of `math/mat.h` (not among
the sources), `out = a + b` (`P = A * P * AT + Q`). -/
def mat_add (a b : mat2x2_t) : mat2x2_t :=
  ⟨a.me00 + b.me00, a.me01 + b.me01, a.me10 + b.me10, a.me11 + b.me11⟩

/-- Modelled from the spec: `mat_sub(out, a, b)` of `math/mat.h` (not among
the sources), `out = a - b` (call-site comment `T1 = I - T0`). -/
def mat_sub (a b : mat2x2_t) : mat2x2_t :=
  ⟨a.me00 - b.me00, a.me01 - b.me01, a.me10 - b.me10, a.me11 - b.me11⟩

/-- Modelled from the spec: `mat_scalar_mul(out, a, s)` of `math/mat.h` (not
among the sources), `out = s * a` (`Q = q·I`, `R = r·I`). -/
def mat_scalar_mul (a : mat2x2_t) (s : Flt) : mat2x2_t :=
  ⟨a.me00 * s, a.me01 * s, a.me10 * s, a.me11 * s⟩

/-- Modelled from the spec: `mat_copy(out, a)` of `math/mat.h` (not among
the sources), `out = a`. -/
def mat_copy (a : mat2x2_t) : mat2x2_t := a

/-- Modelled from the spec: `mat_inv(out, a)` of `math/mat.h` (not among the
sources), the "2×2 closed-form inverse": the adjugate divided by the
determinant. It has no status result; when the determinant is zero every
entry is a division by zero. -/
def mat_inv (a : mat2x2_t) : mat2x2_t :=
  let det := a.me00 * a.me11 - a.me01 * a.me10
  ⟨a.me11 / det, (-a.me01) / det, (-a.me10) / det, a.me00 / det⟩

/-! ## Configuration parameters -/

/-- The four `tsfloat_t` configuration cells a filter can point at. -/
inductive tsfloat_ref where
  | process_noise
  | ultra_noise
  | baro_noise
  | gps_noise
deriving DecidableEq

/-- The module's configuration parameters (`static tsfloat_t process_noise`
and the four below it). -/
structure params_t where
  process_noise : ℚ
  ultra_noise : ℚ
  baro_noise : ℚ
  gps_noise : ℚ
  use_gps_speed : Int
deriving DecidableEq

/-- Dereference of a `tsfloat_t *`: `tsfloat_get`. -/
def tsfloat_get (s : params_t) : tsfloat_ref → ℚ
  | .process_noise => s.process_noise
  | .ultra_noise => s.ultra_noise
  | .baro_noise => s.baro_noise
  | .gps_noise => s.gps_noise

/-- Read of the `tsint_t` flag, `tsint_get(&use_gps_speed)`, converted to the
`bool` parameter of `kalman_init`. -/
def tsint_get_bool (s : params_t) : Bool := decide (s.use_gps_speed ≠ 0)

/-! ## The filter -/

/-- The record `kalman_t`. -/
structure kalman_t where
  Q : mat2x2_t
  R : mat2x2_t
  I : mat2x2_t
  x : vec2_t
  z : vec2_t
  u : vec1_t
  P : mat2x2_t
  A : mat2x2_t
  B : mat2x1_t
  H : mat2x2_t
  K : mat2x2_t
  t0 : vec2_t
  t1 : vec2_t
  T0 : mat2x2_t
  T1 : mat2x2_t
  q : tsfloat_ref
  r : tsfloat_ref
  use_speed : Bool
deriving DecidableEq

/-- The function `kalman_init`: every field of `*kf` is overwritten. -/
def kalman_init (q r : tsfloat_ref) (pos speed : ℚ) (use_speed : Bool) : kalman_t :=
  { use_speed := use_speed
    q := q
    r := r
    t0 := vec2_init
    t1 := vec2_init
    T0 := mat2x2_init
    T1 := mat2x2_init
    I := mat_ident mat2x2_init
    x := { vec2_init with ve0 := .fin pos, ve1 := .fin speed }
    z := vec2_init
    u := vec1_init
    P := mat_ident mat2x2_init
    Q := mat2x2_init
    R := mat2x2_init
    K := mat2x2_init
    H := { mat2x2_init with me00 := .fin 1, me11 := Flt.ofBool use_speed }
    A := { mat2x2_init with me00 := .fin 1, me11 := .fin 1 }
    B := mat2x1_init }

/-- The function `kalman_predict`. -/
def kalman_predict (kf : kalman_t) (a : ℚ) : kalman_t :=
  let kf := { kf with u := ⟨.fin a⟩ }
  let kf := { kf with t0 := mat_vec_mul kf.A kf.x }
  let kf := { kf with t1 := mat2x1_vec_mul kf.B kf.u }
  let kf := { kf with x := vec_add kf.t0 kf.t1 }
  let kf := { kf with T0 := mat_mul kf.A kf.P }
  let kf := { kf with T1 := mmtr_mul kf.T0 kf.A }
  { kf with P := mat_add kf.T1 kf.Q }

/-- The function `kalman_correct`. -/
def kalman_correct (kf : kalman_t) (pos speed : ℚ) : kalman_t :=
  let kf := { kf with H := { kf.H with me11 := Flt.ofBool (kf.use_speed && decide (speed ≠ 0)) } }
  let kf := { kf with z := ⟨.fin pos, .fin speed⟩ }
  let kf := { kf with T0 := mat_mul kf.H kf.P }
  let kf := { kf with T1 := mmtr_mul kf.T0 kf.H }
  let kf := { kf with T0 := mat_add kf.T1 kf.R }
  let kf := { kf with T1 := mat_inv kf.T0 }
  let kf := { kf with T0 := mmtr_mul kf.P kf.H }
  let kf := { kf with K := mat_mul kf.T0 kf.T1 }
  let kf := { kf with t0 := mat_vec_mul kf.H kf.x }
  let kf := { kf with t1 := vec_sub kf.z kf.t0 }
  let kf := { kf with t0 := mat_vec_mul kf.K kf.t1 }
  let kf := { kf with x := vec_add kf.x kf.t0 }
  let kf := { kf with T0 := mat_mul kf.K kf.H }
  let kf := { kf with T1 := mat_sub kf.I kf.T0 }
  let kf := { kf with T0 := mat_mul kf.T1 kf.P }
  { kf with P := mat_copy kf.T0 }

/-- The refresh of `A`, `B`, `Q` and `R` at the head of `kalman_run`. -/
def kalman_refresh (s : params_t) (kf : kalman_t) (dt : ℚ) : kalman_t :=
  let kf := { kf with A := { kf.A with me01 := .fin dt } }
  let kf := { kf with B := { kf.B with me00 := Flt.fin (1 / 2) * Flt.fin dt * Flt.fin dt } }
  let kf := { kf with B := { kf.B with me10 := .fin dt } }
  let kf := { kf with Q := mat_scalar_mul kf.I (.fin (tsfloat_get s kf.q)) }
  { kf with R := mat_scalar_mul kf.I (.fin (tsfloat_get s kf.r)) }

/-- The function `kalman_run`: the filter after the tick, with `*est_pos` and
`*est_speed`. -/
def kalman_run (s : params_t) (kf : kalman_t) (pos speed acc dt : ℚ) :
    kalman_t × Flt × Flt :=
  let kf := kalman_refresh s kf dt
  let kf := kalman_predict kf acc
  let kf := kalman_correct kf pos speed
  (kf, kf.x.ve0, kf.x.ve1)

/-! ## The filter bank -/

/-- Geographic view of `vec3_t` (north, east, up), as read through `in->acc`. -/
structure vec3_t where
  n : ℚ
  e : ℚ
  u : ℚ
deriving DecidableEq

/-- The input frame `pos_in_t`, with the fields `pos_update` reads. -/
structure pos_in_t where
  pos_n : ℚ
  pos_e : ℚ
  speed_n : ℚ
  speed_e : ℚ
  baro_u : ℚ
  ultra_u : ℚ
  acc : vec3_t
  dt : ℚ
deriving DecidableEq

/-- A north/east pair of the output frame (`ne_pos`, `ne_speed`). -/
structure vec2_ne_t where
  n : Flt
  e : Flt
deriving DecidableEq

/-- A vertical estimate of the output frame (`baro_u`, `ultra_u`). -/
structure pos_speed_t where
  pos : Flt
  speed : Flt
deriving DecidableEq

/-- The output frame `pos_t`, with the fields `pos_update` writes. -/
structure pos_t where
  ne_pos : vec2_ne_t
  ne_speed : vec2_ne_t
  baro_u : pos_speed_t
  ultra_u : pos_speed_t
deriving DecidableEq

/-- The module's static storage: the configuration parameters, the four
filters, `ultra_prev`, `baro_prev`, and the flag behind `ASSERT_ONCE`. -/
structure pos_module where
  once : Bool
  store : params_t
  n_kalman : kalman_t
  e_kalman : kalman_t
  baro_u_kalman : kalman_t
  ultra_u_kalman : kalman_t
  ultra_prev : Flt
  baro_prev : Flt
deriving DecidableEq

/-- Modelled from the spec: the macro `ASSERT_ONCE` of `util.h` (not among
the sources); a second pass through it "fails with an already initialized
condition", the first one sets the flag. -/
def ASSERT_ONCE (once : Bool) : Option Bool := if once then none else some true

/-- The function `pos_init`; `cfg` holds the values `opcd_params_apply` loads
into the five parameters. -/
def pos_init (m : pos_module) (cfg : params_t) : Option pos_module :=
  match ASSERT_ONCE m.once with
  | none => none
  | some once =>
    let m := { m with once := once, store := cfg }
    let m := { m with
      e_kalman := kalman_init tsfloat_ref.process_noise tsfloat_ref.gps_noise 0 0
        (tsint_get_bool m.store) }
    let m := { m with
      n_kalman := kalman_init tsfloat_ref.process_noise tsfloat_ref.gps_noise 0 0
        (tsint_get_bool m.store) }
    let m := { m with
      baro_u_kalman := kalman_init tsfloat_ref.process_noise tsfloat_ref.baro_noise 0 0 false }
    let m := { m with
      ultra_u_kalman := kalman_init tsfloat_ref.process_noise tsfloat_ref.ultra_noise 0 0 false }
    some m

/-- The function `pos_update`: the module after the tick and the frame
written to `*out`. -/
def pos_update (m : pos_module) (i : pos_in_t) : pos_module × pos_t :=
  let rn := kalman_run m.store m.n_kalman i.pos_n i.speed_n i.acc.n i.dt
  let re := kalman_run m.store m.e_kalman i.pos_e i.speed_e i.acc.e i.dt
  let rb := kalman_run m.store m.baro_u_kalman i.baro_u 0 i.acc.u i.dt
  let ru := kalman_run m.store m.ultra_u_kalman i.ultra_u 0 i.acc.u i.dt
  let out : pos_t :=
    { ne_pos := ⟨rn.2.1, re.2.1⟩
      ne_speed := ⟨rn.2.2, re.2.2⟩
      baro_u := ⟨rb.2.1, rb.2.2⟩
      ultra_u := ⟨ru.2.1, ru.2.2⟩ }
  ({ m with
      n_kalman := rn.1
      e_kalman := re.1
      baro_u_kalman := rb.1
      ultra_u_kalman := ru.1
      baro_prev := out.baro_u.pos
      ultra_prev := out.ultra_u.pos }, out)

/-! ## Numeric states -/

/-- The vector with the finite components `a`, `b`. -/
def vec2_of (a b : ℚ) : vec2_t := ⟨.fin a, .fin b⟩

/-- The matrix with the finite entries `a b; c d`. -/
def mat2x2_of (a b c d : ℚ) : mat2x2_t := ⟨.fin a, .fin b, .fin c, .fin d⟩

/-- The vector of floats holding a rational vector. -/
def vec2_ofFun (v : Fin 2 → ℚ) : vec2_t := vec2_of (v 0) (v 1)

/-- The matrix of floats holding a rational matrix. -/
def mat2x2_ofMatrix (m : Matrix (Fin 2) (Fin 2) ℚ) : mat2x2_t :=
  mat2x2_of (m 0 0) (m 0 1) (m 1 0) (m 1 1)

/-- The constant parts of a filter, written by `kalman_init` and by no other
function: `I` is the identity, `A` has a unit diagonal and a zero below it,
`H[0][0] = 1` and `H` is zero off the diagonal. -/
def kalman_wf (kf : kalman_t) : Prop :=
  kf.I = mat2x2_of 1 0 0 1 ∧ kf.A.me00 = .fin 1 ∧ kf.A.me10 = .fin 0 ∧ kf.A.me11 = .fin 1 ∧
  kf.H.me00 = .fin 1 ∧ kf.H.me01 = .fin 0 ∧ kf.H.me10 = .fin 0

instance (kf : kalman_t) : Decidable (kalman_wf kf) := by
  unfold kalman_wf; infer_instance

/-- The observability gate of a correct call as a number: `1` when the filter
may use a speed measurement and the sample is not zero, else `0`. -/
def gate (use_speed : Bool) (speed : ℚ) : ℚ := if use_speed = true ∧ speed ≠ 0 then 1 else 0

/-- The gated observation matrix of a correct call, `H = diag(1, h)`. -/
def obs_H (use_speed : Bool) (speed : ℚ) : Matrix (Fin 2) (Fin 2) ℚ :=
  Matrix.diagonal ![1, gate use_speed speed]

/-- The innovation covariance `S = H·P·Hᵀ + r·I`. -/
def innov_S (H P : Matrix (Fin 2) (Fin 2) ℚ) (r : ℚ) : Matrix (Fin 2) (Fin 2) ℚ :=
  H * P * H.transpose + r • (1 : Matrix (Fin 2) (Fin 2) ℚ)

/-- A GPS-channel filter as `kalman_init` leaves it, with `R` as a tick with
measurement noise 1 refreshes it. -/
def kf_gps : kalman_t :=
  { kalman_init tsfloat_ref.process_noise tsfloat_ref.gps_noise 0 0 true with
    R := mat2x2_of 1 0 0 1 }

/-- A barometric filter after the predict step of its first tick, with every
noise value 0 and `dt = 1`. -/
def kf_baro_r0 : kalman_t :=
  kalman_predict (kalman_refresh ⟨0, 0, 0, 0, 0⟩
    (kalman_init tsfloat_ref.process_noise tsfloat_ref.baro_noise 0 0 false) 1) 0

/-- The module's static storage before `pos_init`: the flag is clear and the
floats are zero-filled; the filters, whose pointers are still `NULL` in C,
are shown as `kalman_init` would write them. -/
def pos_static : pos_module :=
  { once := false
    store := ⟨0, 0, 0, 0, 0⟩
    n_kalman := kalman_init tsfloat_ref.process_noise tsfloat_ref.gps_noise 0 0 false
    e_kalman := kalman_init tsfloat_ref.process_noise tsfloat_ref.gps_noise 0 0 false
    baro_u_kalman := kalman_init tsfloat_ref.process_noise tsfloat_ref.baro_noise 0 0 false
    ultra_u_kalman := kalman_init tsfloat_ref.process_noise tsfloat_ref.ultra_noise 0 0 false
    ultra_prev := .fin 0
    baro_prev := .fin 0 }

/-- A finite filter state whose covariance is symmetric positive semidefinite. -/
def kalman_inv (kf : kalman_t) : Prop :=
  kalman_wf kf ∧ ∃ x0 x1 a b d : ℚ, kf.x = vec2_of x0 x1 ∧ kf.P = mat2x2_of a b b d ∧
    0 ≤ a ∧ 0 ≤ d ∧ b * b ≤ a * d

/-- One call of `kalman_run` as seen by a filter: the parameter values of the
moment and the arguments. -/
structure tick_t where
  store : params_t
  pos : ℚ
  speed : ℚ
  acc : ℚ
  dt : ℚ

/-- A finite sequence of calls of `kalman_run` on one filter. -/
def kalman_ticks (kf : kalman_t) : List tick_t → kalman_t
  | [] => kf
  | t :: ts => kalman_ticks (kalman_run t.store kf t.pos t.speed t.acc t.dt).1 ts

/-- A write of the configuration channel to the parameter `use_gps_speed`. -/
def set_use_gps_speed (m : pos_module) (v : Int) : pos_module :=
  { m with store := { m.store with use_gps_speed := v } }

/-- The module after the first `pos_init` on the static storage with
`process_noise = 0.01`, `gps_noise = 1.0` and `use_gps_speed` set. -/
def pos_ready : pos_module :=
  { once := true
    store := ⟨1 / 100, 1, 1, 1, 1⟩
    n_kalman := kalman_init tsfloat_ref.process_noise tsfloat_ref.gps_noise 0 0 true
    e_kalman := kalman_init tsfloat_ref.process_noise tsfloat_ref.gps_noise 0 0 true
    baro_u_kalman := kalman_init tsfloat_ref.process_noise tsfloat_ref.baro_noise 0 0 false
    ultra_u_kalman := kalman_init tsfloat_ref.process_noise tsfloat_ref.ultra_noise 0 0 false
    ultra_prev := .fin 0
    baro_prev := .fin 0 }

/-- A symmetric positive semidefinite matrix of finite entries. -/
def mat_psd (m : mat2x2_t) : Prop :=
  ∃ a b d : ℚ, m = mat2x2_of a b b d ∧ 0 ≤ a ∧ 0 ≤ d ∧ 0 ≤ a * d - b * b

/-- The matrix `kalman_correct` passes to `mat_inv`: `T0` after
`T0 = H * P`, `T1 = T0 * HT`, `T0 = T1 + R`. -/
def kalman_correct_S (kf : kalman_t) (speed : ℚ) : mat2x2_t :=
  let kf := { kf with H := { kf.H with me11 := Flt.ofBool (kf.use_speed && decide (speed ≠ 0)) } }
  let kf := { kf with T0 := mat_mul kf.H kf.P }
  let kf := { kf with T1 := mmtr_mul kf.T0 kf.H }
  let kf := { kf with T0 := mat_add kf.T1 kf.R }
  kf.T0

/-- The constant `SRF10_MIN_RANGE`, `0.2f`. -/
def SRF10_MIN_RANGE : ℚ := 2 / 10

/-- The constant `SRF10_MAX_RANGE`, `5.0f`. -/
def SRF10_MAX_RANGE : ℚ := 5

/-- The constant `SRF10_M_SCALE`, `1.0e-2f`. -/
def SRF10_M_SCALE : ℚ := 1 / 100

/-- Modelled from the spec: `limit(x, min, max)` of `util.h` (not among the
sources); the driver's values are "pre-clamped to [min_range, max_range]". -/
def limit (x lo hi : ℚ) : ℚ := if x < lo then lo else if hi < x then hi else x

/-- The expression `limit(SRF10_M_SCALE * (float)((raw[0] << 8) | raw[1]),
SRF10_MIN_RANGE, SRF10_MAX_RANGE)` that `srf10_read` stores for each device;
the two bytes are `uint8_t`. -/
def srf10_distance (raw0 raw1 : Nat) : ℚ :=
  limit (SRF10_M_SCALE * (((raw0 % 256) <<< 8 ||| (raw1 % 256) : Nat) : ℚ))
    SRF10_MIN_RANGE SRF10_MAX_RANGE

/-- The four distances `distance->ve[0..3]`. -/
structure vec4_t where
  ve0 : ℚ
  ve1 : ℚ
  ve2 : ℚ
  ve3 : ℚ
deriving DecidableEq

/-- What the I2C bus answers during one `srf10_read`: the status of the four
range commands, and for each block read its status and the two bytes. -/
structure srf10_bus_t where
  w0 : Int
  w1 : Int
  w2 : Int
  w3 : Int
  r0 : Int × Nat × Nat
  r1 : Int × Nat × Nat
  r2 : Int × Nat × Nat
  r3 : Int × Nat × Nat

/-- The function `srf10_read`: the return code and `*distance` after the call.
Modelled from the spec: the macros `THROW_ON_ERR` / `THROW_END` of `util.h` (not
among the sources) are the "early-exit macros" with "sentinel return codes":
a negative status is returned at once, the end returns 0. -/
def srf10_read (bus : srf10_bus_t) (distance : vec4_t) : Int × vec4_t :=
  if bus.w0 < 0 then (bus.w0, distance) else
  if bus.w1 < 0 then (bus.w1, distance) else
  if bus.w2 < 0 then (bus.w2, distance) else
  if bus.w3 < 0 then (bus.w3, distance) else
  if bus.r0.1 < 0 then (bus.r0.1, distance) else
  let distance := { distance with ve0 := srf10_distance bus.r0.2.1 bus.r0.2.2 }
  if bus.r1.1 < 0 then (bus.r1.1, distance) else
  let distance := { distance with ve1 := srf10_distance bus.r1.2.1 bus.r1.2.2 }
  if bus.r2.1 < 0 then (bus.r2.1, distance) else
  let distance := { distance with ve2 := srf10_distance bus.r2.2.1 bus.r2.2.2 }
  if bus.r3.1 < 0 then (bus.r3.1, distance) else
  let distance := { distance with ve3 := srf10_distance bus.r3.2.1 bus.r3.2.2 }
  (0, distance)

/-- A GPS-channel filter whose tick-local fields hold leftovers of an earlier
tick: other `dt`, noise values, gate, gain, measurement, control and scratch. -/
def kf_gps_stale : kalman_t :=
  { kf_gps with
    Q := mat2x2_of 9 0 0 9
    R := mat2x2_of 8 0 0 8
    A := mat2x2_of 1 7 0 1
    B := ⟨.fin 3, .fin 4⟩
    H := mat2x2_of 1 0 0 0
    K := mat2x2_of 5 6 7 8
    z := vec2_of 1 2
    u := ⟨.fin 3⟩
    t0 := vec2_of 4 5
    t1 := vec2_of 6 7
    T0 := mat2x2_of 1 2 3 4
    T1 := mat2x2_of 5 6 7 8 }

/-- An answer of the I2C bus where every transfer succeeds: the raw words are
`0x0000`, `0x0064`, `0x0123`, `0xffff`. -/
def srf10_bus_ok : srf10_bus_t :=
  { w0 := 0, w1 := 0, w2 := 0, w3 := 0
    r0 := (0, 0, 0), r1 := (0, 0, 100), r2 := (0, 1, 35), r3 := (0, 255, 255) }

/-- The numbers of a finite filter state with a symmetric covariance:
`x = [x0, x1]`, `P = [[a, b], [b, d]]`. -/
structure kstate where
  x0 : ℚ
  x1 : ℚ
  a : ℚ
  b : ℚ
  d : ℚ
deriving DecidableEq

/-- One tick with the velocity gate off, on the numbers of the state: the
predicted `x` and `P`, then the correction by the position measurement. -/
def qtick (q r dt pos acc : ℚ) (st : kstate) : kstate :=
  let xp0 := st.x0 + dt * st.x1 + 1 / 2 * dt * dt * acc
  let xp1 := st.x1 + dt * acc
  let ap := st.a + dt * st.b + (st.b + dt * st.d) * dt + q
  let bp := st.b + dt * st.d
  let dp := st.d + q
  { x0 := xp0 + ap / (ap + r) * (pos - xp0)
    x1 := xp1 + bp / (ap + r) * (pos - xp0)
    a := r * ap / (ap + r)
    b := r * bp / (ap + r)
    d := dp - bp * bp / (ap + r) }

/-- A sequence of ticks with the gate off, on the numbers of the state; `q`
and `r` are read through the references `qref`, `rref` in every tick. -/
def qticks (qref rref : tsfloat_ref) (st : kstate) : List tick_t → kstate
  | [] => st
  | t :: ts => qticks qref rref
      (qtick (tsfloat_get t.store qref) (tsfloat_get t.store rref) t.dt t.pos t.acc st) ts

/-- The filter holds the numbers of `st`. -/
def kalman_holds (kf : kalman_t) (st : kstate) : Prop :=
  kf.x = vec2_of st.x0 st.x1 ∧ kf.P = mat2x2_of st.a st.b st.b st.d

/-- The covariance numbers of `st` are positive semidefinite. -/
def kstate_psd (st : kstate) : Prop := 0 ≤ st.a ∧ 0 ≤ st.d ∧ st.b * st.b ≤ st.a * st.d

/-- A sequence of calls of `pos_update`, each writing the frame `*out`. -/
def pos_updates (m : pos_module) (out : pos_t) : List pos_in_t → pos_module × pos_t
  | [] => (m, out)
  | i :: is => pos_updates (pos_update m i).1 (pos_update m i).2 is

/-- The call of `kalman_run` that `pos_update` makes on the north filter. -/
def north_tick (s : params_t) (i : pos_in_t) : tick_t := ⟨s, i.pos_n, i.speed_n, i.acc.n, i.dt⟩

/-- The north inputs of the end-to-end scenario, `(pos_n, speed_n, acc.n, dt)`
for the ticks 1 to 10: `pos_n = 0.1·k`, no speed, no acceleration, `dt = 0.1`. -/
def ramp10 : List (ℚ × ℚ × ℚ × ℚ) :=
  [(1 / 10, 0, 0, 1 / 10), (2 / 10, 0, 0, 1 / 10), (3 / 10, 0, 0, 1 / 10),
   (4 / 10, 0, 0, 1 / 10), (5 / 10, 0, 0, 1 / 10), (6 / 10, 0, 0, 1 / 10),
   (7 / 10, 0, 0, 1 / 10), (8 / 10, 0, 0, 1 / 10), (9 / 10, 0, 0, 1 / 10),
   (10 / 10, 0, 0, 1 / 10)]

/-- Ten frames of the end-to-end scenario; the inputs of the other three
channels are 0. -/
def ramp_frames : List pos_in_t :=
  ramp10.map fun p => ⟨p.1, 0, p.2.1, 0, 0, 0, ⟨p.2.2.1, 0, 0⟩, p.2.2.2⟩

/-- An output frame holding zeros. -/
def pos_zero : pos_t := ⟨⟨.fin 0, .fin 0⟩, ⟨.fin 0, .fin 0⟩, ⟨.fin 0, .fin 0⟩, ⟨.fin 0, .fin 0⟩⟩

/-- The north position estimate after the ten ticks of the scenario. -/
def ramp_pos : ℚ := 1045398520954641410867344173622223471851 / 1345133355808049060862344173622223471851

/-- The north speed estimate after the ten ticks of the scenario. -/
def ramp_speed : ℚ := 685307458188641061862844173622223471851 / 1345133355808049060862344173622223471851

/-! ## The constant-position scenario -/

/-- The quadratic form `wᵀ·P·w` of the covariance numbers of `st`. -/
def qform (st : kstate) (w1 w2 : ℚ) : ℚ :=
  st.a * w1 * w1 + 2 * st.b * w1 * w2 + st.d * w2 * w2

/-- The order of covariances: `t − s` is positive semidefinite. -/
def cov_le (s t : kstate) : Prop := ∀ w1 w2 : ℚ, qform s w1 w2 ≤ qform t w1 w2

/-- The quadratic form of the predicted covariance `A·P·Aᵀ + q·I`. -/
def qpred (q dt : ℚ) (st : kstate) (w1 w2 : ℚ) : ℚ :=
  qform st w1 (dt * w1 + w2) + q * (w1 * w1 + w2 * w2)

/-- The predicted `P[0][0]` of the next tick. -/
def prior_a (q dt : ℚ) (st : kstate) : ℚ := st.a + dt * st.b + (st.b + dt * st.d) * dt + q

/-- The predicted `P[0][1]` of the next tick. -/
def prior_b (dt : ℚ) (st : kstate) : ℚ := st.b + dt * st.d

/-- One tick of the convergence scenario: constant position `p`, no speed, no
acceleration, `q = 0.01`, `r = 1.0`, `dt = 0.1`. -/
def conv_tick (p : ℚ) (st : kstate) : kstate := qtick (1 / 100) 1 (1 / 10) p 0 st

/-- The numbers of the filter after `k` ticks of the convergence scenario,
from `x = [0, 0]`, `P = I`. -/
def conv_st (p : ℚ) (k : ℕ) : kstate := (conv_tick p)^[k] ⟨0, 0, 1, 0, 1⟩

/-- A lower bound of the covariance from tick 31 on. -/
def cov_L : kstate := ⟨0, 0, 151 / 1000, 43 / 500, 77 / 500⟩

/-- An upper bound of the covariance from tick 31 on. -/
def cov_U : kstate := ⟨0, 0, 167 / 1000, 49 / 500, 193 / 1000⟩

/-- The covariance numbers of `st` lie between `cov_L` and `cov_U`. -/
def in_region (st : kstate) : Prop := cov_le cov_L st ∧ cov_le st cov_U

/-! ## Double initialization -/

/-- The function `pos_init` as a call on the static storage: the storage
after the call, and whether the call returned. The statements run in the
order of the source; a call that stops in `ASSERT_ONCE` leaves the storage as
the statements before it wrote it, and `ASSERT_ONCE` is the first one. -/
def pos_init_call (m : pos_module) (cfg : params_t) : pos_module × Bool :=
  match ASSERT_ONCE m.once with
  | none => (m, false)
  | some once =>
    let m := { m with once := once, store := cfg }
    let m := { m with
      e_kalman := kalman_init tsfloat_ref.process_noise tsfloat_ref.gps_noise 0 0
        (tsint_get_bool m.store) }
    let m := { m with
      n_kalman := kalman_init tsfloat_ref.process_noise tsfloat_ref.gps_noise 0 0
        (tsint_get_bool m.store) }
    let m := { m with
      baro_u_kalman := kalman_init tsfloat_ref.process_noise tsfloat_ref.baro_noise 0 0 false }
    let m := { m with
      ultra_u_kalman := kalman_init tsfloat_ref.process_noise tsfloat_ref.ultra_noise 0 0 false }
    (m, true)

/-! ## Binary32 rounding -/

/-- Round to nearest, ties to even, of the quotient `a / b` of two naturals
(`b > 0`). -/
def round_half_even (a b : ℕ) : ℕ :=
  if 2 * (a % b) < b then a / b
  else if b < 2 * (a % b) then a / b + 1
  else a / b + (a / b) % 2

/-- Exponent of the last place of a binary32 number near `n / d > 0`: the `e`
with `2^(e+23) ≤ n / d < 2^(e+24)` (24 significant bits), and `-149` in the
subnormal range below `2^(-126)`. -/
def f32_exp (n d : ℕ) : ℤ :=
  let l : ℤ := (Nat.log 2 n : ℤ) - (Nat.log 2 d : ℤ)
  max (-149) (if n * 2 ^ (-l).toNat < d * 2 ^ l.toNat then l - 24 else l - 23)

/-- The C `float` (IEEE 754 binary32) nearest to `x`, ties to even: what an
arithmetic operation with the exact result `x` stores. A result of magnitude
`2^128` or more is not a finite number. -/
def f32_round (x : ℚ) : Flt :=
  let n := x.num.natAbs
  let e := f32_exp n x.den
  let m := round_half_even (n * 2 ^ (-e).toNat) (x.den * 2 ^ e.toNat)
  if 104 < e ∨ (e = 104 ∧ m = 2 ^ 24) then .nan
  else .fin ((if x < 0 then -1 else 1) * (m : ℚ) * 2 ^ e)

/-- Rounding of the result of a float operation to binary32. -/
def Flt.f32 : Flt → Flt
  | .fin q => f32_round q
  | .nan => .nan

/-- Modelled from the spec: `mat_mul` of `math/mat.h` (not among the
sources), `out = a * b`, in binary32: every product and every sum is rounded. -/
def mat_mul_f32 (a b : mat2x2_t) : mat2x2_t :=
  ⟨((a.me00 * b.me00).f32 + (a.me01 * b.me10).f32).f32,
   ((a.me00 * b.me01).f32 + (a.me01 * b.me11).f32).f32,
   ((a.me10 * b.me00).f32 + (a.me11 * b.me10).f32).f32,
   ((a.me10 * b.me01).f32 + (a.me11 * b.me11).f32).f32⟩

/-- Modelled from the spec: `mmtr_mul` of `math/mat.h` (not among the
sources), `out = a * bᵀ`, in binary32. -/
def mmtr_mul_f32 (a b : mat2x2_t) : mat2x2_t :=
  ⟨((a.me00 * b.me00).f32 + (a.me01 * b.me01).f32).f32,
   ((a.me00 * b.me10).f32 + (a.me01 * b.me11).f32).f32,
   ((a.me10 * b.me00).f32 + (a.me11 * b.me01).f32).f32,
   ((a.me10 * b.me10).f32 + (a.me11 * b.me11).f32).f32⟩

/-- Modelled from the spec: `mat_add` of `math/mat.h` (not among the
sources), `out = a + b`, in binary32. -/
def mat_add_f32 (a b : mat2x2_t) : mat2x2_t :=
  ⟨(a.me00 + b.me00).f32, (a.me01 + b.me01).f32, (a.me10 + b.me10).f32, (a.me11 + b.me11).f32⟩

/-- The matrix `kalman_correct` passes to `mat_inv`, computed in binary32:
`T0` after `T0 = H * P`, `T1 = T0 * HT`, `T0 = T1 + R`. -/
def kalman_correct_S_f32 (kf : kalman_t) (speed : ℚ) : mat2x2_t :=
  let kf := { kf with H := { kf.H with me11 := Flt.ofBool (kf.use_speed && decide (speed ≠ 0)) } }
  let kf := { kf with T0 := mat_mul_f32 kf.H kf.P }
  let kf := { kf with T1 := mmtr_mul_f32 kf.T0 kf.H }
  let kf := { kf with T0 := mat_add_f32 kf.T1 kf.R }
  kf.T0

/-- A GPS filter whose covariance is `10^8·[[1, 1], [1, 1]]`, with `R = I`
(`r = 1`) as `kalman_run` writes it. -/
def kf_wide : kalman_t :=
  { kalman_init tsfloat_ref.process_noise tsfloat_ref.gps_noise 0 0 true with
    P := mat2x2_of 100000000 100000000 100000000 100000000
    R := mat2x2_of 1 0 0 1 }

/-- Modelled from the spec: the determinant by which the "2×2 closed-form
inverse" `mat_inv` of `math/mat.h` divides. -/
def mat_det (a : mat2x2_t) : Flt := a.me00 * a.me11 - a.me01 * a.me10

/-! ## Arithmetic of finite floats -/

@[simp]
theorem Flt.fin_add (a b : ℚ) : Flt.fin a + Flt.fin b = Flt.fin (a + b) := rfl
@[simp]
theorem Flt.fin_sub (a b : ℚ) : Flt.fin a - Flt.fin b = Flt.fin (a - b) := rfl
@[simp]
theorem Flt.fin_mul (a b : ℚ) : Flt.fin a * Flt.fin b = Flt.fin (a * b) := rfl
@[simp]
theorem Flt.fin_neg (a : ℚ) : -Flt.fin a = Flt.fin (-a) := rfl
@[simp]
theorem Flt.nan_add (a : Flt) : Flt.nan + a = Flt.nan := rfl
@[simp]
theorem Flt.add_nan (a : Flt) : a + Flt.nan = Flt.nan := by cases a <;> rfl
@[simp]
theorem Flt.nan_sub (a : Flt) : Flt.nan - a = Flt.nan := rfl
@[simp]
theorem Flt.sub_nan (a : Flt) : a - Flt.nan = Flt.nan := by cases a <;> rfl
@[simp]
theorem Flt.nan_mul (a : Flt) : Flt.nan * a = Flt.nan := rfl
@[simp]
theorem Flt.mul_nan (a : Flt) : a * Flt.nan = Flt.nan := by cases a <;> rfl
@[simp]
theorem Flt.neg_nan : -Flt.nan = Flt.nan := rfl
@[simp]
theorem Flt.nan_div (a : Flt) : Flt.nan / a = Flt.nan := rfl
@[simp]
theorem Flt.div_nan (a : Flt) : a / Flt.nan = Flt.nan := by cases a <;> rfl

theorem Flt.fin_div (a b : ℚ) :
    Flt.fin a / Flt.fin b = if b = 0 then Flt.nan else Flt.fin (a / b) := rfl

@[simp]
theorem Flt.fin_div_of_ne (a : ℚ) {b : ℚ} (h : b ≠ 0) :
    Flt.fin a / Flt.fin b = Flt.fin (a / b) := by
  rw [Flt.fin_div, if_neg h]

@[simp]
theorem Flt.fin_div_zero (a : ℚ) : Flt.fin a / Flt.fin 0 = Flt.nan := by
  rw [Flt.fin_div, if_pos rfl]

@[simp]
theorem Flt.ofBool_true : Flt.ofBool true = Flt.fin 1 := by
  simp [Flt.ofBool]

@[simp]
theorem Flt.ofBool_false : Flt.ofBool false = Flt.fin 0 := by
  simp [Flt.ofBool]

/-! ## Matrix operations on finite entries -/

theorem mat2x2_of_inj {a b c d a' b' c' d' : ℚ} :
    mat2x2_of a b c d = mat2x2_of a' b' c' d' ↔ a = a' ∧ b = b' ∧ c = c' ∧ d = d' := by
  simp [mat2x2_of]

theorem vec2_of_inj {a b a' b' : ℚ} : vec2_of a b = vec2_of a' b' ↔ a = a' ∧ b = b' := by
  simp [vec2_of]

@[simp]
theorem mat_mul_of (a b c d a' b' c' d' : ℚ) :
    mat_mul (mat2x2_of a b c d) (mat2x2_of a' b' c' d') =
      mat2x2_of (a * a' + b * c') (a * b' + b * d') (c * a' + d * c') (c * b' + d * d') := rfl

@[simp]
theorem mmtr_mul_of (a b c d a' b' c' d' : ℚ) :
    mmtr_mul (mat2x2_of a b c d) (mat2x2_of a' b' c' d') =
      mat2x2_of (a * a' + b * b') (a * c' + b * d') (c * a' + d * b') (c * c' + d * d') := rfl

@[simp]
theorem mat_add_of (a b c d a' b' c' d' : ℚ) :
    mat_add (mat2x2_of a b c d) (mat2x2_of a' b' c' d') =
      mat2x2_of (a + a') (b + b') (c + c') (d + d') := rfl

@[simp]
theorem mat_sub_of (a b c d a' b' c' d' : ℚ) :
    mat_sub (mat2x2_of a b c d) (mat2x2_of a' b' c' d') =
      mat2x2_of (a - a') (b - b') (c - c') (d - d') := rfl

@[simp]
theorem mat_scalar_mul_of (a b c d s : ℚ) :
    mat_scalar_mul (mat2x2_of a b c d) (.fin s) = mat2x2_of (a * s) (b * s) (c * s) (d * s) := rfl

@[simp]
theorem mat_vec_mul_of (a b c d x y : ℚ) :
    mat_vec_mul (mat2x2_of a b c d) (vec2_of x y) = vec2_of (a * x + b * y) (c * x + d * y) := rfl

@[simp]
theorem vec_add_of (a b a' b' : ℚ) :
    vec_add (vec2_of a b) (vec2_of a' b') = vec2_of (a + a') (b + b') := rfl

@[simp]
theorem vec_sub_of (a b a' b' : ℚ) :
    vec_sub (vec2_of a b) (vec2_of a' b') = vec2_of (a - a') (b - b') := rfl

theorem mat_inv_of (a b c d : ℚ) (h : a * d - b * c ≠ 0) :
    mat_inv (mat2x2_of a b c d) =
      mat2x2_of (d / (a * d - b * c)) (-b / (a * d - b * c)) (-c / (a * d - b * c))
        (a / (a * d - b * c)) := by
  simp [mat_inv, mat2x2_of, Flt.fin_div_of_ne _ h]

theorem mat_inv_of_singular (a b c d : ℚ) (h : a * d - b * c = 0) :
    mat_inv (mat2x2_of a b c d) = ⟨.nan, .nan, .nan, .nan⟩ := by
  simp [mat_inv, mat2x2_of, h]

theorem ofBool_gate (b : Bool) (speed : ℚ) :
    Flt.ofBool (b && decide (speed ≠ 0)) = Flt.fin (gate b speed) := by
  unfold gate
  by_cases h : b = true ∧ speed ≠ 0
  · simp [h]
  · rw [if_neg h]
    have : (b && decide (speed ≠ 0)) = false := by
      cases b <;> simp_all
    rw [this]; simp

theorem kalman_correct_fin (kf : kalman_t) (x0 x1 p00 p01 p10 p11 r pos speed : ℚ)
    (hwf : kalman_wf kf)
    (hx : kf.x = vec2_of x0 x1) (hP : kf.P = mat2x2_of p00 p01 p10 p11)
    (hR : kf.R = mat2x2_of r 0 0 r) :
    let g := gate kf.use_speed speed
    let s00 := p00 + r
    let s01 := p01 * g
    let s10 := g * p10
    let s11 := g * p11 * g + r
    let D := s00 * s11 - s01 * s10
    let k00 := p00 * (s11 / D) + p01 * g * (-s10 / D)
    let k01 := p00 * (-s01 / D) + p01 * g * (s00 / D)
    let k10 := p10 * (s11 / D) + p11 * g * (-s10 / D)
    let k11 := p10 * (-s01 / D) + p11 * g * (s00 / D)
    D ≠ 0 →
    (kalman_correct kf pos speed).K = mat2x2_of k00 k01 k10 k11 ∧
    (kalman_correct kf pos speed).x =
      vec2_of (x0 + (k00 * (pos - x0) + k01 * (speed - g * x1)))
        (x1 + (k10 * (pos - x0) + k11 * (speed - g * x1))) ∧
    (kalman_correct kf pos speed).P =
      mat2x2_of ((1 - k00) * p00 + (0 - k01 * g) * p10) ((1 - k00) * p01 + (0 - k01 * g) * p11)
        ((0 - k10) * p00 + (1 - k11 * g) * p10) ((0 - k10) * p01 + (1 - k11 * g) * p11) := by
  intro g s00 s01 s10 s11 D k00 k01 k10 k11 hD
  obtain ⟨hI, -, -, -, hH00, hH01, hH10⟩ := hwf
  have hH : ({ kf.H with me11 := Flt.ofBool (kf.use_speed && decide (speed ≠ 0)) } : mat2x2_t)
      = mat2x2_of 1 0 0 g := by
    rw [ofBool_gate]; simp [mat2x2_of, hH00, hH01, hH10, g]
  have hS : mat_add (mmtr_mul (mat_mul (mat2x2_of 1 0 0 g) (mat2x2_of p00 p01 p10 p11))
      (mat2x2_of 1 0 0 g)) (mat2x2_of r 0 0 r) = mat2x2_of s00 s01 s10 s11 := by
    simp [mat2x2_of_inj, s00, s01, s10, s11]
  have hinv := mat_inv_of s00 s01 s10 s11 hD
  have hz : (⟨.fin pos, .fin speed⟩ : vec2_t) = vec2_of pos speed := rfl
  simp only [kalman_correct, hH, hx, hP, hR, hI, hS, hinv, hz, mat_copy]
  simp [mat2x2_of_inj, vec2_of_inj, k00, k01, k10, k11, D]

/-! ## The predict and correct steps on finite states -/

theorem kalman_refresh_fin (s : params_t) (kf : kalman_t) (dt : ℚ) (hwf : kalman_wf kf) :
    (kalman_refresh s kf dt).A = mat2x2_of 1 dt 0 1 ∧
    (kalman_refresh s kf dt).B = ⟨.fin (1 / 2 * dt * dt), .fin dt⟩ ∧
    (kalman_refresh s kf dt).Q = mat2x2_of (tsfloat_get s kf.q) 0 0 (tsfloat_get s kf.q) ∧
    (kalman_refresh s kf dt).R = mat2x2_of (tsfloat_get s kf.r) 0 0 (tsfloat_get s kf.r) := by
  obtain ⟨hI, hA00, hA10, hA11, -, -, -⟩ := hwf
  refine ⟨?_, ?_, ?_, ?_⟩
  · simp [kalman_refresh, mat2x2_of, hA00, hA10, hA11]
  · simp [kalman_refresh]
  · simp [kalman_refresh, hI]
  · simp [kalman_refresh, hI]

theorem kalman_refresh_frame (s : params_t) (kf : kalman_t) (dt : ℚ) :
    (kalman_refresh s kf dt).x = kf.x ∧ (kalman_refresh s kf dt).P = kf.P ∧
    (kalman_refresh s kf dt).H = kf.H ∧ (kalman_refresh s kf dt).I = kf.I ∧
    (kalman_refresh s kf dt).use_speed = kf.use_speed ∧
    (kalman_refresh s kf dt).q = kf.q ∧ (kalman_refresh s kf dt).r = kf.r := by
  simp [kalman_refresh]

theorem kalman_predict_fin (kf : kalman_t) (a dt b0 b1 q x0 x1 p00 p01 p10 p11 : ℚ)
    (hA : kf.A = mat2x2_of 1 dt 0 1) (hB : kf.B = ⟨.fin b0, .fin b1⟩)
    (hQ : kf.Q = mat2x2_of q 0 0 q)
    (hx : kf.x = vec2_of x0 x1) (hP : kf.P = mat2x2_of p00 p01 p10 p11) :
    (kalman_predict kf a).x = vec2_of (x0 + dt * x1 + b0 * a) (x1 + b1 * a) ∧
    (kalman_predict kf a).P =
      mat2x2_of (p00 + dt * p10 + (p01 + dt * p11) * dt + q) (p01 + dt * p11)
        (p10 + p11 * dt) (p11 + q) := by
  have hu : mat2x1_vec_mul ⟨.fin b0, .fin b1⟩ ⟨.fin a⟩ = vec2_of (b0 * a) (b1 * a) := rfl
  simp only [kalman_predict, hA, hB, hQ, hx, hP, hu]
  simp [mat2x2_of_inj, vec2_of_inj]

theorem kalman_predict_frame (kf : kalman_t) (a : ℚ) :
    (kalman_predict kf a).H = kf.H ∧ (kalman_predict kf a).I = kf.I ∧
    (kalman_predict kf a).A = kf.A ∧ (kalman_predict kf a).R = kf.R ∧
    (kalman_predict kf a).use_speed = kf.use_speed ∧
    (kalman_predict kf a).q = kf.q ∧ (kalman_predict kf a).r = kf.r := by
  simp [kalman_predict]

theorem kalman_correct_frame (kf : kalman_t) (pos speed : ℚ) :
    (kalman_correct kf pos speed).I = kf.I ∧ (kalman_correct kf pos speed).A = kf.A ∧
    (kalman_correct kf pos speed).use_speed = kf.use_speed ∧
    (kalman_correct kf pos speed).q = kf.q ∧ (kalman_correct kf pos speed).r = kf.r ∧
    (kalman_correct kf pos speed).H =
      { kf.H with me11 := Flt.ofBool (kf.use_speed && decide (speed ≠ 0)) } := by
  simp [kalman_correct]

theorem kalman_correct_fin_singular (kf : kalman_t) (x0 x1 p00 p01 p10 p11 r pos speed : ℚ)
    (hwf : kalman_wf kf)
    (hx : kf.x = vec2_of x0 x1) (hP : kf.P = mat2x2_of p00 p01 p10 p11)
    (hR : kf.R = mat2x2_of r 0 0 r)
    (hS : (p00 + r) * (gate kf.use_speed speed * p11 * gate kf.use_speed speed + r)
      - p01 * gate kf.use_speed speed * (gate kf.use_speed speed * p10) = 0) :
    (kalman_correct kf pos speed).K = ⟨.nan, .nan, .nan, .nan⟩ ∧
    (kalman_correct kf pos speed).x = ⟨.nan, .nan⟩ ∧
    (kalman_correct kf pos speed).P = ⟨.nan, .nan, .nan, .nan⟩ := by
  obtain ⟨hI, -, -, -, hH00, hH01, hH10⟩ := hwf
  have hH : ({ kf.H with me11 := Flt.ofBool (kf.use_speed && decide (speed ≠ 0)) } : mat2x2_t)
      = mat2x2_of 1 0 0 (gate kf.use_speed speed) := by
    rw [ofBool_gate]; simp [mat2x2_of, hH00, hH01, hH10]
  have hSm : mat_add (mmtr_mul (mat_mul (mat2x2_of 1 0 0 (gate kf.use_speed speed))
      (mat2x2_of p00 p01 p10 p11)) (mat2x2_of 1 0 0 (gate kf.use_speed speed)))
      (mat2x2_of r 0 0 r) = mat2x2_of (p00 + r) (p01 * gate kf.use_speed speed)
        (gate kf.use_speed speed * p10)
        (gate kf.use_speed speed * p11 * gate kf.use_speed speed + r) := by
    simp [mat2x2_of_inj]
  have hinv := mat_inv_of_singular _ _ _ _ hS
  have hz : (⟨.fin pos, .fin speed⟩ : vec2_t) = vec2_of pos speed := rfl
  simp only [kalman_correct, hH, hx, hP, hR, hI, hSm, hinv, hz, mat_copy]
  simp [mat_mul, mat_sub, mat_vec_mul, vec_add, mmtr_mul]

theorem innov_S_det (use_speed : Bool) (speed p00 p01 p10 p11 r : ℚ) :
    (innov_S (obs_H use_speed speed) !![p00, p01; p10, p11] r).det =
      (p00 + r) * (gate use_speed speed * p11 * gate use_speed speed + r)
      - p01 * gate use_speed speed * (gate use_speed speed * p10) := by
  simp [innov_S, obs_H, Matrix.det_fin_two, Matrix.smul_apply, Matrix.mul_apply,
      Fin.sum_univ_two, Matrix.diagonal_apply]

theorem kf_baro_r0_fields :
    kalman_wf kf_baro_r0 ∧ kf_baro_r0.x = vec2_of 0 0 ∧ kf_baro_r0.P = mat2x2_of 2 1 1 1 ∧
    kf_baro_r0.R = mat2x2_of 0 0 0 0 ∧ kf_baro_r0.use_speed = false := by
  simp [kf_baro_r0, kalman_wf, kalman_predict, kalman_refresh, kalman_init, mat2x2_of, vec2_of,
    mat_vec_mul, mat2x1_vec_mul, vec_add, mat_mul, mmtr_mul, mat_add, mat_scalar_mul, mat_ident,
    mat2x2_init, vec2_init, tsfloat_get]
  norm_num

/-! ## The covariance invariant -/

theorem gate_cases (b : Bool) (speed : ℚ) : gate b speed = 0 ∨ gate b speed = 1 := by
  unfold gate; split_ifs <;> simp

theorem psd_predict {a b d q t : ℚ} (ha : 0 ≤ a) (hd : 0 ≤ d) (hdet : b * b ≤ a * d)
    (hq : 0 ≤ q) :
    0 ≤ a + t * b + (b + t * d) * t + q ∧ 0 ≤ d + q ∧
    (b + t * d) * (b + t * d) ≤ (a + t * b + (b + t * d) * t + q) * (d + q) := by
  have h1 : 0 ≤ a + t * b + (b + t * d) * t := by
    rcases eq_or_lt_of_le hd with h0 | hpos
    · have hb : b = 0 := by
        have : b * b ≤ 0 := by simpa [← h0] using hdet
        nlinarith [mul_self_nonneg b]
      subst hb; rw [← h0]; simpa using ha
    · have : 0 ≤ d * (a + t * b + (b + t * d) * t) := by
        nlinarith [mul_self_nonneg (t * d + b)]
      exact nonneg_of_mul_nonneg_right this hpos
  refine ⟨by linarith, by linarith, ?_⟩
  nlinarith [mul_nonneg h1 hq, mul_nonneg hq hd, mul_nonneg hq hq]

theorem psd_correct_gate0 {a b d r : ℚ} (ha : 0 ≤ a) (hd : 0 ≤ d) (hdet : b * b ≤ a * d)
    (hr : 0 < r) :
    0 ≤ a * r / (a + r) ∧ 0 ≤ d - b * b / (a + r) ∧
    (b * r / (a + r)) * (b * r / (a + r)) ≤ (a * r / (a + r)) * (d - b * b / (a + r)) := by
  have har : 0 < a + r := by linarith
  have hne : a + r ≠ 0 := har.ne'
  refine ⟨div_nonneg (mul_nonneg ha hr.le) har.le, ?_, ?_⟩
  · rw [sub_nonneg, div_le_iff₀ har]; nlinarith [mul_nonneg hd hr.le]
  · rw [← sub_nonneg]
    have : (a * r / (a + r)) * (d - b * b / (a + r)) - (b * r / (a + r)) * (b * r / (a + r))
        = r * (a * d - b * b) / (a + r) := by
      field_simp; ring
    rw [this]
    exact div_nonneg (mul_nonneg hr.le (by linarith)) har.le

theorem psd_correct_gate1 {a b d r : ℚ} (ha : 0 ≤ a) (hd : 0 ≤ d) (hdet : b * b ≤ a * d)
    (hr : 0 < r) :
    0 < (a + r) * (d + r) - b * b ∧
    0 ≤ r * (a * d - b * b + a * r) / ((a + r) * (d + r) - b * b) ∧
    0 ≤ r * (a * d - b * b + r * d) / ((a + r) * (d + r) - b * b) ∧
    (r * r * b / ((a + r) * (d + r) - b * b)) * (r * r * b / ((a + r) * (d + r) - b * b)) ≤
      (r * (a * d - b * b + a * r) / ((a + r) * (d + r) - b * b)) *
        (r * (a * d - b * b + r * d) / ((a + r) * (d + r) - b * b)) := by
  have hD : 0 < (a + r) * (d + r) - b * b := by nlinarith [mul_nonneg ha hr.le, mul_nonneg hd hr.le, mul_pos hr hr]
  have hne := hD.ne'
  have hΔ : 0 ≤ a * d - b * b := by linarith
  refine ⟨hD, div_nonneg (mul_nonneg hr.le (by nlinarith [mul_nonneg ha hr.le])) hD.le,
    div_nonneg (mul_nonneg hr.le (by nlinarith [mul_nonneg hd hr.le])) hD.le, ?_⟩
  rw [← sub_nonneg]
  have : (r * (a * d - b * b + a * r) / ((a + r) * (d + r) - b * b)) *
        (r * (a * d - b * b + r * d) / ((a + r) * (d + r) - b * b)) -
      (r * r * b / ((a + r) * (d + r) - b * b)) * (r * r * b / ((a + r) * (d + r) - b * b))
      = r * r * (a * d - b * b) / ((a + r) * (d + r) - b * b) := by
    field_simp; ring
  rw [this]
  exact div_nonneg (mul_nonneg (mul_nonneg hr.le hr.le) hΔ) hD.le

theorem kalman_init_inv (q r : tsfloat_ref) (pos speed : ℚ) (us : Bool) :
    kalman_inv (kalman_init q r pos speed us) := by
  refine ⟨?_, pos, speed, 1, 0, 1, rfl, rfl, by norm_num, by norm_num, by norm_num⟩
  simp [kalman_wf, kalman_init, mat_ident, mat2x2_of, mat2x2_init]

theorem kalman_predict_inv (s : params_t) (kf : kalman_t) (a dt : ℚ) (h : kalman_inv kf)
    (hq : 0 ≤ tsfloat_get s kf.q) :
    kalman_inv (kalman_predict (kalman_refresh s kf dt) a) ∧
    (kalman_predict (kalman_refresh s kf dt) a).R =
      mat2x2_of (tsfloat_get s kf.r) 0 0 (tsfloat_get s kf.r) := by
  obtain ⟨hwf, x0, x1, p, b, d, hx, hP, hp, hd, hdet⟩ := h
  obtain ⟨hA, hB, hQ, hR⟩ := kalman_refresh_fin s kf dt hwf
  obtain ⟨hx', hP', hH', hI', -⟩ := kalman_refresh_frame s kf dt
  obtain ⟨h1, h2⟩ := kalman_predict_fin (kalman_refresh s kf dt) a dt _ _ _ x0 x1 p b b d
    hA hB hQ (hx'.trans hx) (hP'.trans hP)
  obtain ⟨fH, fI, fA, fR, -⟩ := kalman_predict_frame (kalman_refresh s kf dt) a
  obtain ⟨g1, g2, g3⟩ := psd_predict (t := dt) hp hd hdet hq
  refine ⟨⟨?_, _, _, _, (b + dt * d), _, h1, ?_, g1, g2, g3⟩, fR.trans hR⟩
  · obtain ⟨wI, wA0, wA1, wA2, wH0, wH1, wH2⟩ := hwf
    refine ⟨by rw [fI, hI', wI], ?_, ?_, ?_, by rw [fH, hH', wH0], by rw [fH, hH', wH1],
      by rw [fH, hH', wH2]⟩ <;> rw [fA, hA] <;> rfl
  · rw [h2, mat2x2_of_inj]; refine ⟨rfl, rfl, by ring, rfl⟩

theorem kalman_correct_inv (kf : kalman_t) (r pos speed : ℚ) (h : kalman_inv kf)
    (hR : kf.R = mat2x2_of r 0 0 r) (hr : 0 < r) :
    kalman_inv (kalman_correct kf pos speed) := by
  obtain ⟨hwf, x0, x1, a, b, d, hx, hP, ha, hd, hdet⟩ := h
  have key := kalman_correct_fin kf x0 x1 a b b d r pos speed hwf hx hP hR
  obtain ⟨fI, fA, -, -, -, fH⟩ := kalman_correct_frame kf pos speed
  have hwf' : kalman_wf (kalman_correct kf pos speed) := by
    obtain ⟨wI, wA0, wA1, wA2, wH0, wH1, wH2⟩ := hwf
    refine ⟨by rw [fI, wI], by rw [fA, wA0], by rw [fA, wA1], by rw [fA, wA2], ?_, ?_, ?_⟩ <;>
      rw [fH] <;> assumption
  refine ⟨hwf', ?_⟩
  rcases gate_cases kf.use_speed speed with hg | hg
  · rw [hg] at key
    obtain ⟨g1, g2, g3⟩ := psd_correct_gate0 ha hd hdet hr
    have har : a + r ≠ 0 := by linarith
    have hD : (a + r) * (0 * d * 0 + r) - b * 0 * (0 * b) ≠ 0 := by
      simpa using mul_ne_zero har hr.ne'
    obtain ⟨-, kx, kP⟩ := key hD
    refine ⟨_, _, a * r / (a + r), b * r / (a + r), d - b * b / (a + r), kx, ?_, g1, g2, g3⟩
    rw [kP, mat2x2_of_inj]
    have hr' := hr.ne'
    refine ⟨?_, ?_, ?_, ?_⟩ <;> simp <;> field_simp <;> ring
  · rw [hg] at key
    obtain ⟨hDpos, g1, g2, g3⟩ := psd_correct_gate1 ha hd hdet hr
    have hD : (a + r) * (1 * d * 1 + r) - b * 1 * (1 * b) ≠ 0 := by
      simpa using hDpos.ne'
    obtain ⟨-, kx, kP⟩ := key hD
    refine ⟨_, _, _, r * r * b / ((a + r) * (d + r) - b * b), _, kx, ?_, g1, g2, g3⟩
    rw [kP, mat2x2_of_inj]
    have hD' := hDpos.ne'
    refine ⟨?_, ?_, ?_, ?_⟩ <;> simp <;> field_simp <;> ring

/-! ## Ticks -/

theorem kalman_run_inv (s : params_t) (kf : kalman_t) (pos speed acc dt : ℚ)
    (h : kalman_inv kf) (hq : 0 ≤ tsfloat_get s kf.q) (hr : 0 < tsfloat_get s kf.r) :
    kalman_inv (kalman_run s kf pos speed acc dt).1 ∧
    (kalman_run s kf pos speed acc dt).1.q = kf.q ∧
    (kalman_run s kf pos speed acc dt).1.r = kf.r := by
  obtain ⟨hp, hR⟩ := kalman_predict_inv s kf acc dt h hq
  refine ⟨kalman_correct_inv _ _ pos speed hp hR hr, ?_, ?_⟩ <;>
    simp [kalman_run, kalman_correct, kalman_predict, kalman_refresh]

theorem kalman_ticks_inv (q r : tsfloat_ref) (ts : List tick_t) :
    ∀ kf : kalman_t, kalman_inv kf → kf.q = q → kf.r = r →
      (∀ t ∈ ts, 0 ≤ tsfloat_get t.store q ∧ 0 < tsfloat_get t.store r) →
      kalman_inv (kalman_ticks kf ts) := by
  induction ts with
  | nil => intro kf h _ _ _; exact h
  | cons t ts ih =>
    intro kf h hq hr hts
    obtain ⟨h0, h1⟩ := hts t (List.mem_cons_self t ts)
    obtain ⟨g, gq, gr⟩ := kalman_run_inv t.store kf t.pos t.speed t.acc t.dt h
      (hq ▸ h0) (hr ▸ h1)
    exact ih _ g (gq.trans hq) (gr.trans hr) fun u hu => hts u (List.mem_cons_of_mem t hu)

/-! ## The claims -/

/-- Claim C1: on a finite state whose innovation covariance `S = H·P·Hᵀ + r·I`
is invertible, `kalman_correct` leaves `H = diag(1, h)` with `h` the gate of
the call, `K = P·Hᵀ·S⁻¹` computed from the prior `P`, `x + K·(z − H·x)` with
`z = [pos, speed]` in `x`, and `(I − K·H)·P` in `P`. -/
theorem kalman_correct_gain_update (kf : kalman_t) (x0 x1 p00 p01 p10 p11 r pos speed : ℚ)
    (hwf : kalman_wf kf)
    (hx : kf.x = vec2_of x0 x1) (hP : kf.P = mat2x2_of p00 p01 p10 p11)
    (hR : kf.R = mat2x2_of r 0 0 r)
    (hS : (innov_S (obs_H kf.use_speed speed) !![p00, p01; p10, p11] r).det ≠ 0) :
    (kalman_correct kf pos speed).H = mat2x2_ofMatrix (obs_H kf.use_speed speed) ∧
    (kalman_correct kf pos speed).K =
      mat2x2_ofMatrix (!![p00, p01; p10, p11] * (obs_H kf.use_speed speed).transpose *
        (innov_S (obs_H kf.use_speed speed) !![p00, p01; p10, p11] r)⁻¹) ∧
    (kalman_correct kf pos speed).x =
      vec2_ofFun (![x0, x1] +
        (!![p00, p01; p10, p11] * (obs_H kf.use_speed speed).transpose *
          (innov_S (obs_H kf.use_speed speed) !![p00, p01; p10, p11] r)⁻¹).mulVec
            (![pos, speed] - (obs_H kf.use_speed speed).mulVec ![x0, x1])) ∧
    (kalman_correct kf pos speed).P =
      mat2x2_ofMatrix ((1 - !![p00, p01; p10, p11] * (obs_H kf.use_speed speed).transpose *
        (innov_S (obs_H kf.use_speed speed) !![p00, p01; p10, p11] r)⁻¹ *
          obs_H kf.use_speed speed) * !![p00, p01; p10, p11]) := by
  have hHc : (kalman_correct kf pos speed).H = mat2x2_ofMatrix (obs_H kf.use_speed speed) := by
    obtain ⟨-, -, -, -, hH00, hH01, hH10⟩ := hwf
    rw [(kalman_correct_frame kf pos speed).2.2.2.2.2, ofBool_gate]
    simp [mat2x2_ofMatrix, mat2x2_of, obs_H, hH00, hH01, hH10]
  refine ⟨hHc, ?_⟩
  have hD := innov_S_det kf.use_speed speed p00 p01 p10 p11 r ▸ hS
  have hdet := innov_S_det kf.use_speed speed p00 p01 p10 p11 r
  generalize hPm : (!![p00, p01; p10, p11] : Matrix (Fin 2) (Fin 2) ℚ) = P at hS hdet ⊢
  generalize hSm : innov_S (obs_H kf.use_speed speed) P r = S at hS hdet ⊢
  generalize hKm : P * (obs_H kf.use_speed speed).transpose * S⁻¹ = K
  have hSinv : S⁻¹ = (S.det)⁻¹ • S.adjugate := by
    rw [Matrix.inv_def, Ring.inverse_eq_inv']
  obtain ⟨hK, hx', hP'⟩ := kalman_correct_fin kf x0 x1 p00 p01 p10 p11 r pos speed hwf hx hP hR hD
  rw [hK, hx', hP']
  clear hK hx' hP' hx hP hR hwf hHc
  have hKe : ∀ i j, K i j =
      (P * (obs_H kf.use_speed speed).transpose * ((S.det)⁻¹ • S.adjugate)) i j := by
    intro i j; simp only [← hKm, hSinv]
  have hK00 := hKe 0 0
  have hK01 := hKe 0 1
  have hK10 := hKe 1 0
  have hK11 := hKe 1 1
  simp only [Matrix.mul_apply, Fin.sum_univ_two, Matrix.smul_apply, Matrix.adjugate_fin_two,
      Matrix.transpose_apply, hdet, smul_eq_mul] at hK00 hK01 hK10 hK11
  simp [← hSm, innov_S, obs_H, ← hPm, Matrix.mul_apply, Fin.sum_univ_two, Matrix.diagonal_apply]
    at hK00 hK01 hK10 hK11
  clear hKe hSinv hdet hS
  refine ⟨?_, ?_, ?_⟩
  · simp only [mat2x2_ofMatrix, mat2x2_of_inj, hK00, hK01, hK10, hK11]
    refine ⟨?_, ?_, ?_, ?_⟩ <;> ring
  · simp only [vec2_ofFun, vec2_of_inj, Matrix.mulVec, Matrix.dotProduct, Fin.sum_univ_two,
      Pi.add_apply, Pi.sub_apply, hK00, hK01, hK10, hK11, obs_H]
    simp [Matrix.diagonal_apply]
    refine ⟨?_, ?_⟩ <;> ring
  · simp only [mat2x2_ofMatrix, mat2x2_of_inj, Matrix.mul_apply, Matrix.sub_apply,
      Fin.sum_univ_two, hK00, hK01, hK10, hK11, obs_H]
    simp [Matrix.diagonal_apply, ← hPm]
    refine ⟨?_, ?_, ?_, ?_⟩ <;> ring

/-- Witness of C1: the GPS filter after `kalman_init`, measurement noise 1,
corrected with `pos = 1`, `speed = 1`. -/
theorem kalman_correct_gain_update_witness :
    (kalman_correct kf_gps 1 1).H = mat2x2_ofMatrix (obs_H kf_gps.use_speed 1) ∧
    (kalman_correct kf_gps 1 1).K =
      mat2x2_ofMatrix (!![1, 0; 0, 1] * (obs_H kf_gps.use_speed 1).transpose *
        (innov_S (obs_H kf_gps.use_speed 1) !![1, 0; 0, 1] 1)⁻¹) ∧
    (kalman_correct kf_gps 1 1).x =
      vec2_ofFun (![0, 0] +
        (!![1, 0; 0, 1] * (obs_H kf_gps.use_speed 1).transpose *
          (innov_S (obs_H kf_gps.use_speed 1) !![1, 0; 0, 1] 1)⁻¹).mulVec
            (![1, 1] - (obs_H kf_gps.use_speed 1).mulVec ![0, 0])) ∧
    (kalman_correct kf_gps 1 1).P =
      mat2x2_ofMatrix ((1 - !![1, 0; 0, 1] * (obs_H kf_gps.use_speed 1).transpose *
        (innov_S (obs_H kf_gps.use_speed 1) !![1, 0; 0, 1] 1)⁻¹ *
          obs_H kf_gps.use_speed 1) * !![1, 0; 0, 1]) :=
  kalman_correct_gain_update kf_gps 0 0 1 0 0 1 1 1 1 (by decide) rfl rfl rfl
    (by rw [innov_S_det]; simp [gate, kf_gps, kalman_init])

/-- Claim C2: on a finite state, the predict step of a tick (the refresh of
`A`, `B`, `Q` in `kalman_run`, then `kalman_predict`) gives
`x = [x0 + dt·x1 + 0.5·dt²·a, x1 + dt·a]` and `P = A·P·Aᵀ + q·I` with
`A = [[1, dt], [0, 1]]` and `q` the process noise read in this tick. -/
theorem kalman_predict_tick (s : params_t) (kf : kalman_t) (a dt x0 x1 p00 p01 p10 p11 : ℚ)
    (hwf : kalman_wf kf)
    (hx : kf.x = vec2_of x0 x1) (hP : kf.P = mat2x2_of p00 p01 p10 p11) :
    (kalman_predict (kalman_refresh s kf dt) a).x =
      vec2_of (x0 + dt * x1 + 1 / 2 * dt ^ 2 * a) (x1 + dt * a) ∧
    (kalman_predict (kalman_refresh s kf dt) a).P =
      mat2x2_ofMatrix (!![1, dt; 0, 1] * !![p00, p01; p10, p11] *
        (!![1, dt; 0, 1] : Matrix (Fin 2) (Fin 2) ℚ).transpose +
        tsfloat_get s kf.q • (1 : Matrix (Fin 2) (Fin 2) ℚ)) := by
  obtain ⟨hA, hB, hQ, -⟩ := kalman_refresh_fin s kf dt hwf
  obtain ⟨hx', hP', -⟩ := kalman_refresh_frame s kf dt
  obtain ⟨h1, h2⟩ := kalman_predict_fin (kalman_refresh s kf dt) a dt _ _ _ x0 x1 p00 p01 p10 p11
    hA hB hQ (hx'.trans hx) (hP'.trans hP)
  rw [h1, h2]
  constructor
  · rw [vec2_of_inj]; constructor <;> ring
  · simp only [mat2x2_ofMatrix, mat2x2_of_inj, Matrix.add_apply, Matrix.mul_apply,
      Fin.sum_univ_two, Matrix.transpose_apply, Matrix.smul_apply]
    simp

/-- Witness of C2: the GPS filter after `kalman_init`, `dt = 2`, `a = 3`,
process noise 1. -/
theorem kalman_predict_tick_witness :
    (kalman_predict (kalman_refresh ⟨1, 1, 1, 1, 1⟩ kf_gps 2) 3).x =
      vec2_of (0 + 2 * 0 + 1 / 2 * 2 ^ 2 * 3) (0 + 2 * 3) ∧
    (kalman_predict (kalman_refresh ⟨1, 1, 1, 1, 1⟩ kf_gps 2) 3).P =
      mat2x2_ofMatrix (!![1, 2; 0, 1] * !![1, 0; 0, 1] *
        (!![1, 2; 0, 1] : Matrix (Fin 2) (Fin 2) ℚ).transpose +
        tsfloat_get ⟨1, 1, 1, 1, 1⟩ kf_gps.q • (1 : Matrix (Fin 2) (Fin 2) ℚ)) :=
  kalman_predict_tick ⟨1, 1, 1, 1, 1⟩ kf_gps 3 2 0 0 1 0 0 1 (by decide) rfl rfl

/-- Claim C3: after `kalman_correct(kf, pos, speed)`, `H[1][1]` is 1 exactly
when `use_speed` holds and `speed ≠ 0`, and 0 otherwise, while `H[0][0] = 1`
and the off-diagonal entries are 0; with `use_speed`, `correct(pos, 0)` gives
`H[1][1] = 0` and `correct(pos, v)`, `v ≠ 0`, gives `H[1][1] = 1`. -/
theorem kalman_correct_gate (kf : kalman_t) (pos speed : ℚ) (hwf : kalman_wf kf) :
    ((kalman_correct kf pos speed).H.me11 = .fin 1 ↔ (kf.use_speed = true ∧ speed ≠ 0)) ∧
    (¬(kf.use_speed = true ∧ speed ≠ 0) → (kalman_correct kf pos speed).H.me11 = .fin 0) ∧
    (kalman_correct kf pos speed).H.me00 = .fin 1 ∧
    (kalman_correct kf pos speed).H.me01 = .fin 0 ∧
    (kalman_correct kf pos speed).H.me10 = .fin 0 ∧
    (kf.use_speed = true → (kalman_correct kf pos 0).H.me11 = .fin 0) ∧
    (kf.use_speed = true → speed ≠ 0 → (kalman_correct kf pos speed).H.me11 = .fin 1) := by
  obtain ⟨-, -, -, -, hH00, hH01, hH10⟩ := hwf
  have hH := fun v => (kalman_correct_frame kf pos v).2.2.2.2.2
  simp only [hH, ofBool_gate, hH00, hH01, hH10]
  by_cases h : kf.use_speed = true ∧ speed ≠ 0
  · simp [gate, h]
  · simp only [gate, if_neg h]
    simp only [gate, h, false_iff, not_false_eq_true, true_and, imp_true_iff, true_and]
    refine ⟨by simp, by simp [gate], fun hu hs => absurd ⟨hu, hs⟩ h⟩

/-- Witness of C3: the GPS filter after `kalman_init`, corrected with
`speed = 2`. -/
theorem kalman_correct_gate_witness :
    ((kalman_correct kf_gps 5 2).H.me11 = .fin 1 ↔ (kf_gps.use_speed = true ∧ (2 : ℚ) ≠ 0)) ∧
    (¬(kf_gps.use_speed = true ∧ (2 : ℚ) ≠ 0) → (kalman_correct kf_gps 5 2).H.me11 = .fin 0) ∧
    (kalman_correct kf_gps 5 2).H.me00 = .fin 1 ∧
    (kalman_correct kf_gps 5 2).H.me01 = .fin 0 ∧
    (kalman_correct kf_gps 5 2).H.me10 = .fin 0 ∧
    (kf_gps.use_speed = true → (kalman_correct kf_gps 5 0).H.me11 = .fin 0) ∧
    (kf_gps.use_speed = true → (2 : ℚ) ≠ 0 → (kalman_correct kf_gps 5 2).H.me11 = .fin 1) :=
  kalman_correct_gate kf_gps 5 2 (by decide)

/-- Claim C4: for a filter with `use_speed = false`, the `x`, `P` and `K` that
`kalman_correct` produces are the same for every two speed arguments, zero or
not, whatever the state holds in `x` and `P`. -/
theorem kalman_correct_speed_blind (kf : kalman_t) (r pos v1 v2 : ℚ) (hwf : kalman_wf kf)
    (hR : kf.R = mat2x2_of r 0 0 r) (hus : kf.use_speed = false) :
    (kalman_correct kf pos v1).x = (kalman_correct kf pos v2).x ∧
    (kalman_correct kf pos v1).P = (kalman_correct kf pos v2).P ∧
    (kalman_correct kf pos v1).K = (kalman_correct kf pos v2).K := by
  obtain ⟨hI, -, -, -, hH00, hH01, hH10⟩ := hwf
  have hH : ∀ v : ℚ, ({ kf.H with me11 := Flt.ofBool (kf.use_speed && decide (v ≠ 0)) } : mat2x2_t)
      = mat2x2_of 1 0 0 0 := by
    intro v
    rw [ofBool_gate]; simp [mat2x2_of, hH00, hH01, hH10, gate, hus]
  simp only [kalman_correct, hH, hR, hI, mat_copy]
  generalize kf.P = P
  generalize kf.x = x
  obtain ⟨a, b, c, d⟩ := P
  obtain ⟨x0, x1⟩ := x
  cases a <;> cases b <;> cases c <;> cases d <;> cases x0 <;> cases x1 <;>
    simp [mat_mul, mmtr_mul, mat_add, mat_sub, mat_inv, mat_vec_mul, vec_add, vec_sub, mat2x2_of,
      Flt.fin_div]
  split_ifs <;> simp

/-- Witness of C4: the barometric filter after `kalman_init`, corrected with
the speeds 7 and 0. -/
theorem kalman_correct_speed_blind_witness :
    (kalman_correct (kalman_init tsfloat_ref.process_noise tsfloat_ref.baro_noise 0 0 false) 4 7).x
      = (kalman_correct (kalman_init tsfloat_ref.process_noise tsfloat_ref.baro_noise 0 0 false)
          4 0).x ∧
    (kalman_correct (kalman_init tsfloat_ref.process_noise tsfloat_ref.baro_noise 0 0 false) 4 7).P
      = (kalman_correct (kalman_init tsfloat_ref.process_noise tsfloat_ref.baro_noise 0 0 false)
          4 0).P ∧
    (kalman_correct (kalman_init tsfloat_ref.process_noise tsfloat_ref.baro_noise 0 0 false) 4 7).K
      = (kalman_correct (kalman_init tsfloat_ref.process_noise tsfloat_ref.baro_noise 0 0 false)
          4 0).K :=
  kalman_correct_speed_blind _ 0 4 7 0 (by decide) rfl rfl

/-- Counterexample to C5: the barometric filter in its first tick with
measurement noise 0 reaches `kalman_correct` with a singular `S`; the call
does not keep `x` and `P`. -/
theorem kalman_correct_no_fallback :
    (innov_S (obs_H kf_baro_r0.use_speed 0) !![2, 1; 1, 1] 0).det = 0 ∧
    (kalman_correct kf_baro_r0 3 0).x ≠ kf_baro_r0.x ∧
    (kalman_correct kf_baro_r0 3 0).P ≠ kf_baro_r0.P := by
  obtain ⟨hwf, hx, hP, hR, hus⟩ := kf_baro_r0_fields
  have hS : (innov_S (obs_H kf_baro_r0.use_speed 0) !![2, 1; 1, 1] 0).det = 0 := by
    rw [innov_S_det]; simp [gate]
  obtain ⟨-, hx', hP'⟩ := kalman_correct_fin_singular kf_baro_r0 0 0 2 1 1 1 0 3 0 hwf hx hP hR
    (innov_S_det _ _ _ _ _ _ _ ▸ hS)
  refine ⟨hS, ?_, ?_⟩
  · rw [hx', hx]; decide
  · rw [hP', hP]; decide

/-- Claim C5, amended: `kalman_correct` has no degenerate-update branch. On a
finite state whose innovation covariance `S = H·P·Hᵀ + r·I` is singular it
still inverts `S`; the division by the zero determinant leaves no finite
number in `K`, `x` or `P`. -/
theorem kalman_correct_singular (kf : kalman_t) (x0 x1 p00 p01 p10 p11 r pos speed : ℚ)
    (hwf : kalman_wf kf)
    (hx : kf.x = vec2_of x0 x1) (hP : kf.P = mat2x2_of p00 p01 p10 p11)
    (hR : kf.R = mat2x2_of r 0 0 r)
    (hS : (innov_S (obs_H kf.use_speed speed) !![p00, p01; p10, p11] r).det = 0) :
    (kalman_correct kf pos speed).K = ⟨.nan, .nan, .nan, .nan⟩ ∧
    (kalman_correct kf pos speed).x = ⟨.nan, .nan⟩ ∧
    (kalman_correct kf pos speed).P = ⟨.nan, .nan, .nan, .nan⟩ :=
  kalman_correct_fin_singular kf x0 x1 p00 p01 p10 p11 r pos speed hwf hx hP hR
    (innov_S_det kf.use_speed speed p00 p01 p10 p11 r ▸ hS)

/-- Witness of C5, amended: the barometric filter of the counterexample. -/
theorem kalman_correct_singular_witness :
    (kalman_correct kf_baro_r0 3 0).K = ⟨.nan, .nan, .nan, .nan⟩ ∧
    (kalman_correct kf_baro_r0 3 0).x = ⟨.nan, .nan⟩ ∧
    (kalman_correct kf_baro_r0 3 0).P = ⟨.nan, .nan, .nan, .nan⟩ :=
  kalman_correct_singular kf_baro_r0 0 0 2 1 1 1 0 3 0 kf_baro_r0_fields.1 kf_baro_r0_fields.2.1
    kf_baro_r0_fields.2.2.1 kf_baro_r0_fields.2.2.2.1
    (by rw [innov_S_det]; simp [gate])

/-- Claim C6: `pos_update` runs one refresh, predict and correct on each of the
four filters with the frame's `dt`: north with `(acc.n, pos_n, speed_n)`, east
with `(acc.e, pos_e, speed_e)`, barometric with `(acc.u, baro_u, 0)`,
ultrasonic with `(acc.u, ultra_u, 0)`; every output field is the matching
component of that filter's posterior `x`. -/
theorem pos_update_runs_bank (m : pos_module) (i : pos_in_t) :
    (pos_update m i).1.n_kalman =
      kalman_correct (kalman_predict (kalman_refresh m.store m.n_kalman i.dt) i.acc.n)
        i.pos_n i.speed_n ∧
    (pos_update m i).1.e_kalman =
      kalman_correct (kalman_predict (kalman_refresh m.store m.e_kalman i.dt) i.acc.e)
        i.pos_e i.speed_e ∧
    (pos_update m i).1.baro_u_kalman =
      kalman_correct (kalman_predict (kalman_refresh m.store m.baro_u_kalman i.dt) i.acc.u)
        i.baro_u 0 ∧
    (pos_update m i).1.ultra_u_kalman =
      kalman_correct (kalman_predict (kalman_refresh m.store m.ultra_u_kalman i.dt) i.acc.u)
        i.ultra_u 0 ∧
    (pos_update m i).2.ne_pos.n = (pos_update m i).1.n_kalman.x.ve0 ∧
    (pos_update m i).2.ne_speed.n = (pos_update m i).1.n_kalman.x.ve1 ∧
    (pos_update m i).2.ne_pos.e = (pos_update m i).1.e_kalman.x.ve0 ∧
    (pos_update m i).2.ne_speed.e = (pos_update m i).1.e_kalman.x.ve1 ∧
    (pos_update m i).2.baro_u.pos = (pos_update m i).1.baro_u_kalman.x.ve0 ∧
    (pos_update m i).2.baro_u.speed = (pos_update m i).1.baro_u_kalman.x.ve1 ∧
    (pos_update m i).2.ultra_u.pos = (pos_update m i).1.ultra_u_kalman.x.ve0 ∧
    (pos_update m i).2.ultra_u.speed = (pos_update m i).1.ultra_u_kalman.x.ve1 := by
  simp [pos_update, kalman_run]

/-- Claim C7: in a tick with `dt = 0` the refresh makes `A` the identity and
`B` zero; on a finite state the predict step keeps `x` and adds `q·I` to `P`,
so within the tick `x` changes in the correct step only. -/
theorem kalman_zero_dt (s : params_t) (kf : kalman_t) (a pos speed x0 x1 p00 p01 p10 p11 : ℚ)
    (hwf : kalman_wf kf)
    (hx : kf.x = vec2_of x0 x1) (hP : kf.P = mat2x2_of p00 p01 p10 p11) :
    (kalman_refresh s kf 0).A = mat2x2_of 1 0 0 1 ∧
    (kalman_refresh s kf 0).B = ⟨.fin 0, .fin 0⟩ ∧
    (kalman_predict (kalman_refresh s kf 0) a).x = kf.x ∧
    (kalman_predict (kalman_refresh s kf 0) a).P =
      mat2x2_of (p00 + tsfloat_get s kf.q) p01 p10 (p11 + tsfloat_get s kf.q) ∧
    (kalman_run s kf pos speed a 0).1 =
      kalman_correct (kalman_predict (kalman_refresh s kf 0) a) pos speed := by
  obtain ⟨hA, hB, hQ, -⟩ := kalman_refresh_fin s kf 0 hwf
  obtain ⟨hx', hP', -⟩ := kalman_refresh_frame s kf 0
  obtain ⟨h1, h2⟩ := kalman_predict_fin (kalman_refresh s kf 0) a 0 _ _ _ x0 x1 p00 p01 p10 p11
    hA hB hQ (hx'.trans hx) (hP'.trans hP)
  refine ⟨hA, by simpa using hB, ?_, ?_, rfl⟩
  · rw [h1, hx, vec2_of_inj]; constructor <;> ring
  · rw [h2, mat2x2_of_inj]; refine ⟨?_, ?_, ?_, ?_⟩ <;> ring

/-- Witness of C7: the GPS filter after `kalman_init`, acceleration 3. -/
theorem kalman_zero_dt_witness :
    (kalman_refresh ⟨1, 1, 1, 1, 1⟩ kf_gps 0).A = mat2x2_of 1 0 0 1 ∧
    (kalman_refresh ⟨1, 1, 1, 1, 1⟩ kf_gps 0).B = ⟨.fin 0, .fin 0⟩ ∧
    (kalman_predict (kalman_refresh ⟨1, 1, 1, 1, 1⟩ kf_gps 0) 3).x = kf_gps.x ∧
    (kalman_predict (kalman_refresh ⟨1, 1, 1, 1, 1⟩ kf_gps 0) 3).P =
      mat2x2_of (1 + tsfloat_get ⟨1, 1, 1, 1, 1⟩ kf_gps.q) 0 0
        (1 + tsfloat_get ⟨1, 1, 1, 1, 1⟩ kf_gps.q) ∧
    (kalman_run ⟨1, 1, 1, 1, 1⟩ kf_gps 5 2 3 0).1 =
      kalman_correct (kalman_predict (kalman_refresh ⟨1, 1, 1, 1, 1⟩ kf_gps 0) 3) 5 2 :=
  kalman_zero_dt ⟨1, 1, 1, 1, 1⟩ kf_gps 3 5 2 0 0 1 0 0 1 (by decide) rfl rfl

/-- Claim C8: from the state `kalman_init` writes (`P = I`), after any finite
sequence of ticks with process noise `q ≥ 0` and measurement noise `r > 0`,
whatever `dt`, accelerations, measurements and gate decisions, `P` holds
finite numbers with `P[0][1] = P[1][0]`. -/
theorem kalman_ticks_symmetric (q r : tsfloat_ref) (pos0 speed0 : ℚ) (use_speed : Bool)
    (ts : List tick_t)
    (hts : ∀ t ∈ ts, 0 ≤ tsfloat_get t.store q ∧ 0 < tsfloat_get t.store r) :
    (kalman_ticks (kalman_init q r pos0 speed0 use_speed) ts).P.me01 =
      (kalman_ticks (kalman_init q r pos0 speed0 use_speed) ts).P.me10 ∧
    ∃ a b d : ℚ, (kalman_ticks (kalman_init q r pos0 speed0 use_speed) ts).P = mat2x2_of a b b d := by
  obtain ⟨-, x0, x1, a, b, d, -, hP, -⟩ :=
    kalman_ticks_inv q r ts (kalman_init q r pos0 speed0 use_speed)
      (kalman_init_inv q r pos0 speed0 use_speed) rfl rfl hts
  exact ⟨by rw [hP]; rfl, a, b, d, hP⟩

/-- Witness of C8: two ticks of the GPS filter, `q = 1/100`, `r = 1`, the
second with a usable speed. -/
theorem kalman_ticks_symmetric_witness :
    (kalman_ticks (kalman_init tsfloat_ref.process_noise tsfloat_ref.gps_noise 0 0 true)
      [⟨⟨1 / 100, 1, 1, 1, 1⟩, 1, 0, 0, 1 / 10⟩, ⟨⟨1 / 100, 1, 1, 1, 1⟩, 2, 3, 1, 1 / 10⟩]).P.me01 =
    (kalman_ticks (kalman_init tsfloat_ref.process_noise tsfloat_ref.gps_noise 0 0 true)
      [⟨⟨1 / 100, 1, 1, 1, 1⟩, 1, 0, 0, 1 / 10⟩, ⟨⟨1 / 100, 1, 1, 1, 1⟩, 2, 3, 1, 1 / 10⟩]).P.me10 ∧
    ∃ a b d : ℚ,
      (kalman_ticks (kalman_init tsfloat_ref.process_noise tsfloat_ref.gps_noise 0 0 true)
        [⟨⟨1 / 100, 1, 1, 1, 1⟩, 1, 0, 0, 1 / 10⟩, ⟨⟨1 / 100, 1, 1, 1, 1⟩, 2, 3, 1, 1 / 10⟩]).P =
        mat2x2_of a b b d :=
  kalman_ticks_symmetric tsfloat_ref.process_noise tsfloat_ref.gps_noise 0 0 true _
    (by simp [tsfloat_get])

/-- Claim C10: the first `pos_init` succeeds and leaves each of the four
filters with `x = [0, 0]`, `P = I`, `H[0][0] = 1`, `A` with a unit diagonal and
`K = 0`; north and east point at `(process_noise, gps_noise)` with `use_speed`
the value of `use_gps_speed`, barometric at `(process_noise, baro_noise)` and
ultrasonic at `(process_noise, ultra_noise)`, both with `use_speed = false`. -/
theorem pos_init_bank (m : pos_module) (cfg : params_t) (h : m.once = false) :
    ∃ m', pos_init m cfg = some m' ∧ m'.store = cfg ∧
      (∀ kf ∈ [m'.n_kalman, m'.e_kalman, m'.baro_u_kalman, m'.ultra_u_kalman],
        kf.x = vec2_of 0 0 ∧ kf.P = mat2x2_of 1 0 0 1 ∧ kf.H.me00 = .fin 1 ∧
        kf.H.me01 = .fin 0 ∧ kf.H.me10 = .fin 0 ∧
        kf.A = mat2x2_of 1 0 0 1 ∧ kf.K = mat2x2_of 0 0 0 0 ∧
        kf.q = tsfloat_ref.process_noise) ∧
      m'.n_kalman.r = tsfloat_ref.gps_noise ∧
      m'.n_kalman.use_speed = decide (cfg.use_gps_speed ≠ 0) ∧
      m'.e_kalman.r = tsfloat_ref.gps_noise ∧
      m'.e_kalman.use_speed = decide (cfg.use_gps_speed ≠ 0) ∧
      m'.baro_u_kalman.r = tsfloat_ref.baro_noise ∧ m'.baro_u_kalman.use_speed = false ∧
      m'.ultra_u_kalman.r = tsfloat_ref.ultra_noise ∧ m'.ultra_u_kalman.use_speed = false := by
  refine ⟨_, by simp [pos_init, ASSERT_ONCE, h]; rfl, ?_⟩
  simp [kalman_init, tsint_get_bool, mat2x2_of, vec2_of, mat_ident, mat2x2_init, vec2_init]

/-- Witness of C10: `pos_init` on the static storage with the parameters of
the end-to-end scenario. -/
theorem pos_init_bank_witness :
    ∃ m', pos_init pos_static ⟨1 / 100, 1, 1, 1, 1⟩ = some m' ∧
      m'.store = ⟨1 / 100, 1, 1, 1, 1⟩ ∧
      (∀ kf ∈ [m'.n_kalman, m'.e_kalman, m'.baro_u_kalman, m'.ultra_u_kalman],
        kf.x = vec2_of 0 0 ∧ kf.P = mat2x2_of 1 0 0 1 ∧ kf.H.me00 = .fin 1 ∧
        kf.H.me01 = .fin 0 ∧ kf.H.me10 = .fin 0 ∧
        kf.A = mat2x2_of 1 0 0 1 ∧ kf.K = mat2x2_of 0 0 0 0 ∧
        kf.q = tsfloat_ref.process_noise) ∧
      m'.n_kalman.r = tsfloat_ref.gps_noise ∧
      m'.n_kalman.use_speed = decide ((⟨1 / 100, 1, 1, 1, 1⟩ : params_t).use_gps_speed ≠ 0) ∧
      m'.e_kalman.r = tsfloat_ref.gps_noise ∧
      m'.e_kalman.use_speed = decide ((⟨1 / 100, 1, 1, 1, 1⟩ : params_t).use_gps_speed ≠ 0) ∧
      m'.baro_u_kalman.r = tsfloat_ref.baro_noise ∧ m'.baro_u_kalman.use_speed = false ∧
      m'.ultra_u_kalman.r = tsfloat_ref.ultra_noise ∧ m'.ultra_u_kalman.use_speed = false :=
  pos_init_bank pos_static ⟨1 / 100, 1, 1, 1, 1⟩ rfl

/-! ## One tick as a function of the prior state -/

theorem kalman_run_x_P (s : params_t) (kf : kalman_t) (pos speed acc dt : ℚ) (hwf : kalman_wf kf) :
    let H : mat2x2_t := ⟨.fin 1, .fin 0, .fin 0, Flt.ofBool (kf.use_speed && decide (speed ≠ 0))⟩
    let A := mat2x2_of 1 dt 0 1
    let xp := vec_add (mat_vec_mul A kf.x)
      (mat2x1_vec_mul ⟨.fin (1 / 2 * dt * dt), .fin dt⟩ ⟨.fin acc⟩)
    let Pp := mat_add (mmtr_mul (mat_mul A kf.P) A)
      (mat2x2_of (tsfloat_get s kf.q) 0 0 (tsfloat_get s kf.q))
    let K := mat_mul (mmtr_mul Pp H) (mat_inv (mat_add (mmtr_mul (mat_mul H Pp) H)
      (mat2x2_of (tsfloat_get s kf.r) 0 0 (tsfloat_get s kf.r))))
    (kalman_run s kf pos speed acc dt).1.K = K ∧
    (kalman_run s kf pos speed acc dt).1.x =
      vec_add xp (mat_vec_mul K (vec_sub ⟨.fin pos, .fin speed⟩ (mat_vec_mul H xp))) ∧
    (kalman_run s kf pos speed acc dt).1.P =
      mat_mul (mat_sub (mat2x2_of 1 0 0 1) (mat_mul K H)) Pp ∧
    (kalman_run s kf pos speed acc dt).1.H = H := by
  obtain ⟨hA, hB, hQ, hR⟩ := kalman_refresh_fin s kf dt hwf
  obtain ⟨hx', hP', hH', hI', hus', -, -⟩ := kalman_refresh_frame s kf dt
  obtain ⟨hI, -, -, -, hH00, hH01, hH10⟩ := hwf
  have hB' : (kalman_refresh s kf dt).B = ⟨.fin (1 / 2 * dt * dt), .fin dt⟩ := hB
  simp only [kalman_run, kalman_correct, kalman_predict, hA, hB', hQ, hR, hx', hP', hH', hI',
    hus', hI, hH00, hH01, hH10, mat_copy]
  simp [mat2x2_of]

theorem pos_ready_eq : pos_init pos_static ⟨1 / 100, 1, 1, 1, 1⟩ = some pos_ready := by
  simp [pos_init, ASSERT_ONCE, pos_static, pos_ready, tsint_get_bool]

theorem kalman_correct_inverts_S (kf : kalman_t) (pos speed : ℚ) :
    (kalman_correct kf pos speed).K =
      mat_mul (mmtr_mul kf.P (kalman_correct kf pos speed).H)
        (mat_inv (kalman_correct_S kf speed)) := rfl

/-! ## The sonar range -/

theorem raw_word (raw0 raw1 : Nat) (h0 : raw0 < 256) (h1 : raw1 < 256) :
    ((raw0 % 256) <<< 8 ||| (raw1 % 256)) = 256 * raw0 + raw1 := by
  rw [Nat.mod_eq_of_lt h0, Nat.mod_eq_of_lt h1]
  have h := Nat.mul_add_lt_is_or (i := 8) (b := raw1) (by simpa using h1) raw0
  rw [Nat.shiftLeft_eq, Nat.mul_comm raw0, ← h]

theorem limit_mem (x lo hi : ℚ) (h : lo ≤ hi) : lo ≤ limit x lo hi ∧ limit x lo hi ≤ hi := by
  unfold limit
  split_ifs with h1 h2
  · exact ⟨le_refl _, h⟩
  · exact ⟨h, le_refl _⟩
  · exact ⟨not_lt.1 h1, not_lt.1 h2⟩

theorem limit_id (x lo hi : ℚ) (h1 : lo ≤ x) (h2 : x ≤ hi) : limit x lo hi = x := by
  unfold limit
  rw [if_neg (not_lt.2 h1), if_neg (not_lt.2 h2)]

theorem srf10_distance_eq (raw0 raw1 : Nat) (h0 : raw0 < 256) (h1 : raw1 < 256) :
    srf10_distance raw0 raw1 = limit (1 / 100 * (256 * raw0 + raw1)) (2 / 10) 5 := by
  unfold srf10_distance
  rw [raw_word raw0 raw1 h0 h1]
  simp [SRF10_M_SCALE, SRF10_MIN_RANGE, SRF10_MAX_RANGE]

/-! ## Positive semidefinite covariances -/

theorem kalman_inv_psd {kf : kalman_t} (h : kalman_inv kf) : mat_psd kf.P := by
  obtain ⟨-, -, -, a, b, d, -, hP, ha, hd, hdet⟩ := h
  exact ⟨a, b, d, hP, ha, hd, by linarith⟩

theorem kalman_inv_of_psd {kf : kalman_t} (hwf : kalman_wf kf) (x0 x1 : ℚ)
    (hx : kf.x = vec2_of x0 x1) (h : mat_psd kf.P) : kalman_inv kf := by
  obtain ⟨a, b, d, hP, ha, hd, hdet⟩ := h
  exact ⟨hwf, x0, x1, a, b, d, hx, hP, ha, hd, by linarith⟩

theorem kalman_correct_S_fin (kf : kalman_t) (p00 p01 p10 p11 r speed : ℚ) (hwf : kalman_wf kf)
    (hP : kf.P = mat2x2_of p00 p01 p10 p11) (hR : kf.R = mat2x2_of r 0 0 r) :
    kalman_correct_S kf speed =
      mat2x2_of (p00 + r) (p01 * gate kf.use_speed speed) (gate kf.use_speed speed * p10)
        (gate kf.use_speed speed * p11 * gate kf.use_speed speed + r) := by
  obtain ⟨-, -, -, -, hH00, hH01, hH10⟩ := hwf
  have hH : ({ kf.H with me11 := Flt.ofBool (kf.use_speed && decide (speed ≠ 0)) } : mat2x2_t)
      = mat2x2_of 1 0 0 (gate kf.use_speed speed) := by
    rw [ofBool_gate]; simp [mat2x2_of, hH00, hH01, hH10]
  simp only [kalman_correct_S, hH, hP, hR]
  simp [mat2x2_of_inj]

/-! ## Ticks with the gate off, on the numbers of the state -/

theorem kalman_run_qtick (s : params_t) (kf : kalman_t) (st : kstate) (pos speed acc dt : ℚ)
    (hwf : kalman_wf kf) (hst : kalman_holds kf st) (hpsd : kstate_psd st)
    (hq : 0 ≤ tsfloat_get s kf.q) (hr : 0 < tsfloat_get s kf.r)
    (hg : kf.use_speed = false ∨ speed = 0) :
    kalman_wf (kalman_run s kf pos speed acc dt).1 ∧
    kalman_holds (kalman_run s kf pos speed acc dt).1
      (qtick (tsfloat_get s kf.q) (tsfloat_get s kf.r) dt pos acc st) ∧
    kstate_psd (qtick (tsfloat_get s kf.q) (tsfloat_get s kf.r) dt pos acc st) ∧
    (kalman_run s kf pos speed acc dt).1.q = kf.q ∧
    (kalman_run s kf pos speed acc dt).1.r = kf.r ∧
    (kalman_run s kf pos speed acc dt).1.use_speed = kf.use_speed := by
  obtain ⟨hx, hP⟩ := hst
  obtain ⟨ha, hd, hdet⟩ := hpsd
  have hinv : kalman_inv kf := ⟨hwf, _, _, _, _, _, hx, hP, ha, hd, hdet⟩
  obtain ⟨hinv', hq', hr'⟩ := kalman_run_inv s kf pos speed acc dt hinv hq hr
  -- the predict step
  obtain ⟨hA, hB, hQ, hR⟩ := kalman_refresh_fin s kf dt hwf
  obtain ⟨fx, fP, fH, fI, fus, -, -⟩ := kalman_refresh_frame s kf dt
  obtain ⟨p1, p2⟩ := kalman_predict_fin (kalman_refresh s kf dt) acc dt _ _ _ st.x0 st.x1
    st.a st.b st.b st.d hA hB hQ (fx.trans hx) (fP.trans hP)
  obtain ⟨hpinv, hpR⟩ := kalman_predict_inv s kf acc dt hinv hq
  obtain ⟨-, -, -, -, gus, -, -⟩ := kalman_predict_frame (kalman_refresh s kf dt) acc
  obtain ⟨g1, g2, g3⟩ := psd_predict (t := dt) ha hd hdet hq
  have hgate : gate (kalman_predict (kalman_refresh s kf dt) acc).use_speed speed = 0 := by
    rw [gus, fus]; unfold gate; rcases hg with h | h <;> simp [h]
  have key := kalman_correct_fin (kalman_predict (kalman_refresh s kf dt) acc) _ _ _ _ _ _
    (tsfloat_get s kf.r) pos speed hpinv.1 p1 p2 hpR
  rw [hgate] at key
  have hne : st.a + dt * st.b + (st.b + dt * st.d) * dt + tsfloat_get s kf.q +
      tsfloat_get s kf.r ≠ 0 := by linarith
  obtain ⟨-, kx, kP⟩ := key (by simpa using mul_ne_zero hne hr.ne')
  have e : ∀ t : ℚ, t * (tsfloat_get s kf.r / ((st.a + dt * st.b + (st.b + dt * st.d) * dt +
      tsfloat_get s kf.q + tsfloat_get s kf.r) * tsfloat_get s kf.r)) =
      t / (st.a + dt * st.b + (st.b + dt * st.d) * dt + tsfloat_get s kf.q +
        tsfloat_get s kf.r) := by
    intro t; field_simp; ring1
  have hholds : kalman_holds (kalman_run s kf pos speed acc dt).1
      (qtick (tsfloat_get s kf.q) (tsfloat_get s kf.r) dt pos acc st) := by
    constructor
    · show (kalman_correct (kalman_predict (kalman_refresh s kf dt) acc) pos speed).x = _
      rw [kx, vec2_of_inj]
      simp only [qtick, mul_zero, zero_mul, neg_zero, zero_div, add_zero, sub_zero, zero_add, e]
      constructor <;> first | trivial | ring1
    · show (kalman_correct (kalman_predict (kalman_refresh s kf dt) acc) pos speed).P = _
      rw [kP, mat2x2_of_inj]
      simp only [qtick, mul_zero, zero_mul, neg_zero, zero_div, add_zero, sub_zero, zero_add, e]
      have hr0 := hr.ne'
      refine ⟨?_, ?_, ?_, ?_⟩ <;> field_simp <;> ring1
  refine ⟨hinv'.1, hholds, ?_, hq', hr', ?_⟩
  · obtain ⟨-, y0, y1, a', b', d', -, hP', ha', hd', hdet'⟩ := hinv'
    obtain ⟨-, hP''⟩ := hholds
    rw [hP', mat2x2_of_inj] at hP''
    obtain ⟨e1, e2, -, e4⟩ := hP''
    exact ⟨e1 ▸ ha', e4 ▸ hd', by rw [← e1, ← e2, ← e4]; exact hdet'⟩
  · simp [kalman_run, kalman_correct, kalman_predict, kalman_refresh]

theorem kalman_ticks_qticks (ts : List tick_t) :
    ∀ (kf : kalman_t) (st : kstate), kalman_wf kf → kalman_holds kf st → kstate_psd st →
      (∀ t ∈ ts, 0 ≤ tsfloat_get t.store kf.q ∧ 0 < tsfloat_get t.store kf.r ∧
        (kf.use_speed = false ∨ t.speed = 0)) →
      kalman_holds (kalman_ticks kf ts) (qticks kf.q kf.r st ts) ∧
      kstate_psd (qticks kf.q kf.r st ts) := by
  induction ts with
  | nil => intro kf st _ h hp _; exact ⟨h, hp⟩
  | cons t ts ih =>
    intro kf st hwf h hp hts
    obtain ⟨h0, h1, h2⟩ := hts t (List.mem_cons_self t ts)
    obtain ⟨w, hh, hp', eq, er, eus⟩ := kalman_run_qtick t.store kf st t.pos t.speed t.acc t.dt
      hwf h hp h0 h1 h2
    have := ih _ _ w hh hp' (fun u hu => by
      rw [eq, er, eus]; exact hts u (List.mem_cons_of_mem t hu))
    rw [eq, er] at this
    exact this

/-! ## The end-to-end scenario -/

theorem pos_updates_north (fs : List pos_in_t) :
    ∀ (m : pos_module) (out : pos_t),
      (pos_updates m out fs).1.n_kalman = kalman_ticks m.n_kalman (fs.map (north_tick m.store)) ∧
      (fs ≠ [] →
        (pos_updates m out fs).2.ne_pos.n = (pos_updates m out fs).1.n_kalman.x.ve0 ∧
        (pos_updates m out fs).2.ne_speed.n = (pos_updates m out fs).1.n_kalman.x.ve1) := by
  induction fs with
  | nil => intro m out; exact ⟨rfl, fun h => absurd rfl h⟩
  | cons i is ih =>
    intro m out
    obtain ⟨h1, h2⟩ := ih (pos_update m i).1 (pos_update m i).2
    have hs : (pos_update m i).1.store = m.store := rfl
    refine ⟨?_, fun _ => ?_⟩
    · show (pos_updates (pos_update m i).1 (pos_update m i).2 is).1.n_kalman = _
      rw [h1, hs]; rfl
    · show (pos_updates (pos_update m i).1 (pos_update m i).2 is).2.ne_pos.n =
          (pos_updates (pos_update m i).1 (pos_update m i).2 is).1.n_kalman.x.ve0 ∧
        (pos_updates (pos_update m i).1 (pos_update m i).2 is).2.ne_speed.n =
          (pos_updates (pos_update m i).1 (pos_update m i).2 is).1.n_kalman.x.ve1
      cases is with
      | nil => exact ⟨rfl, rfl⟩
      | cons j js => exact h2 (List.cons_ne_nil j js)

theorem ramp_tick_1 :
    qtick (1 / 100) 1 (1 / 10) (1 / 10) 0
      ⟨0, 0, 1, 0, 1⟩ =
      ⟨51 / 1010, 1 / 202, 51 / 101, 5 / 101, 10151 / 10100⟩ := by
  simp only [qtick, kstate.mk.injEq]
  norm_num

theorem ramp_tick_2 :
    qtick (1 / 100) 1 (1 / 10) (2 / 10) 0
      ⟨51 / 1010, 1 / 202, 51 / 101, 5 / 101, 10151 / 10100⟩ =
      ⟨797751 / 7751255, 30251 / 1550251, 540251 / 1550251, 151510 / 1550251, 155085351 / 155025100⟩ := by
  simp only [qtick, kstate.mk.injEq]
  norm_num

theorem ramp_tick_3 :
    qtick (1 / 100) 1 (1 / 10) (3 / 10) 0
      ⟨797751 / 7751255, 30251 / 1550251, 540251 / 1550251, 151510 / 1550251, 155085351 / 155025100⟩ =
      ⟨34304451353 / 215181504510, 1018155451 / 21518150451, 6015640451 / 21518150451, 3065953510 / 21518150451, 2113533705551 / 2151815045100⟩ := by
  simp only [qtick, kstate.mk.injEq]
  norm_num

theorem ramp_tick_4 :
    qtick (1 / 100) 1 (1 / 10) (4 / 10) 0
      ⟨34304451353 / 215181504510, 1018155451 / 21518150451, 6015640451 / 21518150451, 3065953510 / 21518150451, 2113533705551 / 2151815045100⟩ =
      ⟨105906784860434 / 476225274651085, 25735565290651 / 285735164790651, 23517886760217 / 95245054930217, 17264957385170 / 95245054930217, 27104202446365751 / 28573516479065100⟩ := by
  simp only [qtick, kstate.mk.injEq]
  norm_num

theorem ramp_tick_5 :
    qtick (1 / 100) 1 (1 / 10) (5 / 10) 0
      ⟨105906784860434 / 476225274651085, 25735565290651 / 285735164790651, 23517886760217 / 95245054930217, 17264957385170 / 95245054930217, 27104202446365751 / 28573516479065100⟩ =
      ⟨2187156614949470851 / 7444311427898941702, 547173763949470851 / 3722155713949470851, 864804066042960851 / 3722155713949470851, 788990746018757510 / 3722155713949470851, 335011439285701065951 / 372215571394947085100⟩ := by
  simp only [qtick, kstate.mk.injEq]
  norm_num

theorem ramp_tick_6 :
    qtick (1 / 100) 1 (1 / 10) (6 / 10) 0
      ⟨2187156614949470851 / 7444311427898941702, 547173763949470851 / 3722155713949470851, 864804066042960851 / 3722155713949470851, 788990746018757510 / 3722155713949470851, 335011439285701065951 / 372215571394947085100⟩ =
      ⟨90214531682927440573153 / 240774031513212400955255, 10355409052637480191051 / 48154806302642480191051, 10933249163147771681051 / 48154806302642480191051, 11240021853044585759510 / 48154806302642480191051, 4042890974829593705806151 / 4815480630264248019105100⟩ := by
  simp only [qtick, kstate.mk.injEq]
  norm_num

theorem ramp_tick_7 :
    qtick (1 / 100) 1 (1 / 10) (7 / 10) 0
      ⟨90214531682927440573153 / 240774031513212400955255, 10355409052637480191051 / 48154806302642480191051, 10933249163147771681051 / 48154806302642480191051, 11240021853044585759510 / 48154806302642480191051, 4042890974829593705806151 / 4815480630264248019105100⟩ =
      ⟨2892541072783548723754658757 / 6222189699690855319649512510, 180235579968385031964951251 / 622218969969085531964951251, 140670906942660730054441251 / 622218969969085531964951251, 152829128278741794653161510 / 622218969969085531964951251, 48010968064078865338468586351 / 62221896996908553196495125100⟩ := by
  simp only [qtick, kstate.mk.injEq]
  norm_num

theorem ramp_tick_8 :
    qtick (1 / 100) 1 (1 / 10) (8 / 10) 0
      ⟨2892541072783548723754658757 / 6222189699690855319649512510, 180235579968385031964951251 / 622218969969085531964951251, 140670906942660730054441251 / 622218969969085531964951251, 152829128278741794653161510 / 622218969969085531964951251, 48010968064078865338468586351 / 62221896996908553196495125100⟩ =
      ⟨7551428009313327337380282335268 / 13407983151226556046725352919085, 981729821894451209345070583817 / 2681596630245311209345070583817, 1822600191045078308385699241451 / 8044789890735933628035211751451, 669466987809402199972100321170 / 2681596630245311209345070583817, 187986889955165836110511199135517 / 268159663024531120934507058381700⟩ := by
  simp only [qtick, kstate.mk.injEq]
  norm_num

theorem ramp_tick_9 :
    qtick (1 / 100) 1 (1 / 10) (9 / 10) 0
      ⟨7551428009313327337380282335268 / 13407983151226556046725352919085, 981729821894451209345070583817 / 2681596630245311209345070583817, 1822600191045078308385699241451 / 8044789890735933628035211751451, 669466987809402199972100321170 / 2681596630245311209345070583817, 187986889955165836110511199135517 / 268159663024531120934507058381700⟩ =
      ⟨695038766681849760916590899657324859 / 1040591424036056234351767666285916510, 45817822500798823440176766628591651 / 104059142403605623435176766628591651, 23611243496246287154824649114081651 / 104059142403605623435176766628591651, 25723616332937041082478345609165510 / 104059142403605623435176766628591651, 6576349903295310453855648314300266751 / 10405914240360562343517676662859165100⟩ := by
  simp only [qtick, kstate.mk.injEq]
  norm_num

theorem ramp_tick_10 :
    qtick (1 / 100) 1 (1 / 10) (10 / 10) 0
      ⟨695038766681849760916590899657324859 / 1040591424036056234351767666285916510, 45817822500798823440176766628591651 / 104059142403605623435176766628591651, 23611243496246287154824649114081651 / 104059142403605623435176766628591651, 25723616332937041082478345609165510 / 104059142403605623435176766628591651, 6576349903295310453855648314300266751 / 10405914240360562343517676662859165100⟩ =
      ⟨1045398520954641410867344173622223471851 / 1345133355808049060862344173622223471851, 685307458188641061862844173622223471851 / 1345133355808049060862344173622223471851, 304541931771992826510576507336306961851 / 1345133355808049060862344173622223471851, 322999662362323515363339939234657767510 / 1345133355808049060862344173622223471851, 76329220436420444987403994375257385166951 / 134513335580804906086234417362222347185100⟩ := by
  simp only [qtick, kstate.mk.injEq]
  norm_num

theorem ramp_qticks (s : params_t) (hq : s.process_noise = 1 / 100) (hr : s.gps_noise = 1) :
    qticks tsfloat_ref.process_noise tsfloat_ref.gps_noise ⟨0, 0, 1, 0, 1⟩
      (ramp10.map fun p => ⟨s, p.1, p.2.1, p.2.2.1, p.2.2.2⟩) =
      ⟨1045398520954641410867344173622223471851 / 1345133355808049060862344173622223471851, 685307458188641061862844173622223471851 / 1345133355808049060862344173622223471851, 304541931771992826510576507336306961851 / 1345133355808049060862344173622223471851, 322999662362323515363339939234657767510 / 1345133355808049060862344173622223471851, 76329220436420444987403994375257385166951 / 134513335580804906086234417362222347185100⟩ := by
  simp only [ramp10, List.map, qticks, tsfloat_get, hq, hr]
  rw [ramp_tick_1, ramp_tick_2, ramp_tick_3, ramp_tick_4, ramp_tick_5, ramp_tick_6, ramp_tick_7,
    ramp_tick_8, ramp_tick_9, ramp_tick_10]

theorem pos_updates_ramp (m : pos_module) (out : pos_t) (fs : List pos_in_t)
    (hn : m.n_kalman = kalman_init tsfloat_ref.process_noise tsfloat_ref.gps_noise 0 0 true)
    (hq : m.store.process_noise = 1 / 100) (hr : m.store.gps_noise = 1)
    (hfs : fs.map (fun i => (i.pos_n, i.speed_n, i.acc.n, i.dt)) = ramp10) :
    (pos_updates m out fs).2.ne_pos.n = .fin ramp_pos ∧
    (pos_updates m out fs).2.ne_speed.n = .fin ramp_speed := by
  have hne : fs ≠ [] := by
    intro h; rw [h] at hfs; simp [ramp10] at hfs
  obtain ⟨h1, h2⟩ := pos_updates_north fs m out
  have hmap : fs.map (north_tick m.store) =
      ramp10.map fun p => ⟨m.store, p.1, p.2.1, p.2.2.1, p.2.2.2⟩ := by
    rw [← hfs, List.map_map]; rfl
  have hts : ∀ t ∈ ramp10.map (fun p => (⟨m.store, p.1, p.2.1, p.2.2.1, p.2.2.2⟩ : tick_t)),
      0 ≤ tsfloat_get t.store m.n_kalman.q ∧ 0 < tsfloat_get t.store m.n_kalman.r ∧
        (m.n_kalman.use_speed = false ∨ t.speed = 0) := by
    intro t ht
    simp only [ramp10, List.map, List.mem_cons, List.mem_singleton, List.not_mem_nil,
      or_false] at ht
    rw [hn]
    rcases ht with rfl | rfl | rfl | rfl | rfl | rfl | rfl | rfl | rfl | rfl <;>
      simp [kalman_init, tsfloat_get, hq, hr]
  obtain ⟨⟨hx, -⟩, -⟩ := kalman_ticks_qticks _ m.n_kalman ⟨0, 0, 1, 0, 1⟩
    (hn ▸ (kalman_init_inv _ _ 0 0 true).1) (by rw [hn]; exact ⟨rfl, rfl⟩)
    ⟨by norm_num, by norm_num, by norm_num⟩ hts
  have hqr : m.n_kalman.q = tsfloat_ref.process_noise ∧ m.n_kalman.r = tsfloat_ref.gps_noise := by
    rw [hn]; exact ⟨rfl, rfl⟩
  rw [hqr.1, hqr.2, ramp_qticks m.store hq hr, ← hmap, ← h1] at hx
  obtain ⟨e0, e1⟩ := h2 hne
  rw [e0, e1, hx]
  exact ⟨rfl, rfl⟩

theorem pos_init_some (m : pos_module) (cfg : params_t) (h : m.once = false) :
    ∃ m', pos_init m cfg = some m' ∧ m'.store = cfg ∧
      m'.n_kalman = kalman_init tsfloat_ref.process_noise tsfloat_ref.gps_noise 0 0
        (tsint_get_bool cfg) :=
  ⟨_, by simp [pos_init, ASSERT_ONCE, h]; rfl, rfl, rfl⟩

theorem ramp_values :
    ¬ |ramp_pos - 1| ≤ 1 / 10 ∧ ¬ |ramp_speed - 1| ≤ 1 / 10 ∧
    77 / 100 < ramp_pos ∧ ramp_pos < 78 / 100 ∧ 50 / 100 < ramp_speed ∧ ramp_speed < 51 / 100 := by
  have h0 : ramp_pos - 1 < 0 := by norm_num [ramp_pos]
  have h1 : ramp_speed - 1 < 0 := by norm_num [ramp_speed]
  rw [abs_of_neg h0, abs_of_neg h1]
  norm_num [ramp_pos, ramp_speed]

/-! ## The order of covariances -/

theorem qform_nonneg_of_entries {a b d : ℚ} (ha : 0 ≤ a) (hd : 0 ≤ d) (hdet : b * b ≤ a * d)
    (w1 w2 : ℚ) : 0 ≤ a * w1 * w1 + 2 * b * w1 * w2 + d * w2 * w2 := by
  rcases eq_or_lt_of_le ha with h0 | hpos
  · have hb : b = 0 := by
      have : b * b ≤ 0 := by simpa [← h0] using hdet
      nlinarith [mul_self_nonneg b]
    subst hb; rw [← h0]
    nlinarith [mul_nonneg hd (mul_self_nonneg w2)]
  · have h : 0 ≤ a * (a * w1 * w1 + 2 * b * w1 * w2 + d * w2 * w2) := by
      nlinarith [mul_self_nonneg (a * w1 + b * w2), mul_nonneg (sub_nonneg.2 hdet)
        (mul_self_nonneg w2)]
    exact nonneg_of_mul_nonneg_right h hpos

theorem cov_le_of_entries {s t : kstate} (ha : s.a ≤ t.a) (hd : s.d ≤ t.d)
    (hdet : (t.b - s.b) * (t.b - s.b) ≤ (t.a - s.a) * (t.d - s.d)) : cov_le s t := by
  intro w1 w2
  have h := qform_nonneg_of_entries (sub_nonneg.2 ha) (sub_nonneg.2 hd) hdet w1 w2
  unfold qform
  linarith

theorem cov_le_refl (s : kstate) : cov_le s s := fun _ _ => le_refl _

theorem cov_le_trans {s t u : kstate} (h1 : cov_le s t) (h2 : cov_le t u) : cov_le s u :=
  fun w1 w2 => le_trans (h1 w1 w2) (h2 w1 w2)

theorem prior_a_eq (q dt : ℚ) (st : kstate) : prior_a q dt st = qpred q dt st 1 0 := by
  unfold prior_a qpred qform; ring

theorem qpred_mono (q dt : ℚ) {s t : kstate} (h : cov_le s t) (w1 w2 : ℚ) :
    qpred q dt s w1 w2 ≤ qpred q dt t w1 w2 := by
  unfold qpred
  linarith [h w1 (dt * w1 + w2)]

theorem prior_a_mono (q dt : ℚ) {s t : kstate} (h : cov_le s t) :
    prior_a q dt s ≤ prior_a q dt t := by
  rw [prior_a_eq, prior_a_eq]; exact qpred_mono q dt h 1 0

/-- The corrected form on the prior entries `A`, `B`, `D`. -/
theorem corr_form (A B D r w1 w2 : ℚ) (h : A + r ≠ 0) :
    r * A / (A + r) * w1 * w1 + 2 * (r * B / (A + r)) * w1 * w2 + (D - B * B / (A + r)) * w2 * w2 =
      A * (w1 - (A * w1 + B * w2) / (A + r)) * (w1 - (A * w1 + B * w2) / (A + r))
        + 2 * B * (w1 - (A * w1 + B * w2) / (A + r)) * w2 + D * w2 * w2
        + r * ((A * w1 + B * w2) / (A + r)) ^ 2 := by
  field_simp
  ring

/-- The gap between the form at a shift `l` and the corrected form. -/
theorem corr_gap (A B D r w1 w2 l : ℚ) (h : A + r ≠ 0) :
    A * (w1 - l) * (w1 - l) + 2 * B * (w1 - l) * w2 + D * w2 * w2 + r * l ^ 2 -
      (r * A / (A + r) * w1 * w1 + 2 * (r * B / (A + r)) * w1 * w2 +
        (D - B * B / (A + r)) * w2 * w2) =
      (A + r) * (l - (A * w1 + B * w2) / (A + r)) ^ 2 := by
  field_simp
  ring

theorem qpred_eq (q dt : ℚ) (st : kstate) (u w : ℚ) :
    qpred q dt st u w =
      prior_a q dt st * u * u + 2 * prior_b dt st * u * w + (st.d + q) * w * w := by
  unfold qpred qform prior_a prior_b
  ring

theorem qform_qtick_eq (q r dt pos acc : ℚ) (st : kstate) (w1 w2 : ℚ) :
    qform (qtick q r dt pos acc st) w1 w2 =
      r * prior_a q dt st / (prior_a q dt st + r) * w1 * w1 +
        2 * (r * prior_b dt st / (prior_a q dt st + r)) * w1 * w2 +
        (st.d + q - prior_b dt st * prior_b dt st / (prior_a q dt st + r)) * w2 * w2 := rfl

/-- The corrected form is the predicted form at the optimal shift plus `r·λ²`. -/
theorem qform_qtick (q r dt pos acc : ℚ) (st : kstate) (w1 w2 : ℚ)
    (h : prior_a q dt st + r ≠ 0) :
    qform (qtick q r dt pos acc st) w1 w2 =
      qpred q dt st (w1 - (prior_a q dt st * w1 + prior_b dt st * w2) / (prior_a q dt st + r)) w2
        + r * ((prior_a q dt st * w1 + prior_b dt st * w2) / (prior_a q dt st + r)) ^ 2 := by
  rw [qform_qtick_eq, qpred_eq]
  exact corr_form _ _ _ _ _ _ h

/-- Every other shift gives at least the corrected form. -/
theorem qform_qtick_le (q r dt pos acc : ℚ) (st : kstate) (w1 w2 l : ℚ)
    (h : 0 < prior_a q dt st + r) :
    qform (qtick q r dt pos acc st) w1 w2 ≤ qpred q dt st (w1 - l) w2 + r * l ^ 2 := by
  have key := corr_gap (prior_a q dt st) (prior_b dt st) (st.d + q) r w1 w2 l h.ne'
  rw [qform_qtick_eq, qpred_eq]
  have : 0 ≤ (prior_a q dt st + r) *
      (l - (prior_a q dt st * w1 + prior_b dt st * w2) / (prior_a q dt st + r)) ^ 2 :=
    mul_nonneg h.le (sq_nonneg _)
  linarith

theorem qtick_mono (q r dt pos acc pos' acc' : ℚ) {s t : kstate} (h : cov_le s t)
    (hs : 0 < prior_a q dt s + r) (ht : 0 < prior_a q dt t + r) :
    cov_le (qtick q r dt pos acc s) (qtick q r dt pos' acc' t) := by
  intro w1 w2
  rw [qform_qtick q r dt pos' acc' t w1 w2 ht.ne']
  have h1 := qform_qtick_le q r dt pos acc s w1 w2
    ((prior_a q dt t * w1 + prior_b dt t * w2) / (prior_a q dt t + r)) hs
  linarith [qpred_mono q dt h
    (w1 - (prior_a q dt t * w1 + prior_b dt t * w2) / (prior_a q dt t + r)) w2]

/-! ## The covariance of the constant-position scenario -/

theorem conv_st_succ (p : ℚ) (k : ℕ) : conv_st p (k + 1) = conv_tick p (conv_st p k) :=
  Function.iterate_succ_apply' _ _ _

theorem conv_cov_0 : conv_st 0 0 = ⟨0, 0, 1, 0, 1⟩ := rfl

theorem conv_cov_1 :
    conv_st 0 1 =
      ⟨0, 0, 51 / 101, 5 / 101, 10151 / 10100⟩ := by
  rw [conv_st_succ, conv_cov_0]
  simp only [conv_tick, qtick, kstate.mk.injEq]
  norm_num

theorem conv_cov_2 :
    conv_st 0 2 =
      ⟨0, 0, 540251 / 1550251, 151510 / 1550251, 155085351 / 155025100⟩ := by
  rw [conv_st_succ, conv_cov_1]
  simp only [conv_tick, qtick, kstate.mk.injEq]
  norm_num

theorem conv_cov_3 :
    conv_st 0 3 =
      ⟨0, 0, 6015640451 / 21518150451, 3065953510 / 21518150451, 2113533705551 / 2151815045100⟩ := by
  rw [conv_st_succ, conv_cov_2]
  simp only [conv_tick, qtick, kstate.mk.injEq]
  norm_num

theorem conv_cov_4 :
    conv_st 0 4 =
      ⟨0, 0, 23517886760217 / 95245054930217, 17264957385170 / 95245054930217, 27104202446365751 / 28573516479065100⟩ := by
  rw [conv_st_succ, conv_cov_3]
  simp only [conv_tick, qtick, kstate.mk.injEq]
  norm_num

theorem conv_cov_5 :
    conv_st 0 5 =
      ⟨0, 0, 864804066042960851 / 3722155713949470851, 788990746018757510 / 3722155713949470851, 335011439285701065951 / 372215571394947085100⟩ := by
  rw [conv_st_succ, conv_cov_4]
  simp only [conv_tick, qtick, kstate.mk.injEq]
  norm_num

theorem conv_cov_6 :
    conv_st 0 6 =
      ⟨0, 0, 10933249163147771681051 / 48154806302642480191051, 11240021853044585759510 / 48154806302642480191051, 4042890974829593705806151 / 4815480630264248019105100⟩ := by
  rw [conv_st_succ, conv_cov_5]
  simp only [conv_tick, qtick, kstate.mk.injEq]
  norm_num

theorem conv_cov_7 :
    conv_st 0 7 =
      ⟨0, 0, 140670906942660730054441251 / 622218969969085531964951251, 152829128278741794653161510 / 622218969969085531964951251, 48010968064078865338468586351 / 62221896996908553196495125100⟩ := by
  rw [conv_st_succ, conv_cov_6]
  simp only [conv_tick, qtick, kstate.mk.injEq]
  norm_num

theorem conv_cov_8 :
    conv_st 0 8 =
      ⟨0, 0, 1822600191045078308385699241451 / 8044789890735933628035211751451, 669466987809402199972100321170 / 2681596630245311209345070583817, 187986889955165836110511199135517 / 268159663024531120934507058381700⟩ := by
  rw [conv_st_succ, conv_cov_7]
  simp only [conv_tick, qtick, kstate.mk.injEq]
  norm_num

theorem conv_cov_9 :
    conv_st 0 9 =
      ⟨0, 0, 23611243496246287154824649114081651 / 104059142403605623435176766628591651, 25723616332937041082478345609165510 / 104059142403605623435176766628591651, 6576349903295310453855648314300266751 / 10405914240360562343517676662859165100⟩ := by
  rw [conv_st_succ, conv_cov_8]
  simp only [conv_tick, qtick, kstate.mk.injEq]
  norm_num

theorem conv_cov_10 :
    conv_st 0 10 =
      ⟨0, 0, 304541931771992826510576507336306961851 / 1345133355808049060862344173622223471851, 322999662362323515363339939234657767510 / 1345133355808049060862344173622223471851, 76329220436420444987403994375257385166951 / 134513335580804906086234417362222347185100⟩ := by
  rw [conv_st_succ, conv_cov_9]
  simp only [conv_tick, qtick, kstate.mk.injEq]
  norm_num

theorem conv_cov_11 :
    conv_st 0 11 =
      ⟨0, 0, 3902261198461800646906083363569864885882051 / 17353594756542291255529525099792099604392051, 570469832569634229072491333728450218109930 / 2479084965220327322218503585684585657770293, 126218574422671661110466757707082814465729593 / 247908496522032732221850358568458565777029300⟩ := by
  rw [conv_st_succ, conv_cov_10]
  simp only [conv_tick, qtick, kstate.mk.injEq]
  norm_num

theorem conv_cov_12 :
    conv_st 0 12 =
      ⟨0, 0, 49628079137205816429401932121825741574058842251 / 223164026702628728984697183119746737617979352251, 48768188489461412312807066400487312280296171510 / 223164026702628728984697183119746737617979352251, 10214682068749682042400736137618337869065933087351 / 22316402670262872898469718311974673761797935225100⟩ := by
  rw [conv_st_succ, conv_cov_11]
  simp only [conv_tick, qtick, kstate.mk.injEq]
  norm_num

theorem conv_cov_13 :
    conv_st 0 13 =
      ⟨0, 0, 69594250343332615984500434274313894659116070426939 / 317554280012920092634163971074032492012426461816939, 65536522842456771505786447264561833499291227330390 / 317554280012920092634163971074032492012426461816939, 118084736530460497983082589200857703509887173012107551 / 285798852011628083370747573966629242811183815635245100⟩ := by
  rw [conv_st_succ, conv_cov_12]
  simp only [conv_tick, qtick, kstate.mk.injEq]
  norm_num

theorem conv_cov_14 :
    conv_st 0 14 =
      ⟨0, 0, 7847023530606245907063025298617850468628759419018882651 / 36426908731769054244137782695280774749747140982543392651, 1512312416390881097062936583170079480887648406292710 / 7781864715182451237799141784935008491721243533976371, 291849071448150819603835610672658012097861156711323471 / 778186471518245123779914178493500849172124353397637100⟩ := by
  rw [conv_st_succ, conv_cov_13]
  simp only [conv_tick, qtick, kstate.mk.injEq]
  norm_num

theorem conv_cov_15 :
    conv_st 0 15 =
      ⟨0, 0, 97637340524939587312312798040903578415962560742721221962851 / 461906427842630129753690624993711325913433970568155148472851, 84452799245745084019171606393778542046651702644218806777510 / 461906427842630129753690624993711325913433970568155148472851, 15827158542105711378042329451471426040178303152492828820267951 / 46190642784263012975369062499371132591343397056815514847285100⟩ := by
  rw [conv_st_succ, conv_cov_14]
  simp only [conv_tick, qtick, kstate.mk.injEq]
  norm_num

theorem conv_cov_16 :
    conv_st 0 16 =
      ⟨0, 0, 1207296805067254765514882585147435426884450712924958176851083051 / 5826361083493556063051788835084548686018790418606509661579593051, 1002799577878507953972139358452499680868300057967116355977779510 / 5826361083493556063051788835084548686018790418606509661579593051, 183695006561762050680733383184260919155619162228887512908765408151 / 582636108349355606305178883508454868601879041860650966157959305100⟩ := by
  rw [conv_st_succ, conv_cov_15]
  simp only [conv_tick, qtick, kstate.mk.injEq]
  norm_num

theorem conv_cov_17 :
    conv_st 0 17 =
      ⟨0, 0, 14844898321340681220079016835072069418338605449273352959533114243251 / 73108509156276241850596905185917556278526509635338449575329044753251, 3954981948134233348842909138789202000079730733986679562955149727170 / 24369503052092080616865635061972518759508836545112816525109681584417, 712157214684286436584578633181016098232432652709959687389144516196117 / 2436950305209208061686563506197251875950883654511281652510968158441700⟩ := by
  rw [conv_st_succ, conv_cov_16]
  simp only [conv_tick, qtick, kstate.mk.injEq]
  norm_num

theorem conv_cov_18 :
    conv_st 0 18 =
      ⟨0, 0, 181626197461892695788661049601590710106414387818317330992762378819443451 / 912711289024655114294630101460766272891679484171701826746052826351953451, 140014174884555593562824633159106542949364901600899177510328827300983510 / 912711289024655114294630101460766272891679484171701826746052826351953451, 24903654569961566565966204480341490212143573177832868719276967032777808551 / 91271128902465511429463010146076627289167948417170182674605282635195345100⟩ := by
  rw [conv_st_succ, conv_cov_17]
  simp only [conv_tick, qtick, kstate.mk.injEq]
  norm_num

theorem conv_cov_19 :
    conv_st 0 19 =
      ⟨0, 0, 2212465107860465223007688976960538304464185202979974716342163692464374683651 / 11339577998107016365953989991568201033380980044696992983802691955983909193651, 1649178294545171601287908376394480331615084747787320462296057943337613185510 / 11339577998107016365953989991568201033380980044696992983802691955983909193651, 290945019533420949181441419573535569199884354142615903066993469980657661068751 / 1133957799810701636595398999156820103338098004469699298380269195598390919365100⟩ := by
  rw [conv_st_succ, conv_cov_18]
  simp only [conv_tick, qtick, kstate.mk.injEq]
  norm_num

theorem conv_cov_20 :
    conv_st 0 20 =
      ⟨0, 0, 26847910487039118018429546941124699380410003883986703289461015476898021787963851 / 140243690468109281677969446856806709714219804330956633127487935036737113724473851, 34707036030028489274943645723935883735509286259927305283775517232884988310890 / 250883167205920003001734251979976224891269775189546749780837093088975158719989, 6094100173866275835776133313246236139764526040066331359877915376985652774608889 / 25088316720592000300173425197997622489126977518954674978083709308897515871998900⟩ := by
  rw [conv_st_succ, conv_cov_19]
  simp only [conv_tick, qtick, kstate.mk.injEq]
  norm_num

theorem conv_cov_21 :
    conv_st 0 21 =
      ⟨0, 0, 324712542195965207553678268538392628793949771367958502744791731234754326084667284051 / 1727149446877058024333372737106459725936147814677524834019671081602125463329405794051, 228078351379771736968923564817848050102780610756964428838022688289176883667938789510 / 1727149446877058024333372737106459725936147814677524834019671081602125463329405794051, 39971389837268350132790888074899467345389852529527527755392324272211064447317221709151 / 172714944687705802433337273710645972593614781467752483401967108160212546332940579405100⟩ := by
  rw [conv_st_succ, conv_cov_20]
  simp only [conv_tick, qtick, kstate.mk.injEq]
  norm_num

theorem conv_cov_22 :
    conv_st 0 22 =
      ⟨0, 0, 1305322819748056567346919325601722609361354523063597965427107373786106879654269406881417 / 7062487642671583315124828449289921695815180571988680745492677645793191757418955387051417, 893499137390133623672381509642491724827234877621639855311383375204626493717520037397170 / 7062487642671583315124828449289921695815180571988680745492677645793191757418955387051417, 469927829891172840226788538757203787545522591486665763789939487731650269190248742315089351 / 2118746292801474994537448534786976508744554171596604223647803293737957527225686616115425100⟩ := by
  rw [conv_st_succ, conv_cov_21]
  simp only [conv_tick, qtick, kstate.mk.injEq]
  norm_num

theorem conv_cov_23 :
    conv_st 0 23 =
      ⟨0, 0, 47109353539475146597206105899450808926094121720721048082119264246280573148349137789256044451 / 258983982819622646050950959378148459800549538880381470446899593620076325870917799400798554451, 4500607488659391016062761525263827088610324606216550471034413733350756786204012649295141930 / 36997711831374663721564422768306922828649934125768781492414227660010903695845399914399793493, 790668490745379416985282072456764554618993370477408294811926251663561106504322109944842072793 / 3699771183137466372156442276830692282864993412576878149241422766001090369584539991439979349300⟩ := by
  rw [conv_st_succ, conv_cov_22]
  simp only [conv_tick, qtick, kstate.mk.injEq]
  norm_num

theorem conv_cov_24 :
    conv_st 0 24 =
      ⟨0, 0, 565535117953162860720931790793213866363873669175622192524047877853368886822969589692386181484651 / 3155374946149389321230441384574698464369369057979436896993043814054132145532147583700371725994651, 7407934529857275751782296682742483150184048848348509242369723373487514800087670416344304490 / 63108761098209750619621220115896287213131643792464587231605508391250467920001351701041455349, 1305844163125372792932725185878399888717072800733766742822642759979483497358741326932844480249 / 6310876109820975061962122011589628721313164379246458723160550839125046792000135170104145534900⟩ := by
  rw [conv_st_succ, conv_cov_23]
  simp only [conv_tick, qtick, kstate.mk.injEq]
  norm_num

theorem conv_cov_25 :
    conv_st 0 25 =
      ⟨0, 0, 6776958213575340914232931476639225456163743037255207445532660073197320783146517229192812039004964851 / 38330707675069234126537345322386210099857433617049576415463098213738642238467993066196529298951474851, 4356802208704394445872063784091755310620171813324647169836331143072164478740231407521141713634797510 / 38330707675069234126537345322386210099857433617049576415463098213738642238467993066196529298951474851, 771311502344662214535995662696391908209402071968966450827650001347143562325588859031564575374943469951 / 3833070767506923412653734532238621009985743361704957641546309821373864223846799306619652929895147485100⟩ := by
  rw [conv_st_succ, conv_cov_24]
  simp only [conv_tick, qtick, kstate.mk.injEq]
  norm_num

theorem conv_cov_26 :
    conv_st 0 26 =
      ⟨0, 0, 81087568823013783661263172529510778101072919432875292887373222840838544575118023272621621322589334485051 / 464394645573706124926636625753372879099647255603371057042004204978224966959797953934586914312104082995051, 5697904123387840733786732718653496909810637650326237356293312382688120045628689185058562543344156644390 / 51599405063745124991848513972596986566627472844819006338000467219802774106644217103842990479122675888339, 1013680901875102919732530294513329864897244411110321410171059257225441979634105389063052065550225292112239 / 5159940506374512499184851397259698656662747284481900633800046721980277410664421710384299047912267588833900⟩ := by
  rw [conv_st_succ, conv_cov_25]
  simp only [conv_tick, qtick, kstate.mk.injEq]
  norm_num

theorem conv_cov_27 :
    conv_st 0 27 =
      ⟨0, 0, 969000555125365508591049349456827982081360597294955199682751805109623081085183381952296499027250600378045251 / 5612947010862426757857415606990556773077833153328665770102793854891872750683162921298165642148291430328555251, 604042652273664928816733671185014409723709385529290288981793447592220582273651511670945314800494374285201510 / 5612947010862426757857415606990556773077833153328665770102793854891872750683162921298165642148291430328555251, 108023601158095400071218845082574117502063396564584206145736103530886106410087142593028173832794552293232590351 / 561294701086242675785741560699055677307783315332866577010279385489187275068316292129816564214829143032855525100⟩ := by
  rw [conv_st_succ, conv_cov_26]
  simp only [conv_tick, qtick, kstate.mk.injEq]
  norm_num

theorem conv_cov_28 :
    conv_st 0 28 =
      ⟨0, 0, 11567409158045323019400921242719938435070871455905583357947120435300745356877540277587700357921118447676943645451 / 67696879266669590597975077312625506165849202989192241058975058984219472863709169490569356779404032750962496155451, 7120662534317603288879525162675885272257727820938744951275295511231066886837386542639734886332889265784341003510 / 67696879266669590597975077312625506165849202989192241058975058984219472863709169490569356779404032750962496155451, 1280218986299423891777532935835031101639838778377708409730116987954309933339786090060230100392161362644417362210551 / 6769687926666959059797507731262550616584920298919224105897505898421947286370916949056935677940403275096249615545100⟩ := by
  rw [conv_st_succ, conv_cov_27]
  simp only [conv_tick, qtick, kstate.mk.injEq]
  norm_num

theorem conv_cov_29 :
    conv_st 0 29 =
      ⟨0, 0, 137965323562054819723343303419648736613448929278230255997649418261845844562160878900273639130209527646078785439285651 / 814934116228750725703094076545903798271940959170152666587400008104040573199252573805967206924249855155703746993795651, 17946766760557631234046268101924623742571174106636302843421090577195848793371443351206932251068255988952698922710 / 174094021839083684192073077664153770192681255964570106085750909656919584105800592566965863474524643271887149539371, 3243683171106897728588737453081299191138341686129204125310587850332807587535125492968160281416878631051565513186471 / 17409402183908368419207307766415377019268125596457010608575090965691958410580059256696586347452464327188714953937100⟩ := by
  rw [conv_st_succ, conv_cov_28]
  simp only [conv_tick, qtick, kstate.mk.injEq]
  norm_num

theorem conv_cov_30 :
    conv_st 0 30 =
      ⟨0, 0, 149486178052701381971309771258106330450304845283492518033265572285452537423848129224537851818757607583353252233988451441 / 890335374624292950792304386299837056152069353619994942203629216016398513059532287229962585386257475906720294955620861441, 90174996481928781885540419093620659320631130387213943746029987926601491380930589781439643767784468323854510749483073410 / 890335374624292950792304386299837056152069353619994942203629216016398513059532287229962585386257475906720294955620861441, 180194089135680778398394535293791133262847371151823049947965837403225676600068970099387204096071711021678738569151631570951 / 979368912086722245871534824929820761767276288981994436423992137618038364365485515952958843924883223497392324451182947585100⟩ := by
  rw [conv_st_succ, conv_cov_29]
  simp only [conv_tick, qtick, kstate.mk.injEq]
  norm_num

theorem conv_cov_31 :
    conv_st 0 31 =
      ⟨0, 0, 6528964169873996080865297806224987583205847169945567077481276886935425322656440558647727303658516690604242681749230617562017 / 39174594572764737609916458637219012975448390136012048291614348140870037468172624423746355434487957473850653496788662203732017, 3907063501456324597131130484412061285965966018037254770514319015319473605967684858984077618472336208613594522711551463603170 / 39174594572764737609916458637219012975448390136012048291614348140870037468172624423746355434487957473850653496788662203732017, 2139563471327463959314782125874912286310525491365583731112330202676254923020786671629929320210839391246486414308347140987311151 / 11752378371829421282974937591165703892634517040803614487484304442261011240451787327123906630346387242155196049036598661119605100⟩ := by
  rw [conv_st_succ, conv_cov_30]
  simp only [conv_tick, qtick, kstate.mk.injEq]
  norm_num

theorem conv_cov_indep (p : ℚ) (k : ℕ) :
    (conv_st p k).a = (conv_st 0 k).a ∧ (conv_st p k).b = (conv_st 0 k).b ∧
    (conv_st p k).d = (conv_st 0 k).d := by
  induction k with
  | zero => exact ⟨rfl, rfl, rfl⟩
  | succ k ih =>
    obtain ⟨h1, h2, h3⟩ := ih
    rw [conv_st_succ, conv_st_succ]
    simp [conv_tick, qtick, h1, h2, h3]

theorem in_region_congr {s t : kstate} (ha : s.a = t.a) (hb : s.b = t.b) (hd : s.d = t.d)
    (h : in_region t) : in_region s := by
  obtain ⟨h1, h2⟩ := h
  constructor
  · intro w1 w2; have := h1 w1 w2; simp only [qform, ha, hb, hd] at this ⊢; exact this
  · intro w1 w2; have := h2 w1 w2; simp only [qform, ha, hb, hd] at this ⊢; exact this

theorem in_region_31 (p : ℚ) : in_region (conv_st p 31) := by
  obtain ⟨ha, hb, hd⟩ := conv_cov_indep p 31
  refine in_region_congr ha hb hd ?_
  rw [conv_cov_31]
  constructor <;> apply cov_le_of_entries <;> norm_num [cov_L, cov_U]

theorem region_prior {st : kstate} (h : in_region st) :
    17 / 100 ≤ prior_a (1 / 100) (1 / 10) st ∧ prior_a (1 / 100) (1 / 10) st ≤ 199 / 1000 ∧
    19 / 200 ≤ prior_b (1 / 10) st ∧ prior_b (1 / 10) st ≤ 1 / 8 := by
  obtain ⟨h1, h2⟩ := h
  have e1 := prior_a_mono (1 / 100) (1 / 10) h1
  have e2 := prior_a_mono (1 / 100) (1 / 10) h2
  have l1 := h1 (36 / 25) (36 / 25 * (1 / 10) + 1)
  have l2 := h2 (36 / 25) (36 / 25 * (1 / 10) - 1)
  have u1 := h2 (36 / 25) (36 / 25 * (1 / 10) + 1)
  have u2 := h1 (36 / 25) (36 / 25 * (1 / 10) - 1)
  simp only [prior_a, cov_L, cov_U] at e1 e2
  simp only [qform, cov_L, cov_U] at l1 l2 u1 u2
  simp only [prior_a, prior_b]
  refine ⟨?_, ?_, ?_, ?_⟩ <;> linarith

theorem in_region_step (p : ℚ) {st : kstate} (h : in_region st) : in_region (conv_tick p st) := by
  obtain ⟨ha, -, -, -⟩ := region_prior h
  obtain ⟨h1, h2⟩ := h
  have hL : (0 : ℚ) < prior_a (1 / 100) (1 / 10) cov_L + 1 := by norm_num [prior_a, cov_L]
  have hU : (0 : ℚ) < prior_a (1 / 100) (1 / 10) cov_U + 1 := by norm_num [prior_a, cov_U]
  have hs : (0 : ℚ) < prior_a (1 / 100) (1 / 10) st + 1 := by linarith
  constructor
  · refine cov_le_trans ?_ (qtick_mono (1 / 100) 1 (1 / 10) 0 0 p 0 h1 hL hs)
    apply cov_le_of_entries <;> norm_num [qtick, cov_L]
  · refine cov_le_trans (qtick_mono (1 / 100) 1 (1 / 10) p 0 0 0 h2 hs hU) ?_
    apply cov_le_of_entries <;> norm_num [qtick, cov_U]

theorem in_region_conv (p : ℚ) (k : ℕ) : in_region (conv_st p (31 + k)) := by
  induction k with
  | zero => exact in_region_31 p
  | succ k ih =>
    rw [← Nat.add_assoc, conv_st_succ]
    exact in_region_step p ih

/-! ## The error of the constant-position scenario -/

theorem conv_err_step (p : ℚ) (st : kstate) (h : prior_a (1 / 100) (1 / 10) st + 1 ≠ 0) :
    (conv_tick p st).x0 - p =
      (st.x0 - p + 1 / 10 * st.x1) / (prior_a (1 / 100) (1 / 10) st + 1) ∧
    (conv_tick p st).x1 =
      st.x1 - prior_b (1 / 10) st / (prior_a (1 / 100) (1 / 10) st + 1) *
        (st.x0 - p + 1 / 10 * st.x1) := by
  have e0 : (conv_tick p st).x0 = (st.x0 + 1 / 10 * st.x1 + 1 / 2 * (1 / 10) * (1 / 10) * 0) +
      prior_a (1 / 100) (1 / 10) st / (prior_a (1 / 100) (1 / 10) st + 1) *
        (p - (st.x0 + 1 / 10 * st.x1 + 1 / 2 * (1 / 10) * (1 / 10) * 0)) := rfl
  have e1 : (conv_tick p st).x1 = (st.x1 + 1 / 10 * 0) +
      prior_b (1 / 10) st / (prior_a (1 / 100) (1 / 10) st + 1) *
        (p - (st.x0 + 1 / 10 * st.x1 + 1 / 2 * (1 / 10) * (1 / 10) * 0)) := rfl
  rw [e0, e1]
  generalize prior_a (1 / 100) (1 / 10) st = A at h ⊢
  generalize prior_b (1 / 10) st = B
  constructor
  · field_simp; ring
  · field_simp; ring

/-- In the region the closed loop has no real eigenvalue: the quadratic form
`w² − (2 + ap − bp/10)·w·u + (ap + 1)·(1 − 1/2400)·u²` is positive
semidefinite. -/
theorem region_disc {ap bp : ℚ} (ha : 17 / 100 ≤ ap ∧ ap ≤ 199 / 1000)
    (hb : 19 / 200 ≤ bp ∧ bp ≤ 1 / 8) (w u : ℚ) :
    0 ≤ w * w - (2 + ap - bp / 10) * w * u + (ap + 1) * (2399 / 2400) * (u * u) := by
  have hx0 : 0 ≤ ap - bp / 10 := by linarith
  have hx1 : ap - bp / 10 ≤ 379 / 2000 := by linarith
  have hsq : (ap - bp / 10) * (ap - bp / 10) ≤ 379 / 2000 * (379 / 2000) :=
    mul_self_le_mul_self hx0 hx1
  have hD : (2 + ap - bp / 10) * (2 + ap - bp / 10) ≤ 4 * ((ap + 1) * (2399 / 2400)) := by
    nlinarith
  have h := qform_nonneg_of_entries (a := 1) (b := -(2 + ap - bp / 10) / 2)
    (d := (ap + 1) * (2399 / 2400)) (by norm_num) (by nlinarith) (by nlinarith) w u
  nlinarith

theorem osc_step_A {ap bp ap2 u v u1 v1 u2 : ℚ} (ha : 17 / 100 ≤ ap ∧ ap ≤ 199 / 1000)
    (hb : 19 / 200 ≤ bp ∧ bp ≤ 1 / 8) (ha2 : 17 / 100 ≤ ap2 ∧ ap2 ≤ 199 / 1000)
    (hu1 : u1 = (u + 1 / 10 * v) / (ap + 1))
    (hv1 : v1 = v - bp / (ap + 1) * (u + 1 / 10 * v))
    (hu2 : u2 = (u1 + 1 / 10 * v1) / (ap2 + 1))
    (hs : u1 * u ≤ 0) : |u1| ≤ |u2| := by
  have hp : 0 < ap + 1 := by linarith
  have hp2 : 0 < ap2 + 1 := by linarith
  set w := u + 1 / 10 * v with hw
  have hv : v = 10 * (w - u) := by rw [hw]; ring
  clear_value w
  have hwu : w * u ≤ 0 := by
    have : w * u = (ap + 1) * (u1 * u) := by rw [hu1]; field_simp
    rw [this]; exact mul_nonpos_of_nonneg_of_nonpos hp.le hs
  have e1 : u1 = (ap2 + 1) * w / ((ap + 1) * (ap2 + 1)) := by
    rw [hu1]; field_simp; ring
  have e2 : u2 = ((2 + ap - bp / 10) * w - (ap + 1) * u) / ((ap + 1) * (ap2 + 1)) := by
    rw [hu2, hu1, hv1, hv]; field_simp; ring
  have hden : 0 < (ap + 1) * (ap2 + 1) := mul_pos hp hp2
  rw [e1, e2, abs_div, abs_div]
  refine div_le_div_of_nonneg_right ?_ (abs_nonneg _)
  rw [abs_le_iff_mul_self_le]
  have hB : ap2 + 1 ≤ 2 + ap - bp / 10 := by linarith
  have hB0 : 0 ≤ ap2 + 1 := hp2.le
  have h1 : (ap2 + 1) * (ap2 + 1) ≤ (2 + ap - bp / 10) * (2 + ap - bp / 10) :=
    mul_self_le_mul_self hB0 hB
  have h2 : 0 ≤ -(w * u) := by linarith
  have h3 := mul_nonneg (sub_nonneg.2 h1) (mul_self_nonneg w)
  have h4 := mul_self_nonneg ((ap + 1) * u)
  have h5 := mul_nonneg (mul_nonneg (by linarith : (0 : ℚ) ≤ 2 + ap - bp / 10) hp.le) h2
  linarith

theorem osc_step_B {ap bp u v u1 v1 : ℚ} (ha : 17 / 100 ≤ ap ∧ ap ≤ 199 / 1000)
    (hb : 19 / 200 ≤ bp ∧ bp ≤ 1 / 8)
    (hu1 : u1 = (u + 1 / 10 * v) / (ap + 1))
    (hv1 : v1 = v - bp / (ap + 1) * (u + 1 / 10 * v))
    (hpos : 0 < u1 * u) (hdec : |u1| < |u|) :
    v1 / u1 ≤ v / u - 1 / 240 ∧ -10 < v / u := by
  have hp : 0 < ap + 1 := by linarith
  have hu : u ≠ 0 := fun h => by rw [h, mul_zero] at hpos; exact lt_irrefl _ hpos
  have hu1' : u1 ≠ 0 := fun h => by rw [h, zero_mul] at hpos; exact lt_irrefl _ hpos
  set w := u + 1 / 10 * v with hw
  have hv : v = 10 * (w - u) := by rw [hw]; ring
  clear_value w
  have hw1 : w = (ap + 1) * u1 := by rw [hu1]; field_simp
  have hwu : 0 < w * u := by rw [hw1, mul_assoc]; exact mul_pos hp hpos
  have huu : 0 < u * u := mul_self_pos.2 hu
  have hsq : u1 * u1 < u * u := abs_lt_iff_mul_self_lt.1 hdec
  have hlt : w * u < (ap + 1) * (u * u) := by
    rw [hw1, mul_assoc]
    refine mul_lt_mul_of_pos_left ?_ hp
    by_contra hcon
    push_neg at hcon
    have h1 : (u * u) * (u * u) ≤ (u1 * u) * (u1 * u) := mul_self_le_mul_self huu.le hcon
    have h2 : (u1 * u) * (u1 * u) < (u * u) * (u * u) := by
      have : (u1 * u) * (u1 * u) = (u1 * u1) * (u * u) := by ring
      rw [this]; exact mul_lt_mul_of_pos_right hsq huu
    exact absurd h1 (not_le.2 h2)
  have hd := region_disc ha hb w u
  have key : v1 * u - v * u1 + 1 / 240 * (u1 * u) ≤ 0 := by
    have e : (ap + 1) * (v1 * u - v * u1 + 1 / 240 * (u1 * u)) =
        -10 * (w * w - (2 + ap - bp / 10) * w * u + (ap + 1) * (u * u)) + 1 / 240 * (w * u) := by
      rw [hv1, hu1, hv]; field_simp; ring
    have h3 : (ap + 1) * (v1 * u - v * u1 + 1 / 240 * (u1 * u)) ≤ 0 := by
      rw [e]; linarith
    by_contra hcon
    push_neg at hcon
    exact absurd h3 (not_le.2 (mul_pos hp hcon))
  constructor
  · have e : v1 / u1 - (v / u - 1 / 240) = (v1 * u - v * u1 + 1 / 240 * (u1 * u)) / (u1 * u) := by
      field_simp; ring
    have := div_nonpos_of_nonpos_of_nonneg key hpos.le
    rw [← e] at this
    linarith
  · have e : v / u + 10 = 10 * (w * u) / (u * u) := by
      rw [hv]; field_simp; ring
    have : 0 < v / u + 10 := by rw [e]; positivity
    linarith

/-- The core of the oscillation: a sequence of errors driven by gains from the
region cannot decrease strictly in magnitude at every tick. -/
theorem osc_core (U V ap bp : ℕ → ℚ)
    (hap : ∀ j, 17 / 100 ≤ ap j ∧ ap j ≤ 199 / 1000)
    (hbp : ∀ j, 19 / 200 ≤ bp j ∧ bp j ≤ 1 / 8)
    (hU : ∀ j, U (j + 1) = (U j + 1 / 10 * V j) / (ap j + 1))
    (hV : ∀ j, V (j + 1) = V j - bp j / (ap j + 1) * (U j + 1 / 10 * V j)) :
    ¬ ∀ j, |U (j + 1)| < |U j| := by
  intro hdec
  have hpos : ∀ j, 0 < U (j + 1) * U j := by
    intro j
    by_contra hcon
    push_neg at hcon
    have := osc_step_A (hap j) (hbp j) (hap (j + 1)) (hU j) (hV j) (hU (j + 1)) hcon
    exact absurd (hdec (j + 1)) (not_lt.2 this)
  have hstep : ∀ j, V (j + 1) / U (j + 1) ≤ V j / U j - 1 / 240 ∧ -10 < V j / U j :=
    fun j => osc_step_B (hap j) (hbp j) (hU j) (hV j) (hpos j) (hdec j)
  have hlin : ∀ j : ℕ, V j / U j ≤ V 0 / U 0 - j * (1 / 240) := by
    intro j
    induction j with
    | zero => simp
    | succ j ih =>
      have := (hstep j).1
      push_cast
      linarith
  obtain ⟨n, hn⟩ := exists_nat_gt ((V 0 / U 0 + 10) * 240)
  have h1 := hlin n
  have h2 := (hstep n).2
  have : (n : ℚ) * (1 / 240) > V 0 / U 0 + 10 := by
    rw [gt_iff_lt, ← div_lt_iff₀ (by norm_num : (0 : ℚ) < 1 / 240)]
    convert hn using 1
    ring
  linarith

theorem conv_not_eventually_decreasing (p : ℚ) (N : ℕ) :
    ∃ k, N ≤ k ∧ |(conv_st p k).x0 - p| ≤ |(conv_st p (k + 1)).x0 - p| := by
  by_contra hcon
  push_neg at hcon
  have hr := fun j => region_prior (in_region_conv p (N + j))
  have hstep := fun j => conv_err_step p (conv_st p (31 + (N + j)))
    (by have := (hr j).1; linarith)
  refine osc_core (fun j => (conv_st p (31 + (N + j))).x0 - p)
    (fun j => (conv_st p (31 + (N + j))).x1)
    (fun j => prior_a (1 / 100) (1 / 10) (conv_st p (31 + (N + j))))
    (fun j => prior_b (1 / 10) (conv_st p (31 + (N + j))))
    (fun j => ⟨(hr j).1, (hr j).2.1⟩) (fun j => ⟨(hr j).2.2.1, (hr j).2.2.2⟩)
    (fun j => by
      show (conv_st p (31 + (N + j) + 1)).x0 - p = _
      rw [conv_st_succ]; exact (hstep j).1)
    (fun j => by
      show (conv_st p (31 + (N + j) + 1)).x1 = _
      rw [conv_st_succ]; exact (hstep j).2) ?_
  intro j
  exact hcon (31 + (N + j)) (by omega)

theorem conv_psd (p : ℚ) (k : ℕ) : ∀ w1 w2 : ℚ, 0 ≤ qform (conv_st p k) w1 w2 := by
  induction k with
  | zero =>
    intro w1 w2
    show 0 ≤ (1 : ℚ) * w1 * w1 + 2 * 0 * w1 * w2 + 1 * w2 * w2
    nlinarith [mul_self_nonneg w1, mul_self_nonneg w2]
  | succ k ih =>
    intro w1 w2
    have ha : 0 < prior_a (1 / 100) (1 / 10) (conv_st p k) + 1 := by
      rw [prior_a_eq]
      have := ih 1 (1 / 10 * 1 + 0)
      unfold qpred; linarith
    rw [conv_st_succ, conv_tick, qform_qtick _ _ _ _ _ _ _ _ ha.ne']
    generalize (prior_a (1 / 100) (1 / 10) (conv_st p k) * w1 +
      prior_b (1 / 10) (conv_st p k) * w2) / (prior_a (1 / 100) (1 / 10) (conv_st p k) + 1) = l
    have h1 := ih (w1 - l) (1 / 10 * (w1 - l) + w2)
    unfold qpred
    nlinarith [mul_self_nonneg (w1 - l), mul_self_nonneg w2, sq_nonneg l]

theorem conv_prior_pos (p : ℚ) (k : ℕ) : 0 < prior_a (1 / 100) (1 / 10) (conv_st p k) + 1 := by
  rw [prior_a_eq]
  have := conv_psd p k 1 (1 / 10 * 1 + 0)
  unfold qpred; linarith

/-- The error lies in the ellipse of the covariance scaled by `t`:
`(wᵀ·e)² ≤ t·wᵀ·P·w` for every `w`, with `e = [x0 − p, x1]`. -/
theorem lyap_step (p : ℚ) (st : kstate) (t g : ℚ) (ht : 0 ≤ t)
    (hpos : 0 < prior_a (1 / 100) (1 / 10) st + 1)
    (hg : ∀ w1 w2 : ℚ, qform st w1 (1 / 10 * w1 + w2) ≤
      g * (qform st w1 (1 / 10 * w1 + w2) + 1 / 100 * (w1 * w1 + w2 * w2)))
    (hg0 : 0 ≤ g)
    (h : ∀ w1 w2 : ℚ, (w1 * (st.x0 - p) + w2 * st.x1) ^ 2 ≤ t * qform st w1 w2) :
    ∀ w1 w2 : ℚ, (w1 * ((conv_tick p st).x0 - p) + w2 * (conv_tick p st).x1) ^ 2 ≤
      g * t * qform (conv_tick p st) w1 w2 := by
  intro w1 w2
  obtain ⟨e0, e1⟩ := conv_err_step p st hpos.ne'
  have hq := qform_qtick (1 / 100) 1 (1 / 10) p 0 st w1 w2 hpos.ne'
  rw [conv_tick, hq, ← conv_tick, e0, e1]
  have hdot : w1 * ((st.x0 - p + 1 / 10 * st.x1) / (prior_a (1 / 100) (1 / 10) st + 1)) +
      w2 * (st.x1 - prior_b (1 / 10) st / (prior_a (1 / 100) (1 / 10) st + 1) *
        (st.x0 - p + 1 / 10 * st.x1)) =
      (w1 - (prior_a (1 / 100) (1 / 10) st * w1 + prior_b (1 / 10) st * w2) /
        (prior_a (1 / 100) (1 / 10) st + 1)) * (st.x0 - p) +
      (1 / 10 * (w1 - (prior_a (1 / 100) (1 / 10) st * w1 + prior_b (1 / 10) st * w2) /
        (prior_a (1 / 100) (1 / 10) st + 1)) + w2) * st.x1 := by
    have hne := hpos.ne'
    field_simp
    ring
  rw [hdot]
  generalize (prior_a (1 / 100) (1 / 10) st * w1 + prior_b (1 / 10) st * w2) /
    (prior_a (1 / 100) (1 / 10) st + 1) = l
  have h1 := h (w1 - l) (1 / 10 * (w1 - l) + w2)
  have h2 := hg (w1 - l) w2
  unfold qpred
  have h3 : 0 ≤ g * t * (1 * l ^ 2) := by positivity
  have h4 : t * qform st (w1 - l) (1 / 10 * (w1 - l) + w2) ≤
      t * (g * (qform st (w1 - l) (1 / 10 * (w1 - l) + w2) +
        1 / 100 * ((w1 - l) * (w1 - l) + w2 * w2))) := mul_le_mul_of_nonneg_left h2 ht
  linarith

theorem conv_lyap_all (p : ℚ) (k : ℕ) :
    ∀ w1 w2 : ℚ, (w1 * ((conv_st p k).x0 - p) + w2 * (conv_st p k).x1) ^ 2 ≤
      p ^ 2 * qform (conv_st p k) w1 w2 := by
  induction k with
  | zero =>
    intro w1 w2
    show (w1 * (0 - p) + w2 * 0) ^ 2 ≤ p ^ 2 * ((1 : ℚ) * w1 * w1 + 2 * 0 * w1 * w2 + 1 * w2 * w2)
    nlinarith [mul_nonneg (sq_nonneg p) (mul_self_nonneg w2)]
  | succ k ih =>
    intro w1 w2
    have := lyap_step p (conv_st p k) (p ^ 2) 1 (sq_nonneg p) (conv_prior_pos p k)
      (fun x y => by nlinarith [mul_self_nonneg x, mul_self_nonneg y]) (by norm_num) ih w1 w2
    rw [conv_st_succ]
    simpa using this

theorem region_decay {st : kstate} (h : in_region st) (w1 w2 : ℚ) :
    qform st w1 (1 / 10 * w1 + w2) ≤
      49 / 50 * (qform st w1 (1 / 10 * w1 + w2) + 1 / 100 * (w1 * w1 + w2 * w2)) := by
  have h1 := h.2 w1 (1 / 10 * w1 + w2)
  have h2 : qform cov_U w1 (1 / 10 * w1 + w2) ≤ 1 / 3 * (w1 * w1 + w2 * w2) := by
    have := qform_nonneg_of_entries (a := 1 / 3 - 18853 / 100000) (b := -(1173 / 10000))
      (d := 1 / 3 - 193 / 1000) (by norm_num) (by norm_num) (by norm_num) w1 w2
    simp only [qform, cov_U]
    linarith
  linarith [mul_self_nonneg w1, mul_self_nonneg w2]

theorem conv_lyap_region (p : ℚ) (j : ℕ) :
    ∀ w1 w2 : ℚ, (w1 * ((conv_st p (31 + j)).x0 - p) + w2 * (conv_st p (31 + j)).x1) ^ 2 ≤
      (49 / 50) ^ j * p ^ 2 * qform (conv_st p (31 + j)) w1 w2 := by
  induction j with
  | zero => intro w1 w2; simpa using conv_lyap_all p 31 w1 w2
  | succ j ih =>
    intro w1 w2
    have := lyap_step p (conv_st p (31 + j)) ((49 / 50) ^ j * p ^ 2) (49 / 50) (by positivity)
      (conv_prior_pos p _) (region_decay (in_region_conv p j)) (by norm_num) ih w1 w2
    rw [← Nat.add_assoc, conv_st_succ]
    have e : (49 / 50 : ℚ) ^ (j + 1) * p ^ 2 * qform (conv_tick p (conv_st p (31 + j))) w1 w2 =
        49 / 50 * ((49 / 50) ^ j * p ^ 2) * qform (conv_tick p (conv_st p (31 + j))) w1 w2 := by
      ring
    rw [e]
    exact this

theorem conv_err_bound (p : ℚ) (j : ℕ) :
    ((conv_st p (31 + j)).x0 - p) ^ 2 ≤ (49 / 50) ^ j * p ^ 2 := by
  have h := conv_lyap_region p j 1 0
  have ha := (in_region_conv p j).2 1 0
  have hpsd := conv_psd p (31 + j) 1 0
  simp only [qform, cov_U] at ha
  have hq : qform (conv_st p (31 + j)) 1 0 ≤ 1 := by simp only [qform]; linarith
  have ht : (0 : ℚ) ≤ (49 / 50) ^ j * p ^ 2 := by positivity
  calc ((conv_st p (31 + j)).x0 - p) ^ 2
      = (1 * ((conv_st p (31 + j)).x0 - p) + 0 * (conv_st p (31 + j)).x1) ^ 2 := by ring
    _ ≤ (49 / 50) ^ j * p ^ 2 * qform (conv_st p (31 + j)) 1 0 := h
    _ ≤ (49 / 50) ^ j * p ^ 2 * 1 := mul_le_mul_of_nonneg_left hq ht
    _ = (49 / 50) ^ j * p ^ 2 := mul_one _

theorem conv_converges (p ε : ℚ) (hε : 0 < ε) :
    ∃ N : ℕ, ∀ k, N ≤ k → |(conv_st p k).x0 - p| < ε := by
  obtain ⟨n, hn⟩ := exists_pow_lt_of_lt_one (show (0 : ℚ) < ε ^ 2 / (p ^ 2 + 1) by positivity)
    (show (49 / 50 : ℚ) < 1 by norm_num)
  refine ⟨31 + n, fun k hk => ?_⟩
  obtain ⟨j, rfl⟩ : ∃ j, k = 31 + (n + j) := ⟨k - (31 + n), by omega⟩
  have h1 := conv_err_bound p (n + j)
  have h2 : (49 / 50 : ℚ) ^ (n + j) ≤ (49 / 50) ^ n :=
    pow_le_pow_of_le_one (by norm_num) (by norm_num) (Nat.le_add_right n j)
  have h3 : (49 / 50 : ℚ) ^ n * (p ^ 2 + 1) < ε ^ 2 := by
    rwa [lt_div_iff₀ (by positivity)] at hn
  have h4 : ((conv_st p (31 + (n + j))).x0 - p) ^ 2 < ε ^ 2 := by
    have hp : (0 : ℚ) ≤ p ^ 2 := sq_nonneg p
    have h5 : (0 : ℚ) ≤ (49 / 50) ^ n := by positivity
    nlinarith [mul_le_mul_of_nonneg_right h2 hp]
  exact abs_lt_of_sq_lt_sq h4 hε.le

theorem qticks_replicate (qref rref : tsfloat_ref) (t : tick_t) (k : ℕ) :
    ∀ st : kstate, qticks qref rref st (List.replicate k t) =
      (qtick (tsfloat_get t.store qref) (tsfloat_get t.store rref) t.dt t.pos t.acc)^[k] st := by
  induction k with
  | zero => intro st; rfl
  | succ k ih =>
    intro st
    rw [List.replicate_succ, Function.iterate_succ_apply]
    exact ih _

theorem conv_code (s : params_t) (qref rref : tsfloat_ref) (us : Bool) (p : ℚ) (k : ℕ)
    (hq : tsfloat_get s qref = 1 / 100) (hr : tsfloat_get s rref = 1) :
    (kalman_ticks (kalman_init qref rref 0 0 us) (List.replicate k ⟨s, p, 0, 0, 1 / 10⟩)).x.ve0 =
      .fin (conv_st p k).x0 := by
  have hts : ∀ t ∈ List.replicate k (⟨s, p, 0, 0, 1 / 10⟩ : tick_t),
      0 ≤ tsfloat_get t.store (kalman_init qref rref 0 0 us).q ∧
      0 < tsfloat_get t.store (kalman_init qref rref 0 0 us).r ∧
      ((kalman_init qref rref 0 0 us).use_speed = false ∨ t.speed = 0) := by
    intro t ht
    rw [List.eq_of_mem_replicate ht]
    show 0 ≤ tsfloat_get s qref ∧ 0 < tsfloat_get s rref ∧ _
    rw [hq, hr]
    exact ⟨by norm_num, by norm_num, Or.inr rfl⟩
  obtain ⟨⟨hx, -⟩, -⟩ := kalman_ticks_qticks _ (kalman_init qref rref 0 0 us) ⟨0, 0, 1, 0, 1⟩
    (kalman_init_inv qref rref 0 0 us).1 ⟨rfl, rfl⟩ ⟨by norm_num, by norm_num, by norm_num⟩ hts
  rw [hx, qticks_replicate]
  show Flt.fin ((qtick (tsfloat_get s qref) (tsfloat_get s rref) (1 / 10) p 0)^[k]
    ⟨0, 0, 1, 0, 1⟩).x0 = _
  rw [hq, hr]
  rfl

/-! ## Calls of `pos_init` on the storage -/

theorem pos_init_call_eq (m : pos_module) (cfg : params_t) :
    pos_init m cfg =
      if (pos_init_call m cfg).2 = true then some (pos_init_call m cfg).1 else none := by
  unfold pos_init pos_init_call
  cases h : ASSERT_ONCE m.once <;> simp

theorem pos_update_once (m : pos_module) (i : pos_in_t) : (pos_update m i).1.once = m.once := rfl

theorem pos_updates_once (fs : List pos_in_t) :
    ∀ (m : pos_module) (out : pos_t), (pos_updates m out fs).1.once = m.once := by
  induction fs with
  | nil => intro m out; rfl
  | cons i is ih => intro m out; exact (ih _ _).trans (pos_update_once m i)

theorem pos_init_call_first (m : pos_module) (cfg : params_t) (h : m.once = false) :
    pos_init_call m cfg =
      ({ once := true
         store := cfg
         n_kalman := kalman_init tsfloat_ref.process_noise tsfloat_ref.gps_noise 0 0
           (tsint_get_bool cfg)
         e_kalman := kalman_init tsfloat_ref.process_noise tsfloat_ref.gps_noise 0 0
           (tsint_get_bool cfg)
         baro_u_kalman := kalman_init tsfloat_ref.process_noise tsfloat_ref.baro_noise 0 0 false
         ultra_u_kalman := kalman_init tsfloat_ref.process_noise tsfloat_ref.ultra_noise 0 0 false
         ultra_prev := m.ultra_prev
         baro_prev := m.baro_prev }, true) := by
  simp [pos_init_call, ASSERT_ONCE, h]

theorem pos_init_call_again (m : pos_module) (cfg : params_t) (h : m.once = true) :
    pos_init_call m cfg = (m, false) := by
  simp [pos_init_call, ASSERT_ONCE, h]

/-! ## Binary32 evaluation of the innovation covariance -/

theorem log2_val {n m : ℕ} (h1 : 2 ^ m ≤ n) (h2 : n < 2 ^ (m + 1)) : Nat.log 2 n = m :=
  Nat.log_eq_of_pow_le_of_lt_pow h1 h2

/-- Evaluation of `f32_round` from the exponent and the rounded mantissa. -/
theorem f32_round_eval (x : ℚ) (n d m : ℕ) (e : ℤ) (hn : x.num.natAbs = n) (hd : x.den = d)
    (he : f32_exp n d = e)
    (hm : round_half_even (n * 2 ^ (-e).toNat) (d * 2 ^ e.toNat) = m)
    (hfin : ¬ (104 < e ∨ (e = 104 ∧ m = 2 ^ 24))) :
    f32_round x = .fin ((if x < 0 then -1 else 1) * (m : ℚ) * 2 ^ e) := by
  simp only [f32_round, hn, hd, he, hm]
  rw [if_neg hfin]

theorem f32_round_zero : f32_round 0 = .fin 0 := by
  simp [f32_round, f32_exp, round_half_even]

theorem f32_round_1e8 : f32_round 100000000 = .fin 100000000 := by
  have h1 : Nat.log 2 1 = 0 := log2_val (by norm_num) (by norm_num)
  have h2 : Nat.log 2 100000000 = 26 := log2_val (by norm_num) (by norm_num)
  rw [f32_round_eval 100000000 100000000 1 12500000 3 (by simp) rfl
    (by simp [f32_exp, h1, h2]) (by simp [round_half_even]) (by norm_num)]
  norm_num

theorem f32_round_1e8_succ : f32_round 100000001 = .fin 100000000 := by
  have h1 : Nat.log 2 1 = 0 := log2_val (by norm_num) (by norm_num)
  have h2 : Nat.log 2 100000001 = 26 := log2_val (by norm_num) (by norm_num)
  rw [f32_round_eval 100000001 100000001 1 12500000 3 (by simp) rfl
    (by simp [f32_exp, h1, h2]) (by simp [round_half_even]) (by norm_num)]
  norm_num

/-- The binary32 value of the literal `0.1f`. -/
theorem f32_round_tenth : f32_round (1 / 10) = .fin (13421773 / 134217728) := by
  have h1 : Nat.log 2 1 = 0 := log2_val (by norm_num) (by norm_num)
  have h2 : Nat.log 2 10 = 3 := log2_val (by norm_num) (by norm_num)
  rw [f32_round_eval (1 / 10) 1 10 13421773 (-27) (by norm_num) (by norm_num)
    (by simp [f32_exp, h1, h2]) (by simp [round_half_even]) (by norm_num)]
  norm_num

theorem f32_fin_add (a b : ℚ) : (Flt.fin a + Flt.fin b).f32 = f32_round (a + b) :=
  (Eq.refl _).trans rfl

theorem mat_mul_f32_of (a b c d p q r s : ℚ) :
    mat_mul_f32 (mat2x2_of a b c d) (mat2x2_of p q r s) =
      ⟨(f32_round (a * p) + f32_round (b * r)).f32, (f32_round (a * q) + f32_round (b * s)).f32,
       (f32_round (c * p) + f32_round (d * r)).f32, (f32_round (c * q) + f32_round (d * s)).f32⟩ :=
  (Eq.refl _).trans rfl

theorem mmtr_mul_f32_of (a b c d p q r s : ℚ) :
    mmtr_mul_f32 (mat2x2_of a b c d) (mat2x2_of p q r s) =
      ⟨(f32_round (a * p) + f32_round (b * q)).f32, (f32_round (a * r) + f32_round (b * s)).f32,
       (f32_round (c * p) + f32_round (d * q)).f32, (f32_round (c * r) + f32_round (d * s)).f32⟩ :=
  (Eq.refl _).trans rfl

theorem mat_add_f32_of (a b c d p q r s : ℚ) :
    mat_add_f32 (mat2x2_of a b c d) (mat2x2_of p q r s) =
      ⟨f32_round (a + p), f32_round (b + q), f32_round (c + r), f32_round (d + s)⟩ :=
  (Eq.refl _).trans rfl

theorem kalman_correct_S_f32_eq (kf : kalman_t) (speed : ℚ) :
    kalman_correct_S_f32 kf speed =
      mat_add_f32
        (mmtr_mul_f32
          (mat_mul_f32
            { kf.H with me11 := Flt.ofBool (kf.use_speed && decide (speed ≠ 0)) } kf.P)
          { kf.H with me11 := Flt.ofBool (kf.use_speed && decide (speed ≠ 0)) })
        kf.R := rfl

theorem kf_wide_H :
    ({ kf_wide.H with me11 := Flt.ofBool (kf_wide.use_speed && decide ((1 : ℚ) ≠ 0)) } :
      mat2x2_t) = mat2x2_of 1 0 0 1 := by
  simp [kf_wide, kalman_init, mat2x2_of, mat2x2_init, Flt.ofBool]

theorem kalman_correct_S_f32_wide :
    kalman_correct_S_f32 kf_wide 1 =
      mat2x2_of 100000000 100000000 100000000 100000000 := by
  have hP : kf_wide.P = mat2x2_of 100000000 100000000 100000000 100000000 := rfl
  have hR : kf_wide.R = mat2x2_of 1 0 0 1 := rfl
  have e : (100000000 : ℚ) + 1 = 100000001 := by norm_num
  have h1 : mat_mul_f32 (mat2x2_of 1 0 0 1)
      (mat2x2_of 100000000 100000000 100000000 100000000) =
      mat2x2_of 100000000 100000000 100000000 100000000 := by
    rw [mat_mul_f32_of]
    simp only [one_mul, zero_mul, f32_round_1e8, f32_round_zero, f32_fin_add, add_zero, zero_add]
    rfl
  have h2 : mmtr_mul_f32 (mat2x2_of 100000000 100000000 100000000 100000000)
      (mat2x2_of 1 0 0 1) = mat2x2_of 100000000 100000000 100000000 100000000 := by
    rw [mmtr_mul_f32_of]
    simp only [mul_one, mul_zero, f32_round_1e8, f32_round_zero, f32_fin_add, add_zero, zero_add]
    rfl
  have h3 : mat_add_f32 (mat2x2_of 100000000 100000000 100000000 100000000)
      (mat2x2_of 1 0 0 1) = mat2x2_of 100000000 100000000 100000000 100000000 := by
    rw [mat_add_f32_of]
    simp only [e, add_zero, f32_round_1e8, f32_round_1e8_succ]
    rfl
  rw [kalman_correct_S_f32_eq, kf_wide_H, hP, hR, h1, h2, h3]

theorem kalman_correct_S_wide :
    kalman_correct_S kf_wide 1 =
      mat2x2_of 100000001 100000000 100000000 100000001 := by
  simp [kalman_correct_S, kf_wide, kalman_init, mat_mul, mmtr_mul, mat_add,
    mat2x2_of, mat2x2_init, Flt.ofBool]
  norm_num

/-! ## The claims, continued -/

/-- Claim C11: `kalman_run` overwrites `A[0][1]`, `B`, `Q` and `R` from the
tick's `dt` and the values the parameters hold at the call (`Q = q·I`,
`R = r·I`), so the posterior `x`, `P` and the two outputs are determined by
the prior `x`, the prior `P`, `use_speed` and the tick's
`(q, r, dt, pos, speed, acc)`: two filters that agree on these give the same
result, whatever their `A[0][1]`, `B`, `Q`, `R`, `H[1][1]`, `K`, `z`, `u` and
scratch fields hold. -/
theorem kalman_run_tick_local (s s' : params_t) (kf kf' : kalman_t) (pos speed acc dt : ℚ)
    (hwf : kalman_wf kf) (hwf' : kalman_wf kf')
    (hx : kf.x = kf'.x) (hP : kf.P = kf'.P) (hus : kf.use_speed = kf'.use_speed)
    (hq : tsfloat_get s kf.q = tsfloat_get s' kf'.q)
    (hr : tsfloat_get s kf.r = tsfloat_get s' kf'.r) :
    (kalman_run s kf pos speed acc dt).1.x = (kalman_run s' kf' pos speed acc dt).1.x ∧
    (kalman_run s kf pos speed acc dt).1.P = (kalman_run s' kf' pos speed acc dt).1.P ∧
    (kalman_run s kf pos speed acc dt).2 = (kalman_run s' kf' pos speed acc dt).2 ∧
    (kalman_run s kf pos speed acc dt).1.A = mat2x2_of 1 dt 0 1 ∧
    (kalman_run s kf pos speed acc dt).1.B = ⟨.fin (1 / 2 * dt * dt), .fin dt⟩ ∧
    (kalman_run s kf pos speed acc dt).1.Q =
      mat2x2_of (tsfloat_get s kf.q) 0 0 (tsfloat_get s kf.q) ∧
    (kalman_run s kf pos speed acc dt).1.R =
      mat2x2_of (tsfloat_get s kf.r) 0 0 (tsfloat_get s kf.r) := by
  obtain ⟨-, h1, h2, -⟩ := kalman_run_x_P s kf pos speed acc dt hwf
  obtain ⟨-, h1', h2', -⟩ := kalman_run_x_P s' kf' pos speed acc dt hwf'
  obtain ⟨hA, hB, hQ, hR⟩ := kalman_refresh_fin s kf dt hwf
  have hx12 : (kalman_run s kf pos speed acc dt).1.x = (kalman_run s' kf' pos speed acc dt).1.x := by
    rw [h1, h1', hx, hP, hus, hq, hr]
  refine ⟨hx12, by rw [h2, h2', hP, hus, hq, hr], ?_, ?_, ?_, ?_, ?_⟩
  · show ((kalman_run s kf pos speed acc dt).1.x.ve0, (kalman_run s kf pos speed acc dt).1.x.ve1)
      = ((kalman_run s' kf' pos speed acc dt).1.x.ve0, (kalman_run s' kf' pos speed acc dt).1.x.ve1)
    rw [hx12]
  · simpa [kalman_run, kalman_correct, kalman_predict] using hA
  · simpa [kalman_run, kalman_correct, kalman_predict] using hB
  · simpa [kalman_run, kalman_correct, kalman_predict] using hQ
  · simpa [kalman_run, kalman_correct, kalman_predict] using hR

/-- Witness of C11: the GPS filter after `kalman_init` and the same filter
with leftovers in every tick-local field. -/
theorem kalman_run_tick_local_witness :
    (kalman_run ⟨1 / 100, 1, 1, 1, 1⟩ kf_gps 1 2 3 (1 / 10)).1.x =
      (kalman_run ⟨1 / 100, 1, 1, 1, 1⟩ kf_gps_stale 1 2 3 (1 / 10)).1.x ∧
    (kalman_run ⟨1 / 100, 1, 1, 1, 1⟩ kf_gps 1 2 3 (1 / 10)).1.P =
      (kalman_run ⟨1 / 100, 1, 1, 1, 1⟩ kf_gps_stale 1 2 3 (1 / 10)).1.P ∧
    (kalman_run ⟨1 / 100, 1, 1, 1, 1⟩ kf_gps 1 2 3 (1 / 10)).2 =
      (kalman_run ⟨1 / 100, 1, 1, 1, 1⟩ kf_gps_stale 1 2 3 (1 / 10)).2 ∧
    (kalman_run ⟨1 / 100, 1, 1, 1, 1⟩ kf_gps 1 2 3 (1 / 10)).1.A = mat2x2_of 1 (1 / 10) 0 1 ∧
    (kalman_run ⟨1 / 100, 1, 1, 1, 1⟩ kf_gps 1 2 3 (1 / 10)).1.B =
      ⟨.fin (1 / 2 * (1 / 10) * (1 / 10)), .fin (1 / 10)⟩ ∧
    (kalman_run ⟨1 / 100, 1, 1, 1, 1⟩ kf_gps 1 2 3 (1 / 10)).1.Q =
      mat2x2_of (tsfloat_get ⟨1 / 100, 1, 1, 1, 1⟩ kf_gps.q) 0 0 (tsfloat_get ⟨1 / 100, 1, 1, 1, 1⟩ kf_gps.q) ∧
    (kalman_run ⟨1 / 100, 1, 1, 1, 1⟩ kf_gps 1 2 3 (1 / 10)).1.R =
      mat2x2_of (tsfloat_get ⟨1 / 100, 1, 1, 1, 1⟩ kf_gps.r) 0 0 (tsfloat_get ⟨1 / 100, 1, 1, 1, 1⟩ kf_gps.r) :=
  kalman_run_tick_local ⟨1 / 100, 1, 1, 1, 1⟩ ⟨1 / 100, 1, 1, 1, 1⟩ kf_gps kf_gps_stale 1 2 3 (1 / 10)
    (by decide) (by decide) rfl rfl rfl rfl rfl

/-- Counterexample to C12: after `pos_init` with `use_gps_speed = 1` the flag
is cleared in the parameter store; the next tick with speed 2 still opens the
velocity gate of the north and the east filter. -/
theorem use_gps_speed_not_live :
    pos_init pos_static ⟨1 / 100, 1, 1, 1, 1⟩ = some pos_ready ∧
    (set_use_gps_speed pos_ready 0).store.use_gps_speed = 0 ∧
    (pos_update (set_use_gps_speed pos_ready 0)
      ⟨1, 1, 2, 2, 0, 0, ⟨0, 0, 0⟩, 1 / 10⟩).1.n_kalman.H.me11 = .fin 1 ∧
    (pos_update (set_use_gps_speed pos_ready 0)
      ⟨1, 1, 2, 2, 0, 0, ⟨0, 0, 0⟩, 1 / 10⟩).1.e_kalman.H.me11 = .fin 1 := by
  refine ⟨pos_ready_eq, rfl, ?_, ?_⟩ <;>
    simp [pos_update, kalman_run, kalman_correct, kalman_predict, kalman_refresh,
      set_use_gps_speed, pos_ready, kalman_init]

/-- Claim C12, amended: the flag is read once, by `pos_init`, and copied into
`use_speed` of the north and east filters. Whatever is written to
`use_gps_speed` afterwards, the next tick gates the velocity observation with
the value `pos_init` read, and `pos_update` gives the same filters and outputs
as without the write. -/
theorem use_gps_speed_read_once (m : pos_module) (cfg : params_t) (v : Int) (i : pos_in_t)
    (h : m.once = false) :
    ∃ m', pos_init m cfg = some m' ∧
      (pos_update (set_use_gps_speed m' v) i).1.n_kalman.H.me11 =
        Flt.ofBool (decide (cfg.use_gps_speed ≠ 0) && decide (i.speed_n ≠ 0)) ∧
      (pos_update (set_use_gps_speed m' v) i).1.e_kalman.H.me11 =
        Flt.ofBool (decide (cfg.use_gps_speed ≠ 0) && decide (i.speed_e ≠ 0)) ∧
      (pos_update (set_use_gps_speed m' v) i).1.n_kalman = (pos_update m' i).1.n_kalman ∧
      (pos_update (set_use_gps_speed m' v) i).1.e_kalman = (pos_update m' i).1.e_kalman ∧
      (pos_update (set_use_gps_speed m' v) i).2 = (pos_update m' i).2 := by
  refine ⟨_, by simp [pos_init, ASSERT_ONCE, h]; rfl, ?_⟩
  simp [pos_update, kalman_run, kalman_correct, kalman_predict, kalman_refresh,
      set_use_gps_speed, kalman_init, tsint_get_bool, tsfloat_get]

/-- Witness of C12, amended: `pos_init` on the static storage, then the flag
cleared, then a tick with speed 2. -/
theorem use_gps_speed_read_once_witness :
    ∃ m', pos_init pos_static ⟨1 / 100, 1, 1, 1, 1⟩ = some m' ∧
      (pos_update (set_use_gps_speed m' 0)
        ⟨1, 1, 2, 2, 0, 0, ⟨0, 0, 0⟩, 1 / 10⟩).1.n_kalman.H.me11 =
        Flt.ofBool (decide ((⟨1 / 100, 1, 1, 1, 1⟩ : params_t).use_gps_speed ≠ 0) &&
          decide ((⟨1, 1, 2, 2, 0, 0, ⟨0, 0, 0⟩, 1 / 10⟩ : pos_in_t).speed_n ≠ 0)) ∧
      (pos_update (set_use_gps_speed m' 0)
        ⟨1, 1, 2, 2, 0, 0, ⟨0, 0, 0⟩, 1 / 10⟩).1.e_kalman.H.me11 =
        Flt.ofBool (decide ((⟨1 / 100, 1, 1, 1, 1⟩ : params_t).use_gps_speed ≠ 0) &&
          decide ((⟨1, 1, 2, 2, 0, 0, ⟨0, 0, 0⟩, 1 / 10⟩ : pos_in_t).speed_e ≠ 0)) ∧
      (pos_update (set_use_gps_speed m' 0) ⟨1, 1, 2, 2, 0, 0, ⟨0, 0, 0⟩, 1 / 10⟩).1.n_kalman =
        (pos_update m' ⟨1, 1, 2, 2, 0, 0, ⟨0, 0, 0⟩, 1 / 10⟩).1.n_kalman ∧
      (pos_update (set_use_gps_speed m' 0) ⟨1, 1, 2, 2, 0, 0, ⟨0, 0, 0⟩, 1 / 10⟩).1.e_kalman =
        (pos_update m' ⟨1, 1, 2, 2, 0, 0, ⟨0, 0, 0⟩, 1 / 10⟩).1.e_kalman ∧
      (pos_update (set_use_gps_speed m' 0) ⟨1, 1, 2, 2, 0, 0, ⟨0, 0, 0⟩, 1 / 10⟩).2 =
        (pos_update m' ⟨1, 1, 2, 2, 0, 0, ⟨0, 0, 0⟩, 1 / 10⟩).2 :=
  use_gps_speed_read_once pos_static ⟨1 / 100, 1, 1, 1, 1⟩ 0 ⟨1, 1, 2, 2, 0, 0, ⟨0, 0, 0⟩, 1 / 10⟩ rfl

/-- Claim C14: the first call of `pos_init` (flag of `ASSERT_ONCE` clear)
returns, sets the flag and constructs the bank: the four filters are the ones
`kalman_init` writes, with `x = [0, 0]` and `P = I`. Every later call, also
after any number of `pos_update` calls, and every call with the flag set,
stops in `ASSERT_ONCE`: it returns nothing and leaves the storage, and so
`x` and `P` of the four filters, as it was before that call. -/
theorem pos_init_once (m : pos_module) (cfg : params_t) (h : m.once = false) :
    ∃ m', pos_init m cfg = some m' ∧ pos_init_call m cfg = (m', true) ∧ m'.once = true ∧
      m'.n_kalman = kalman_init tsfloat_ref.process_noise tsfloat_ref.gps_noise 0 0
        (tsint_get_bool cfg) ∧
      m'.e_kalman = kalman_init tsfloat_ref.process_noise tsfloat_ref.gps_noise 0 0
        (tsint_get_bool cfg) ∧
      m'.baro_u_kalman = kalman_init tsfloat_ref.process_noise tsfloat_ref.baro_noise 0 0 false ∧
      m'.ultra_u_kalman =
        kalman_init tsfloat_ref.process_noise tsfloat_ref.ultra_noise 0 0 false ∧
      (∀ kf ∈ [m'.n_kalman, m'.e_kalman, m'.baro_u_kalman, m'.ultra_u_kalman],
        kf.x = vec2_of 0 0 ∧ kf.P = mat2x2_of 1 0 0 1) ∧
      (∀ (fs : List pos_in_t) (out : pos_t) (cfg' : params_t),
        pos_init (pos_updates m' out fs).1 cfg' = none ∧
        pos_init_call (pos_updates m' out fs).1 cfg' = ((pos_updates m' out fs).1, false)) ∧
      (∀ (m2 : pos_module) (cfg' : params_t), m2.once = true →
        pos_init m2 cfg' = none ∧ (pos_init_call m2 cfg').2 = false ∧
        ∀ sel ∈ [pos_module.n_kalman, pos_module.e_kalman, pos_module.baro_u_kalman,
            pos_module.ultra_u_kalman],
          (sel (pos_init_call m2 cfg').1).x = (sel m2).x ∧
          (sel (pos_init_call m2 cfg').1).P = (sel m2).P) := by
  have hc := pos_init_call_first m cfg h
  have hagain : ∀ (m2 : pos_module) (cfg' : params_t), m2.once = true →
      pos_init m2 cfg' = none ∧ pos_init_call m2 cfg' = (m2, false) := by
    intro m2 cfg' h2
    have e := pos_init_call_again m2 cfg' h2
    exact ⟨by rw [pos_init_call_eq, e]; rfl, e⟩
  refine ⟨_, by rw [pos_init_call_eq, hc]; rfl, hc, rfl, rfl, rfl, rfl, rfl, ?_, ?_, ?_⟩
  · simp [kalman_init, mat2x2_of, vec2_of, mat_ident, mat2x2_init, vec2_init]
  · intro fs out cfg'
    exact hagain _ cfg' ((pos_updates_once fs _ out).trans rfl)
  · intro m2 cfg' h2
    obtain ⟨e1, e2⟩ := hagain m2 cfg' h2
    refine ⟨e1, by rw [e2], ?_⟩
    intro sel _
    rw [e2]
    exact ⟨rfl, rfl⟩

/-- Witness of C14: `pos_init` on the static storage. -/
theorem pos_init_once_witness :
    ∃ m', pos_init pos_static ⟨1 / 100, 1, 1, 1, 1⟩ = some m' ∧
      pos_init_call pos_static ⟨1 / 100, 1, 1, 1, 1⟩ = (m', true) ∧ m'.once = true ∧
      m'.n_kalman = kalman_init tsfloat_ref.process_noise tsfloat_ref.gps_noise 0 0
        (tsint_get_bool ⟨1 / 100, 1, 1, 1, 1⟩) ∧
      m'.e_kalman = kalman_init tsfloat_ref.process_noise tsfloat_ref.gps_noise 0 0
        (tsint_get_bool ⟨1 / 100, 1, 1, 1, 1⟩) ∧
      m'.baro_u_kalman = kalman_init tsfloat_ref.process_noise tsfloat_ref.baro_noise 0 0 false ∧
      m'.ultra_u_kalman =
        kalman_init tsfloat_ref.process_noise tsfloat_ref.ultra_noise 0 0 false ∧
      (∀ kf ∈ [m'.n_kalman, m'.e_kalman, m'.baro_u_kalman, m'.ultra_u_kalman],
        kf.x = vec2_of 0 0 ∧ kf.P = mat2x2_of 1 0 0 1) ∧
      (∀ (fs : List pos_in_t) (out : pos_t) (cfg' : params_t),
        pos_init (pos_updates m' out fs).1 cfg' = none ∧
        pos_init_call (pos_updates m' out fs).1 cfg' = ((pos_updates m' out fs).1, false)) ∧
      (∀ (m2 : pos_module) (cfg' : params_t), m2.once = true →
        pos_init m2 cfg' = none ∧ (pos_init_call m2 cfg').2 = false ∧
        ∀ sel ∈ [pos_module.n_kalman, pos_module.e_kalman, pos_module.baro_u_kalman,
            pos_module.ultra_u_kalman],
          (sel (pos_init_call m2 cfg').1).x = (sel m2).x ∧
          (sel (pos_init_call m2 cfg').1).P = (sel m2).P) :=
  pos_init_once pos_static ⟨1 / 100, 1, 1, 1, 1⟩ rfl

/-- Claim C15: when every transfer succeeds, `srf10_read` returns 0 and stores,
for each of the four devices, `limit(0.01·(256·raw[0] + raw[1]), 0.2, 5.0)` of
the two bytes read from it; each stored distance lies in `[0.2, 5.0]`, and it
is the scaled raw value whenever that lies in `[0.2, 5.0]`. -/
theorem srf10_read_clamped (bus : srf10_bus_t) (d : vec4_t)
    (hw : 0 ≤ bus.w0 ∧ 0 ≤ bus.w1 ∧ 0 ≤ bus.w2 ∧ 0 ≤ bus.w3)
    (hr : 0 ≤ bus.r0.1 ∧ 0 ≤ bus.r1.1 ∧ 0 ≤ bus.r2.1 ∧ 0 ≤ bus.r3.1)
    (hb : bus.r0.2.1 < 256 ∧ bus.r0.2.2 < 256 ∧ bus.r1.2.1 < 256 ∧ bus.r1.2.2 < 256 ∧
      bus.r2.2.1 < 256 ∧ bus.r2.2.2 < 256 ∧ bus.r3.2.1 < 256 ∧ bus.r3.2.2 < 256) :
    (srf10_read bus d).1 = 0 ∧
    (srf10_read bus d).2 =
      ⟨limit (1 / 100 * (256 * bus.r0.2.1 + bus.r0.2.2)) (2 / 10) 5,
       limit (1 / 100 * (256 * bus.r1.2.1 + bus.r1.2.2)) (2 / 10) 5,
       limit (1 / 100 * (256 * bus.r2.2.1 + bus.r2.2.2)) (2 / 10) 5,
       limit (1 / 100 * (256 * bus.r3.2.1 + bus.r3.2.2)) (2 / 10) 5⟩ ∧
    (∀ v ∈ [(srf10_read bus d).2.ve0, (srf10_read bus d).2.ve1, (srf10_read bus d).2.ve2,
        (srf10_read bus d).2.ve3], (2 / 10 : ℚ) ≤ v ∧ v ≤ 5) ∧
    (∀ raw0 raw1 : Nat, raw0 < 256 → raw1 < 256 →
      (2 / 10 : ℚ) ≤ 1 / 100 * (256 * raw0 + raw1) → (1 / 100 * (256 * raw0 + raw1) : ℚ) ≤ 5 →
      srf10_distance raw0 raw1 = 1 / 100 * (256 * raw0 + raw1)) := by
  obtain ⟨w0, w1, w2, w3⟩ := hw
  obtain ⟨r0, r1, r2, r3⟩ := hr
  obtain ⟨b00, b01, b10, b11, b20, b21, b30, b31⟩ := hb
  have hval : (srf10_read bus d).2 =
      ⟨srf10_distance bus.r0.2.1 bus.r0.2.2, srf10_distance bus.r1.2.1 bus.r1.2.2,
       srf10_distance bus.r2.2.1 bus.r2.2.2, srf10_distance bus.r3.2.1 bus.r3.2.2⟩ := by
    simp [srf10_read, not_lt.2 w0, not_lt.2 w1, not_lt.2 w2, not_lt.2 w3, not_lt.2 r0,
      not_lt.2 r1, not_lt.2 r2, not_lt.2 r3]
  refine ⟨?_, ?_, ?_, ?_⟩
  · simp [srf10_read, not_lt.2 w0, not_lt.2 w1, not_lt.2 w2, not_lt.2 w3, not_lt.2 r0,
      not_lt.2 r1, not_lt.2 r2, not_lt.2 r3]
  · rw [hval, srf10_distance_eq _ _ b00 b01, srf10_distance_eq _ _ b10 b11,
      srf10_distance_eq _ _ b20 b21, srf10_distance_eq _ _ b30 b31]
  · rw [hval]
    intro v hv
    simp only [List.mem_cons, List.mem_singleton, List.not_mem_nil, or_false] at hv
    rcases hv with rfl | rfl | rfl | rfl <;>
      exact limit_mem _ _ _ (by norm_num [SRF10_MIN_RANGE, SRF10_MAX_RANGE])
  · intro raw0 raw1 h0 h1 hlo hhi
    rw [srf10_distance_eq _ _ h0 h1]
    exact limit_id _ _ _ hlo hhi

/-- Witness of C15: the bus answers `0x0000`, `0x0064`, `0x0123`, `0xffff`. -/
theorem srf10_read_clamped_witness :
    (srf10_read srf10_bus_ok ⟨0, 0, 0, 0⟩).1 = 0 ∧
    (srf10_read srf10_bus_ok ⟨0, 0, 0, 0⟩).2 =
      ⟨limit (1 / 100 * (256 * srf10_bus_ok.r0.2.1 + srf10_bus_ok.r0.2.2)) (2 / 10) 5,
       limit (1 / 100 * (256 * srf10_bus_ok.r1.2.1 + srf10_bus_ok.r1.2.2)) (2 / 10) 5,
       limit (1 / 100 * (256 * srf10_bus_ok.r2.2.1 + srf10_bus_ok.r2.2.2)) (2 / 10) 5,
       limit (1 / 100 * (256 * srf10_bus_ok.r3.2.1 + srf10_bus_ok.r3.2.2)) (2 / 10) 5⟩ ∧
    (∀ v ∈ [(srf10_read srf10_bus_ok ⟨0, 0, 0, 0⟩).2.ve0,
        (srf10_read srf10_bus_ok ⟨0, 0, 0, 0⟩).2.ve1,
        (srf10_read srf10_bus_ok ⟨0, 0, 0, 0⟩).2.ve2,
        (srf10_read srf10_bus_ok ⟨0, 0, 0, 0⟩).2.ve3], (2 / 10 : ℚ) ≤ v ∧ v ≤ 5) ∧
    (∀ raw0 raw1 : Nat, raw0 < 256 → raw1 < 256 →
      (2 / 10 : ℚ) ≤ 1 / 100 * (256 * raw0 + raw1) → (1 / 100 * (256 * raw0 + raw1) : ℚ) ≤ 5 →
      srf10_distance raw0 raw1 = 1 / 100 * (256 * raw0 + raw1)) :=
  srf10_read_clamped srf10_bus_ok ⟨0, 0, 0, 0⟩ (by decide) (by decide) (by decide)

/-- Claim C17: for `q ≥ 0` and `r > 0`, a symmetric positive semidefinite `P`
(`P00 ≥ 0`, `P11 ≥ 0`, `P00·P11 − P01² ≥ 0`) is symmetric positive semidefinite
after `kalman_predict` and after `kalman_correct`, for every `dt`,
acceleration, measurement and gate; so it is in every state reached from the
`P = I` of `kalman_init`. -/
theorem kalman_psd_invariant (s : params_t) (kf : kalman_t) (x0 x1 pos speed acc dt : ℚ)
    (hwf : kalman_wf kf) (hx : kf.x = vec2_of x0 x1) (hP : mat_psd kf.P)
    (hq : 0 ≤ tsfloat_get s kf.q) (hr : 0 < tsfloat_get s kf.r) :
    mat_psd (kalman_predict (kalman_refresh s kf dt) acc).P ∧
    mat_psd (kalman_correct (kalman_predict (kalman_refresh s kf dt) acc) pos speed).P ∧
    mat_psd (kalman_run s kf pos speed acc dt).1.P ∧
    (∀ (q r : tsfloat_ref) (pos0 speed0 : ℚ) (us : Bool) (ts : List tick_t),
      (∀ t ∈ ts, 0 ≤ tsfloat_get t.store q ∧ 0 < tsfloat_get t.store r) →
      mat_psd (kalman_ticks (kalman_init q r pos0 speed0 us) ts).P) := by
  have hinv := kalman_inv_of_psd hwf x0 x1 hx hP
  obtain ⟨hp, hR⟩ := kalman_predict_inv s kf acc dt hinv hq
  have hc := kalman_correct_inv _ _ pos speed hp hR hr
  refine ⟨kalman_inv_psd hp, kalman_inv_psd hc, kalman_inv_psd hc, ?_⟩
  intro q r pos0 speed0 us ts hts
  exact kalman_inv_psd (kalman_ticks_inv q r ts _ (kalman_init_inv q r pos0 speed0 us) rfl rfl hts)

/-- Witness of C17: the GPS filter after `kalman_init`, `q = 1/100`,
`r = 1`. -/
theorem kalman_psd_invariant_witness :
    mat_psd (kalman_predict (kalman_refresh ⟨1 / 100, 1, 1, 1, 1⟩ kf_gps (1 / 10)) 3).P ∧
    mat_psd (kalman_correct (kalman_predict (kalman_refresh ⟨1 / 100, 1, 1, 1, 1⟩ kf_gps (1 / 10)) 3) 1 2).P ∧
    mat_psd (kalman_run ⟨1 / 100, 1, 1, 1, 1⟩ kf_gps 1 2 3 (1 / 10)).1.P ∧
    (∀ (q r : tsfloat_ref) (pos0 speed0 : ℚ) (us : Bool) (ts : List tick_t),
      (∀ t ∈ ts, 0 ≤ tsfloat_get t.store q ∧ 0 < tsfloat_get t.store r) →
      mat_psd (kalman_ticks (kalman_init q r pos0 speed0 us) ts).P) :=
  kalman_psd_invariant ⟨1 / 100, 1, 1, 1, 1⟩ kf_gps 0 0 1 2 3 (1 / 10) (by decide) rfl
    ⟨1, 0, 1, rfl, by norm_num, by norm_num, by norm_num⟩
    (by simp [tsfloat_get, kf_gps, kalman_init])
    (by simp [tsfloat_get, kf_gps, kalman_init])

/-- Counterexample to C18: in the binary32 arithmetic of the code, with the
symmetric positive semidefinite `P = 10^8·[[1, 1], [1, 1]]`, `r = 1` and the
gate on, the sum `10^8 + 1` rounds to `10^8`, so the matrix `kalman_correct`
passes to `mat_inv` is `10^8·[[1, 1], [1, 1]]`: its determinant is `0`, below
`r² = 1`, and the inverse divides by zero. In exact arithmetic the same input
gives the determinant `200000001`. -/
theorem kalman_correct_S_singular_binary32 :
    kalman_wf kf_wide ∧ mat_psd kf_wide.P ∧ kf_wide.R = mat2x2_of 1 0 0 1 ∧
    kf_wide.use_speed = true ∧
    kalman_correct_S_f32 kf_wide 1 = mat2x2_of 100000000 100000000 100000000 100000000 ∧
    mat_det (kalman_correct_S_f32 kf_wide 1) = .fin 0 ∧
    mat_inv (kalman_correct_S_f32 kf_wide 1) = ⟨.nan, .nan, .nan, .nan⟩ ∧
    mat_det (kalman_correct_S kf_wide 1) = .fin 200000001 := by
  refine ⟨by decide, ⟨100000000, 100000000, 100000000, rfl, by norm_num, by norm_num,
    by norm_num⟩, rfl, rfl, kalman_correct_S_f32_wide, ?_, ?_, ?_⟩
  · rw [kalman_correct_S_f32_wide]; simp [mat_det, mat2x2_of]
  · rw [kalman_correct_S_f32_wide]; simp [mat_inv, mat2x2_of]
  · rw [kalman_correct_S_wide]; simp [mat_det, mat2x2_of]; norm_num

/-- Claim C18, amended: in exact arithmetic, for a symmetric positive
semidefinite `P`, `r > 0` and either gate value, the matrix `kalman_correct`
passes to `mat_inv` is `S = H·P·Hᵀ + r·I` with `det S ≥ r² > 0`, so the
inverse has finite entries: the division by a zero determinant is not
reached. -/
theorem kalman_correct_S_invertible (kf : kalman_t) (a b d r pos speed : ℚ) (hwf : kalman_wf kf)
    (hP : kf.P = mat2x2_of a b b d) (ha : 0 ≤ a) (hd : 0 ≤ d) (hdet : 0 ≤ a * d - b * b)
    (hR : kf.R = mat2x2_of r 0 0 r) (hr : 0 < r) :
    (kalman_correct kf pos speed).K =
      mat_mul (mmtr_mul kf.P (kalman_correct kf pos speed).H)
        (mat_inv (kalman_correct_S kf speed)) ∧
    kalman_correct_S kf speed = mat2x2_ofMatrix (innov_S (obs_H kf.use_speed speed) !![a, b; b, d] r) ∧
    r ^ 2 ≤ (innov_S (obs_H kf.use_speed speed) !![a, b; b, d] r).det ∧ (0 : ℚ) < r ^ 2 ∧
    (∃ i00 i01 i10 i11 : ℚ, mat_inv (kalman_correct_S kf speed) = mat2x2_of i00 i01 i10 i11) := by
  have hS := kalman_correct_S_fin kf a b b d r speed hwf hP hR
  have hdetS := innov_S_det kf.use_speed speed a b b d r
  have hge : r ^ 2 ≤ (a + r) * (gate kf.use_speed speed * d * gate kf.use_speed speed + r)
      - b * gate kf.use_speed speed * (gate kf.use_speed speed * b) := by
    rcases gate_cases kf.use_speed speed with hg | hg <;> rw [hg]
    · nlinarith [mul_nonneg ha hr.le]
    · nlinarith [mul_nonneg ha hr.le, mul_nonneg hd hr.le]
  have hpos : (0 : ℚ) < r ^ 2 := by positivity
  refine ⟨rfl, ?_, hdetS ▸ hge, hpos, ?_⟩
  · rw [hS]
    simp [mat2x2_ofMatrix, mat2x2_of_inj, innov_S, obs_H, Matrix.mul_apply, Fin.sum_univ_two,
      Matrix.diagonal_apply, Matrix.smul_apply]
  · rw [hS, mat_inv_of _ _ _ _ (by linarith)]
    exact ⟨_, _, _, _, rfl⟩

/-- Witness of C18, amended: the GPS filter after `kalman_init` with `r = 1`. -/
theorem kalman_correct_S_invertible_witness :
    (kalman_correct kf_gps 1 2).K =
      mat_mul (mmtr_mul kf_gps.P (kalman_correct kf_gps 1 2).H)
        (mat_inv (kalman_correct_S kf_gps 2)) ∧
    kalman_correct_S kf_gps 2 =
      mat2x2_ofMatrix (innov_S (obs_H kf_gps.use_speed 2) !![1, 0; 0, 1] 1) ∧
    (1 : ℚ) ^ 2 ≤ (innov_S (obs_H kf_gps.use_speed 2) !![1, 0; 0, 1] 1).det ∧
    (0 : ℚ) < 1 ^ 2 ∧
    (∃ i00 i01 i10 i11 : ℚ, mat_inv (kalman_correct_S kf_gps 2) = mat2x2_of i00 i01 i10 i11) :=
  kalman_correct_S_invertible kf_gps 1 0 1 1 1 2 (by decide) rfl (by norm_num) (by norm_num)
    (by norm_num) rfl (by norm_num)

/-- Claim C20: two runs of `kalman_run` from the same prior `P` and
`use_speed`, with the same `q`, `r` and `dt`, give the same posterior `P`, gain
`K` and `H` whenever their speed arguments agree on being zero, whatever the
prior `x`, the positions, the accelerations and the speed values are. -/
theorem kalman_run_data_blind (s s' : params_t) (kf kf' : kalman_t)
    (pos pos' speed speed' acc acc' dt : ℚ)
    (hwf : kalman_wf kf) (hwf' : kalman_wf kf')
    (hP : kf.P = kf'.P) (hus : kf.use_speed = kf'.use_speed)
    (hq : tsfloat_get s kf.q = tsfloat_get s' kf'.q)
    (hr : tsfloat_get s kf.r = tsfloat_get s' kf'.r)
    (hz : speed = 0 ↔ speed' = 0) :
    (kalman_run s kf pos speed acc dt).1.P = (kalman_run s' kf' pos' speed' acc' dt).1.P ∧
    (kalman_run s kf pos speed acc dt).1.K = (kalman_run s' kf' pos' speed' acc' dt).1.K ∧
    (kalman_run s kf pos speed acc dt).1.H = (kalman_run s' kf' pos' speed' acc' dt).1.H := by
  obtain ⟨h0, -, h2, h3⟩ := kalman_run_x_P s kf pos speed acc dt hwf
  obtain ⟨h0', -, h2', h3'⟩ := kalman_run_x_P s' kf' pos' speed' acc' dt hwf'
  have hd : decide (speed ≠ 0) = decide (speed' ≠ 0) := by
    simp only [ne_eq, decide_not]; congr 1; exact decide_eq_decide.2 hz
  refine ⟨by rw [h2, h2', hP, hus, hq, hr, hd], by rw [h0, h0', hP, hus, hq, hr, hd],
    by rw [h3, h3', hus, hd]⟩

/-- Witness of C20: the GPS filter after `kalman_init` run on two different
measurements, both with a non-zero speed. -/
theorem kalman_run_data_blind_witness :
    (kalman_run ⟨1 / 100, 1, 1, 1, 1⟩ kf_gps 1 2 3 (1 / 10)).1.P =
      (kalman_run ⟨1 / 100, 1, 1, 1, 1⟩ kf_gps_stale 4 5 6 (1 / 10)).1.P ∧
    (kalman_run ⟨1 / 100, 1, 1, 1, 1⟩ kf_gps 1 2 3 (1 / 10)).1.K =
      (kalman_run ⟨1 / 100, 1, 1, 1, 1⟩ kf_gps_stale 4 5 6 (1 / 10)).1.K ∧
    (kalman_run ⟨1 / 100, 1, 1, 1, 1⟩ kf_gps 1 2 3 (1 / 10)).1.H =
      (kalman_run ⟨1 / 100, 1, 1, 1, 1⟩ kf_gps_stale 4 5 6 (1 / 10)).1.H :=
  kalman_run_data_blind ⟨1 / 100, 1, 1, 1, 1⟩ ⟨1 / 100, 1, 1, 1, 1⟩ kf_gps kf_gps_stale 1 4 2 5 3 6 (1 / 10)
    (by decide) (by decide) rfl rfl rfl rfl (by norm_num)

/-- Counterexample to C13: the scenario run on the bank `pos_init` leaves
(`process_noise = 0.01`, `gps_noise = 1.0`, `use_gps_speed` set); after the ten
ticks `ne_pos.n` is about 0.777 and `ne_speed.n` about 0.509, neither within
0.1 of 1.0. -/
theorem ramp_scenario_misses_tolerance :
    pos_init pos_static ⟨1 / 100, 1, 1, 1, 1⟩ = some pos_ready ∧
    ramp_frames.map (fun i => (i.pos_n, i.speed_n, i.acc.n, i.dt)) = ramp10 ∧
    (pos_updates pos_ready pos_zero ramp_frames).2.ne_pos.n = .fin ramp_pos ∧
    (pos_updates pos_ready pos_zero ramp_frames).2.ne_speed.n = .fin ramp_speed ∧
    ¬ |ramp_pos - 1| ≤ 1 / 10 ∧ ¬ |ramp_speed - 1| ≤ 1 / 10 := by
  have hf : ramp_frames.map (fun i => (i.pos_n, i.speed_n, i.acc.n, i.dt)) = ramp10 := by
    simp [ramp_frames, ramp10]
  obtain ⟨h0, h1⟩ := pos_updates_ramp pos_ready pos_zero ramp_frames rfl rfl rfl hf
  exact ⟨pos_ready_eq, hf, h0, h1, ramp_values.1, ramp_values.2.1⟩

/-- Claim C13, amended: from the state `pos_init` leaves with
`process_noise = 0.01`, `gps_noise = 1.0` and `use_gps_speed` set, after ten
calls of `pos_update` with `dt = 0.1`, `pos_n = 0.1·k`, `speed_n = 0` and
`acc.n = 0` (any inputs on the other channels), `ne_pos.n` is `ramp_pos`,
between 0.77 and 0.78 and so within 0.25 of 1.0, and `ne_speed.n` is
`ramp_speed`, between 0.50 and 0.51: positive and within 0.5 of the slope. -/
theorem ramp_scenario (m : pos_module) (cfg : params_t) (out : pos_t) (fs : List pos_in_t)
    (h : m.once = false) (hq : cfg.process_noise = 1 / 100) (hr : cfg.gps_noise = 1)
    (hu : cfg.use_gps_speed = 1)
    (hfs : fs.map (fun i => (i.pos_n, i.speed_n, i.acc.n, i.dt)) = ramp10) :
    ∃ m', pos_init m cfg = some m' ∧
      (pos_updates m' out fs).2.ne_pos.n = .fin ramp_pos ∧
      (pos_updates m' out fs).2.ne_speed.n = .fin ramp_speed ∧
      77 / 100 < ramp_pos ∧ ramp_pos < 78 / 100 ∧ |ramp_pos - 1| < 1 / 4 ∧
      50 / 100 < ramp_speed ∧ ramp_speed < 51 / 100 ∧ 0 < ramp_speed ∧
      |ramp_speed - 1| < 1 / 2 := by
  obtain ⟨-, -, v1, v2, v3, v4⟩ := ramp_values
  obtain ⟨m', hm, hs, hn⟩ := pos_init_some m cfg h
  refine ⟨m', hm, ?_⟩
  obtain ⟨h0, h1⟩ := pos_updates_ramp m' out fs
    (hn.trans (by rw [tsint_get_bool, hu]; rfl)) (by rw [hs]; exact hq) (by rw [hs]; exact hr) hfs
  refine ⟨h0, h1, v1, v2, ?_, v3, v4, by linarith, ?_⟩
  · rw [abs_lt]; constructor <;> linarith
  · rw [abs_lt]; constructor <;> linarith

/-- Witness of C13, amended: the static storage and the ten frames with zeros
on the other channels. -/
theorem ramp_scenario_witness :
    ∃ m', pos_init pos_static ⟨1 / 100, 1, 1, 1, 1⟩ = some m' ∧
      (pos_updates m' pos_zero ramp_frames).2.ne_pos.n = .fin ramp_pos ∧
      (pos_updates m' pos_zero ramp_frames).2.ne_speed.n = .fin ramp_speed ∧
      77 / 100 < ramp_pos ∧ ramp_pos < 78 / 100 ∧ |ramp_pos - 1| < 1 / 4 ∧
      50 / 100 < ramp_speed ∧ ramp_speed < 51 / 100 ∧ 0 < ramp_speed ∧
      |ramp_speed - 1| < 1 / 2 :=
  ramp_scenario pos_static ⟨1 / 100, 1, 1, 1, 1⟩ pos_zero ramp_frames rfl rfl rfl rfl
    (by simp [ramp_frames, ramp10])

/-- Counterexample to C16: the GPS filter from `kalman_init` with
`process_noise = 0.01`, `gps_noise = 1.0`, fed the constant position 1 with
`dt = 0.1`, no speed and no acceleration: there is no tick after which the
error `|x[0] − 1|` decreases strictly at every tick. -/
theorem const_error_not_monotone :
    ∃ x : ℕ → ℚ,
      (∀ k, (kalman_ticks (kalman_init tsfloat_ref.process_noise tsfloat_ref.gps_noise 0 0 true)
        (List.replicate k ⟨⟨1 / 100, 1, 1, 1, 1⟩, 1, 0, 0, 1 / 10⟩)).x.ve0 = .fin (x k)) ∧
      ¬ ∃ N : ℕ, ∀ k, N ≤ k → |x (k + 1) - 1| < |x k - 1| := by
  refine ⟨fun k => (conv_st 1 k).x0, fun k => conv_code _ _ _ _ 1 k rfl rfl, ?_⟩
  rintro ⟨N, hN⟩
  obtain ⟨k, hk, hle⟩ := conv_not_eventually_decreasing 1 N
  exact absurd (hN k hk) (not_lt.2 hle)

/-- Claim C16, amended: in exact arithmetic, for a filter started from
`x = [0, 0]`, `P = I` and fed, on every tick, the constant position `p`, no
speed, no acceleration and `dt = 0.1`, with process noise 0.01 and measurement
noise 1.0, the estimate `x[0]` is finite at every tick and converges to `p`;
there is no tick after which the error decreases strictly at every tick:
after every tick `N` there is a tick at which `|x[0] − p|` does not
decrease. -/
theorem const_converges_not_monotone (s : params_t) (qref rref : tsfloat_ref) (us : Bool)
    (p : ℚ) (hq : tsfloat_get s qref = 1 / 100) (hr : tsfloat_get s rref = 1) :
    ∃ x : ℕ → ℚ,
      (∀ k, (kalman_ticks (kalman_init qref rref 0 0 us)
        (List.replicate k ⟨s, p, 0, 0, 1 / 10⟩)).x.ve0 = .fin (x k)) ∧
      (∀ ε : ℚ, 0 < ε → ∃ N : ℕ, ∀ k, N ≤ k → |x k - p| < ε) ∧
      (∀ N : ℕ, ∃ k, N ≤ k ∧ |x k - p| ≤ |x (k + 1) - p|) :=
  ⟨fun k => (conv_st p k).x0, fun k => conv_code s qref rref us p k hq hr,
    fun ε hε => conv_converges p ε hε, fun N => conv_not_eventually_decreasing p N⟩

/-- Witness of C16, amended: the barometric filter with the constant
position 3. -/
theorem const_converges_not_monotone_witness :
    ∃ x : ℕ → ℚ,
      (∀ k, (kalman_ticks (kalman_init tsfloat_ref.process_noise tsfloat_ref.baro_noise 0 0 false)
        (List.replicate k ⟨⟨1 / 100, 1, 1, 1, 1⟩, 3, 0, 0, 1 / 10⟩)).x.ve0 = .fin (x k)) ∧
      (∀ ε : ℚ, 0 < ε → ∃ N : ℕ, ∀ k, N ≤ k → |x k - 3| < ε) ∧
      (∀ N : ℕ, ∃ k, N ≤ k ∧ |x k - 3| ≤ |x (k + 1) - 3|) :=
  const_converges_not_monotone ⟨1 / 100, 1, 1, 1, 1⟩ tsfloat_ref.process_noise
    tsfloat_ref.baro_noise false 3 rfl rfl

end PenguPilot
